import Mathlib

/-!
# Técnico TI: mission state controller

A shallow embedding of `Examen-01/tecnico-ti-game/game.js`: the collision
filter, the interaction action, the keyboard handler, the per-frame callback
and the heads-up display update, with the module-level variables of the script
gathered in one record that every function takes and returns.

Numbers are elements of an arbitrary linearly ordered field `α` (exact
arithmetic): the definitions run on `ℚ` and are stated for `ℝ` as well.  The
transcendental functions of the browser (`Math.sqrt`, `Math.sin`, `Math.cos`,
`Math.atan2`) and the matrix work of the rendering engine are not part of the
script; they are taken as a parameter `E : Engine α`.
-/

set_option linter.unusedSectionVars false
set_option linter.unusedVariables false

namespace TecnicoTI

/-! ## Vectors and meshes -/

/-- Three coordinates, as in `BABYLON.Vector3`. -/
structure Vector3 (α : Type) where
  x : α
  y : α
  z : α

/-- Four coordinates, as in `BABYLON.Quaternion`. -/
structure Quaternion (α : Type) where
  x : α
  y : α
  z : α
  w : α

/-- The two meshes of the script that can be the target of a reference. -/
inductive MeshRef where
  | playerMesh
  | serverMesh
  deriving DecidableEq, Repr

/-- The part of a `BABYLON.TransformNode` that the script reads or writes.
`rotationQuaternion = none` is the JavaScript `null`; `parent = none` is a node
placed directly in the world. -/
structure Mesh (α : Type) where
  position : Vector3 α
  rotation : Vector3 α
  rotationQuaternion : Option (Quaternion α)
  scaling : Vector3 α
  parent : Option MeshRef

/-- The result of decomposing a local matrix: scaling, rotation (as a
quaternion and as Euler angles) and translation. -/
structure Decomposed (α : Type) where
  scaling : Vector3 α
  quaternion : Quaternion α
  euler : Vector3 α
  position : Vector3 α

/-- What the browser and the rendering engine compute for the script. -/
structure Engine (α : Type) where
  /-- The function `Math.sqrt`. -/
  sqrt : α → α
  /-- The function `Math.sin`. -/
  sin : α → α
  /-- The function `Math.cos`. -/
  cos : α → α
  /-- The function `Math.atan2`, first argument first. -/
  atan2 : α → α → α
  /-- The constant `Math.PI`. -/
  PI : α
  /-- World position of a point given in the local frame of a parent mesh. -/
  toWorld : Mesh α → Vector3 α → Vector3 α
  /-- Local transform of a mesh relative to a new parent (`none`: the world),
  given the mesh and its current parent mesh, keeping it where it is. -/
  relativeTo : Mesh α → Option (Mesh α) → Option (Mesh α) → Decomposed α
  /-- Quaternion of a mesh after a turn by an angle about the world Y axis. -/
  rotateY : Mesh α → α → Quaternion α

section Numeric

variable {α : Type} [LinearOrderedField α]

/-- The vector `Vector3.Zero()`. -/
def Vector3.Zero : Vector3 α := ⟨0, 0, 0⟩

/-- The method `a.add(b)`. -/
def Vector3.add (a b : Vector3 α) : Vector3 α := ⟨a.x + b.x, a.y + b.y, a.z + b.z⟩

/-- The method `a.subtract(b)`. -/
def Vector3.subtract (a b : Vector3 α) : Vector3 α := ⟨a.x - b.x, a.y - b.y, a.z - b.z⟩

/-- The method `a.scale(k)`. -/
def Vector3.scale (a : Vector3 α) (k : α) : Vector3 α := ⟨a.x * k, a.y * k, a.z * k⟩

/-- The method `a.equals(b)`: coordinate-wise equality. -/
def Vector3.equals (a b : Vector3 α) : Bool :=
  decide (a.x = b.x) && decide (a.y = b.y) && decide (a.z = b.z)

/-- The squared length `x*x + y*y + z*z`. -/
def Vector3.lengthSquared (a : Vector3 α) : α := a.x * a.x + a.y * a.y + a.z * a.z

/-- The method `a.length()`: `Math.sqrt` of the squared length. -/
def Vector3.length (E : Engine α) (a : Vector3 α) : α := E.sqrt a.lengthSquared

/-- The method `a.normalize()`: the engine leaves a vector of length 0 or 1
as it is and scales every other vector by `1 / length`. -/
def Vector3.normalize (E : Engine α) (a : Vector3 α) : Vector3 α :=
  if a.length E = 0 ∨ a.length E = 1 then a else a.scale (1 / a.length E)

/-- The static `Vector3.Distance(a, b)`: `Math.sqrt` of the squared distance. -/
def Vector3.Distance (E : Engine α) (a b : Vector3 α) : α :=
  E.sqrt ((a.subtract b).lengthSquared)

/-- The static `Scalar.Clamp(value, min, max)`:
`Math.min(max, Math.max(min, value))`. -/
def Scalar.Clamp (value lo hi : α) : α := min hi (max lo value)

/-! ## Constants of the script -/

/-- Displacement of the player per frame. -/
def MOVEMENT_SPEED : α := 2 / 10
/-- Height of the floor. -/
def FLOOR_LEVEL : α := 1
/-- Limit of the play area. -/
def GROUND_LIMIT : α := 18
/-- Extended limit for the backward direction. -/
def GROUND_LIMIT_BACK : α := 25
/-- Position of the server to pick up. -/
def PICKUP_ZONE_POSITION : Vector3 α := ⟨16, FLOOR_LEVEL, 16⟩
/-- Radius of the pickup zone marker. -/
def PICKUP_ZONE_RADIUS : α := 125 / 100
/-- Position of the delivery zone. -/
def DELIVERY_ZONE_POSITION : Vector3 α := ⟨-16, FLOOR_LEVEL, -18⟩
/-- Distance within which the server can be picked up. -/
def PICKUP_INTERACTION_DISTANCE : α := 3
/-- Distance within which the server can be delivered. -/
def DELIVERY_INTERACTION_DISTANCE : α := 5
/-- Collision radius of the player. -/
def PLAYER_RADIUS : α := 1 / 2
/-- Side of the minimap in pixels. -/
def minimapSize : α := 300

/-! ## Collision filter -/

/-- The `boundingBox` of a bounding info: its corners in world space. -/
structure BoundingBox (α : Type) where
  minimumWorld : Vector3 α
  maximumWorld : Vector3 α

/-- An entry of the `obstacles` array that is not `null`; `getBoundingInfo` is
`none` when the object has no such method. -/
structure Obstacle (α : Type) where
  getBoundingInfo : Option (BoundingBox α)

/-- The loop of `checkCollisionWithObstacles` with the collision radius as an
argument: entries that are `null` or have no bounding info are skipped, the
first box that contains the point after growing by the radius on X and Z
answers `true`, the end of the array answers `false`. -/
def checkCollisionWithRadius (radius : α) :
    List (Option (Obstacle α)) → α → α → Bool
  | [], _, _ => false
  | none :: rest, newX, newZ => checkCollisionWithRadius radius rest newX newZ
  | some obstacle :: rest, newX, newZ =>
    match obstacle.getBoundingInfo with
    | none => checkCollisionWithRadius radius rest newX newZ
    | some boundingBox =>
      let minX := boundingBox.minimumWorld.x - radius
      let maxX := boundingBox.maximumWorld.x + radius
      let minZ := boundingBox.minimumWorld.z - radius
      let maxZ := boundingBox.maximumWorld.z + radius
      if newX ≥ minX ∧ newX ≤ maxX ∧ newZ ≥ minZ ∧ newZ ≤ maxZ then true
      else checkCollisionWithRadius radius rest newX newZ

/-- The function `checkCollisionWithObstacles(newX, newZ)`, reading the
`obstacles` array and the constant `PLAYER_RADIUS`. -/
def checkCollisionWithObstacles (obstacles : List (Option (Obstacle α)))
    (newX newZ : α) : Bool :=
  checkCollisionWithRadius PLAYER_RADIUS obstacles newX newZ

/-- The point `(x, z)` lies in the box grown by `r` on X and on Z, bounds
included; the Y extent is not looked at. -/
def BoundingBox.containsExpanded (b : BoundingBox α) (r x z : α) : Prop :=
  b.minimumWorld.x - r ≤ x ∧ x ≤ b.maximumWorld.x + r ∧
  b.minimumWorld.z - r ≤ z ∧ z ≤ b.maximumWorld.z + r

end Numeric

/-! ## Session state -/

/-- The three values ever assigned to the variable `gameState`. -/
inductive GameState where
  | buscar_servidor
  | llevar_a_reparacion
  | completado
  deriving DecidableEq, Repr

/-- The object `inputState`: one flag per direction. -/
structure InputState where
  forward : Bool
  backward : Bool
  left : Bool
  right : Bool
  deriving DecidableEq, Repr

/-- An `Audio` element of the browser, as far as the script uses it. -/
structure Audio (α : Type) where
  paused : Bool
  currentTime : α
  volume : α

/-- An animation group of the player model. -/
structure AnimationGroup where
  name : String
  loopAnimation : Bool
  isPlaying : Bool

/-- The follow camera: the engine moves it, the script reads its position
and limits its radius and vertical angle. -/
structure Camera (α : Type) where
  position : Vector3 α
  radius : α
  beta : α

/-- The floating sign of the delivery zone; `baseY` is `metadata.baseY`. -/
structure DeliverySign (α : Type) where
  position : Vector3 α
  baseY : Option α

/-- The element `feedbackMessage` of the page. -/
structure FeedbackEl where
  textContent : String
  isVisible : Bool

/-- What a pending timer runs when it fires. -/
inductive TimerAction where
  | hideFeedback
  | stopParticles (system : Nat)
  | fadeOut
  deriving DecidableEq, Repr

/-- A pending `setTimeout` (`repeats = false`) or `setInterval`
(`repeats = true`); `delay` is in milliseconds. -/
structure Timer where
  id : Nat
  action : TimerAction
  delay : Nat
  repeats : Bool
  deriving DecidableEq, Repr

/-- Calls to the engine and the browser that the player can see or hear,
recorded in the order they are issued (latest first). -/
inductive Call where
  | walkStart
  | walkStop
  | footstepPlay
  | footstepPause
  | pickupPlay
  | successPlay
  | bgMusicPlay
  | particlesStart
  deriving DecidableEq, Repr

/-- The controls of the in-game GUI that `updateBabylonGUI` writes; lengths
are numbers of pixels, positions are `(left, top)`. -/
structure Gui (α : Type) where
  objectiveText : String
  proximityVisible : Bool
  proximityBarWidth : ℤ
  proximityBarBackground : String
  minimapPlayer : α × α
  minimapPlayerDir : α × α
  minimapPickup : α × α
  minimapPickupVisible : Bool
  minimapDelivery : α × α
  minimapDeliveryVisible : Bool

/-- The module-level variables of the script and the page and engine objects
they point to. A mesh, camera, sound or page element that is `none` is the
JavaScript `null`. -/
structure Session (α : Type) where
  playerMesh : Option (Mesh α)
  walkAnimationGroup : Option AnimationGroup
  serverMesh : Option (Mesh α)
  deliverySign : Option (DeliverySign α)
  followCamera : Option (Camera α)
  obstacles : List (Option (Obstacle α))
  elapsedTime : α
  playerHasPackage : Bool
  currentPackage : Option MeshRef
  gameState : GameState
  bgMusic : Option (Audio α)
  footstepSound : Option (Audio α)
  pickupSound : Option (Audio α)
  successSound : Option (Audio α)
  audioListenerArmed : Bool
  packageStatusEl : Option String
  currentObjectiveEl : Option String
  feedbackEl : Option FeedbackEl
  feedbackTimeoutId : Option Nat
  inputState : InputState
  isWalking : Bool
  targetPlayerRotationY : α
  gui : Gui α
  timers : List Timer
  nextTimerId : Nat
  particleSystems : List Nat
  nextParticleSystem : Nat
  calls : List Call

section Controller

variable {α : Type} [LinearOrderedField α] [FloorRing α]

/-! ### Engine methods on meshes, sounds and timers -/

/-- The method `mesh.getAbsolutePosition()`: the position itself for a mesh
placed in the world, the engine's world transform of it for a mesh with a
parent. -/
def getAbsolutePosition (E : Engine α) (s : Session α) (m : Mesh α) : Vector3 α :=
  match m.parent with
  | none => m.position
  | some MeshRef.playerMesh =>
    match s.playerMesh with
    | some p => E.toWorld p m.position
    | none => m.position
  | some MeshRef.serverMesh =>
    match s.serverMesh with
    | some p => E.toWorld p m.position
    | none => m.position

/-- The mesh a reference points to. -/
def deref (s : Session α) : Option MeshRef → Option (Mesh α)
  | none => none
  | some MeshRef.playerMesh => s.playerMesh
  | some MeshRef.serverMesh => s.serverMesh

/-- The method `mesh.setParent(node)`: nothing happens when the mesh has no
parent and gets none; otherwise the engine rewrites scaling, rotation and
position so that the mesh stays where it is, and records the parent. The
rotation is written to the quaternion when there is one and to the Euler
angles otherwise. -/
def Mesh.setParent (E : Engine α) (s : Session α) (m : Mesh α) (node : Option MeshRef) :
    Mesh α :=
  if node = none ∧ m.parent = none then m
  else
    let d := E.relativeTo m (deref s m.parent) (deref s node)
    { position := d.position
      rotation := if m.rotationQuaternion.isSome then m.rotation else d.euler
      rotationQuaternion := m.rotationQuaternion.map (fun _ => d.quaternion)
      scaling := d.scaling
      parent := node }

/-- The method `mesh.rotate(BABYLON.Axis.Y, amount, BABYLON.Space.WORLD)`: the
engine turns Euler angles into a quaternion first (and zeroes them) when the
mesh has none, then composes the turn into the quaternion. -/
def Mesh.rotate (E : Engine α) (m : Mesh α) (amount : α) : Mesh α :=
  { m with
    rotationQuaternion := some (E.rotateY m amount)
    rotation := if m.rotationQuaternion.isSome then m.rotation else Vector3.Zero }

/-- The method `audio.play()`; a rejected promise is caught and logged. -/
def Audio.play (a : Audio α) : Audio α := { a with paused := false }

/-- The method `audio.pause()`. -/
def Audio.pause (a : Audio α) : Audio α := { a with paused := true }

/-- The browser's `setTimeout` / `setInterval`: a new pending timer under a
fresh identifier. -/
def schedule (action : TimerAction) (delay : Nat) (repeats : Bool) (s : Session α) :
    Session α :=
  { s with
    timers := ⟨s.nextTimerId, action, delay, repeats⟩ :: s.timers
    nextTimerId := s.nextTimerId + 1 }

/-- The browser's `clearTimeout` / `clearInterval`. -/
def clearTimer (id : Nat) (s : Session α) : Session α :=
  { s with timers := s.timers.filter (fun t => t.id ≠ id) }

/-! ### Heads-up display of the page -/

/-- The function `showFeedback(message, duration)`. -/
def showFeedback (message : String) (duration : Nat) (s : Session α) : Session α :=
  match s.feedbackEl with
  | none => s
  | some _ =>
    let s1 := { s with feedbackEl := some ⟨message, true⟩ }
    let s2 := match s1.feedbackTimeoutId with
      | some id => if id ≠ 0 then clearTimer id s1 else s1
      | none => s1
    { schedule TimerAction.hideFeedback duration false s2 with
      feedbackTimeoutId := some s2.nextTimerId }

/-- The function `triggerVictoryEffect()`: a particle system is started and a
timer stops and disposes it after 1200 ms. -/
def triggerVictoryEffect (s : Session α) : Session α :=
  let s1 := { s with
    particleSystems := s.nextParticleSystem :: s.particleSystems
    nextParticleSystem := s.nextParticleSystem + 1
    calls := Call.particlesStart :: s.calls }
  schedule (TimerAction.stopParticles s.nextParticleSystem) 1200 false s1

/-- The function `updateUI()`. -/
def updateUI (s : Session α) : Session α :=
  let status := if s.playerHasPackage then "Sí, transportando" else "No, pendiente"
  let objective := match s.gameState with
    | GameState.buscar_servidor => "Encuentra y recoge el servidor"
    | GameState.llevar_a_reparacion => "Lleva el servidor a la zona de reparación"
    | GameState.completado => "Trabajo completado. Buen trabajo"
  { s with
    packageStatusEl := s.packageStatusEl.map (fun _ => status)
    currentObjectiveEl := s.currentObjectiveEl.map (fun _ => objective) }

/-! ### Interaction action -/

/-- The pickup branch of `tryInteract`, once the distance test has passed. -/
def pickUp (E : Engine α) (s : Session α) (serverMesh : Mesh α) : Session α :=
  let s1 := { s with playerHasPackage := true, currentPackage := some MeshRef.serverMesh }
  let m1 := { serverMesh with rotationQuaternion := none }
  let m2 := m1.setParent E s1 (some MeshRef.playerMesh)
  let m3 := { m2 with position := ⟨0, 12 / 10, 11 / 10⟩ }
  let m4 := { m3 with rotation := Vector3.Zero }
  let s2 := { s1 with serverMesh := some m4 }
  let s3 := { s2 with gameState := GameState.llevar_a_reparacion }
  let s4 := updateUI s3
  let s5 := showFeedback "¡Servidor recogido! Llévalo a reparación" 3500 s4
  match s5.pickupSound with
  | some a =>
    { s5 with
      pickupSound := some (Audio.play { a with currentTime := 0 })
      calls := Call.pickupPlay :: s5.calls }
  | none => s5

/-- The callback of the interval started on delivery: lower the volume of the
background music by 0.05 while it is above 0.05, then pause it, rewind it and
clear the interval. -/
def fadeOutStep (id : Nat) (s : Session α) : Session α :=
  match s.bgMusic with
  | none => s
  | some a =>
    if a.volume > 5 / 100 then
      { s with bgMusic := some { a with volume := a.volume - 5 / 100 } }
    else
      clearTimer id { s with bgMusic := some { a.pause with currentTime := 0 } }

/-- The delivery branch of `tryInteract`, once the distance test has passed. -/
def deliver (E : Engine α) (s : Session α) : Session α :=
  let s1 := { s with playerHasPackage := false, currentPackage := none }
  let s2 := match s1.serverMesh with
    | some serverMesh =>
      let m1 := serverMesh.setParent E s1 none
      let m2 := { m1 with rotationQuaternion := none }
      let m3 := { m2 with position := DELIVERY_ZONE_POSITION.add ⟨0, 6 / 10, 0⟩ }
      { s1 with serverMesh := some m3 }
    | none => s1
  let s3 := { s2 with gameState := GameState.completado }
  let s4 := updateUI s3
  let s5 := showFeedback "¡Misión completada! Servidor entregado para reparación" 4000 s4
  let s6 := triggerVictoryEffect s5
  let s7 := match s6.successSound with
    | some a =>
      { s6 with
        successSound := some (Audio.play { a with currentTime := 0 })
        calls := Call.successPlay :: s6.calls }
    | none => s6
  match s7.bgMusic with
  | some a => if a.paused then s7 else schedule TimerAction.fadeOut 100 true s7
  | none => s7

/-- The function `tryInteract()`. -/
def tryInteract (E : Engine α) (s : Session α) : Session α :=
  match s.playerMesh with
  | none => s
  | some playerMesh =>
    match s.gameState, s.serverMesh, s.playerHasPackage with
    | GameState.buscar_servidor, some serverMesh, false =>
      let distance :=
        Vector3.Distance E playerMesh.position (getAbsolutePosition E s serverMesh)
      if distance ≤ PICKUP_INTERACTION_DISTANCE then pickUp E s serverMesh else s
    | _, _, _ =>
      if s.gameState = GameState.llevar_a_reparacion ∧ s.playerHasPackage = true then
        let distanceToDelivery :=
          Vector3.Distance E playerMesh.position DELIVERY_ZONE_POSITION
        if distanceToDelivery ≤ DELIVERY_INTERACTION_DISTANCE then deliver E s else s
      else s

/-! ### Keyboard -/

/-- The function `handleInput(key, pressed)`; the key arrives lower-cased. -/
def handleInput (E : Engine α) (key : String) (pressed : Bool) (s : Session α) :
    Session α :=
  if key = "w" ∨ key = "arrowup" then
    { s with inputState := { s.inputState with forward := pressed } }
  else if key = "s" ∨ key = "arrowdown" then
    { s with inputState := { s.inputState with backward := pressed } }
  else if key = "a" ∨ key = "arrowleft" then
    { s with inputState := { s.inputState with left := pressed } }
  else if key = "d" ∨ key = "arrowright" then
    { s with inputState := { s.inputState with right := pressed } }
  else if key = "e" then
    if pressed then tryInteract E s else s
  else s

/-! ### In-game GUI -/

/-- The proximity value and the visibility flag that `updateBabylonGUI`
computes for the proximity bar: `(proximityValue, showProximity)`. -/
def proximity (E : Engine α) (s : Session α) (playerMesh : Mesh α) : α × Bool :=
  match s.gameState, s.serverMesh with
  | GameState.buscar_servidor, some serverMesh =>
    let distToServer :=
      Vector3.Distance E playerMesh.position (getAbsolutePosition E s serverMesh)
    if distToServer < PICKUP_INTERACTION_DISTANCE * 2 then
      (max 0 (1 - distToServer / (PICKUP_INTERACTION_DISTANCE * 2)), true)
    else (0, false)
  | GameState.llevar_a_reparacion, _ =>
    let distToDelivery := Vector3.Distance E playerMesh.position DELIVERY_ZONE_POSITION
    if distToDelivery < DELIVERY_INTERACTION_DISTANCE * 2 then
      (max 0 (1 - distToDelivery / (DELIVERY_INTERACTION_DISTANCE * 2)), true)
    else (0, false)
  | _, _ => (0, false)

/-- The colour of the proximity bar for a proximity value. -/
def proximityColor (proximityValue : α) : String :=
  if proximityValue > 7 / 10 then "#00ff88"
  else if proximityValue > 4 / 10 then "#ffdd00"
  else "#6fd6ff"

/-- The factor from world units to minimap pixels. -/
def mapScale : α := minimapSize / (GROUND_LIMIT * 2 + 10)

/-- The function `updateBabylonGUI()`. -/
def updateBabylonGUI (E : Engine α) (s : Session α) : Session α :=
  match s.playerMesh with
  | none => s
  | some playerMesh =>
    let objective := match s.gameState with
      | GameState.buscar_servidor => "🎯 Encuentra y recoge el servidor"
      | GameState.llevar_a_reparacion => "📦 Lleva el servidor a reparación"
      | GameState.completado => "✅ ¡Misión completada!"
    let proximityValue := (proximity E s playerMesh).1
    let showProximity := (proximity E s playerMesh).2
    let barWidth := if showProximity then ⌊proximityValue * 180⌋ else s.gui.proximityBarWidth
    let background :=
      if showProximity then proximityColor proximityValue else s.gui.proximityBarBackground
    let playerMapX := playerMesh.position.x * mapScale
    let playerMapZ := -playerMesh.position.z * mapScale
    let dirOffset : α := 12
    let dirX := playerMapX - E.sin playerMesh.rotation.y * dirOffset
    let dirZ := playerMapZ + E.cos playerMesh.rotation.y * dirOffset
    let pickupMapX := (PICKUP_ZONE_POSITION : Vector3 α).x * mapScale
    let pickupMapZ := -(PICKUP_ZONE_POSITION : Vector3 α).z * mapScale
    let deliveryMapX := (DELIVERY_ZONE_POSITION : Vector3 α).x * mapScale
    let deliveryMapZ := -(DELIVERY_ZONE_POSITION : Vector3 α).z * mapScale
    { s with gui :=
      { objectiveText := objective
        proximityVisible := showProximity
        proximityBarWidth := barWidth
        proximityBarBackground := background
        minimapPlayer := (playerMapX, playerMapZ)
        minimapPlayerDir := (dirX, dirZ)
        minimapPickup := (pickupMapX, pickupMapZ)
        minimapPickupVisible := decide (s.gameState = GameState.buscar_servidor)
        minimapDelivery := (deliveryMapX, deliveryMapZ)
        minimapDeliveryVisible := decide (s.gameState = GameState.llevar_a_reparacion) } }

/-! ### Frame callback -/

/-- The static `Tools.ToRadians(angle)`. -/
def ToRadians (E : Engine α) (angle : α) : α := angle * E.PI / 180

/-- The vector composed from the four flags:
`(right - left, 0, forward - backward)`. -/
def moveVector (i : InputState) : Vector3 α :=
  ⟨(if i.right then 1 else 0) - (if i.left then 1 else 0), 0,
   (if i.forward then 1 else 0) - (if i.backward then 1 else 0)⟩

/-- The vector `normalized` of the movement step: the input vector turned by
the facing angle, normalized and scaled by `MOVEMENT_SPEED`. -/
def normalizedMove (E : Engine α) (i : InputState) (angle : α) : Vector3 α :=
  let cosAngle := E.cos angle
  let sinAngle := E.sin angle
  let rotatedX := -(moveVector i : Vector3 α).x * cosAngle - (moveVector i : Vector3 α).z * sinAngle
  let rotatedZ := (moveVector i : Vector3 α).x * sinAngle - (moveVector i : Vector3 α).z * cosAngle
  ((⟨rotatedX, 0, rotatedZ⟩ : Vector3 α).normalize E).scale MOVEMENT_SPEED

/-- The facing angle: `Math.atan2` of the X and Z offsets from the player to
the camera. -/
def facingAngle (E : Engine α) (camera : Camera α) (playerMesh : Mesh α) : α :=
  E.atan2 (camera.position.subtract playerMesh.position).x
    (camera.position.subtract playerMesh.position).z

/-- The candidate `nextX` of the movement step. -/
def nextX (E : Engine α) (i : InputState) (angle : α) (playerMesh : Mesh α) : α :=
  Scalar.Clamp (playerMesh.position.x + (normalizedMove E i angle).x) (-GROUND_LIMIT) GROUND_LIMIT

/-- The candidate `nextZ` of the movement step. -/
def nextZ (E : Engine α) (i : InputState) (angle : α) (playerMesh : Mesh α) : α :=
  Scalar.Clamp (playerMesh.position.z + (normalizedMove E i angle).z) (-GROUND_LIMIT_BACK)
    GROUND_LIMIT

/-- The collision-gated position update: each axis takes its candidate when
the candidate on that axis alone is free. Both tests are made at the position
before the update. -/
def movePlayer (obstacles : List (Option (Obstacle α))) (candX candZ : α) (playerMesh : Mesh α) :
    Mesh α :=
  let canMoveX := !checkCollisionWithObstacles obstacles candX playerMesh.position.z
  let canMoveZ := !checkCollisionWithObstacles obstacles playerMesh.position.x candZ
  let p1 := if canMoveX then
      { playerMesh with position := { playerMesh.position with x := candX } }
    else playerMesh
  if canMoveZ then { p1 with position := { p1.position with z := candZ } } else p1

/-- Start of the walk animation and the footstep sound, when the player
starts to move. -/
def startWalking (s : Session α) : Session α :=
  match s.isWalking, s.walkAnimationGroup with
  | false, some g =>
    let s1 := { s with
      walkAnimationGroup := some { g with loopAnimation := true, isPlaying := true }
      isWalking := true
      calls := Call.walkStart :: s.calls }
    match s1.footstepSound with
    | some a =>
      if a.paused then
        { s1 with footstepSound := some a.play, calls := Call.footstepPlay :: s1.calls }
      else s1
    | none => s1
  | _, _ => s

/-- Stop of the walk animation and the footstep sound, when the player stops. -/
def stopWalking (s : Session α) : Session α :=
  match s.isWalking, s.walkAnimationGroup with
  | true, some g =>
    let s1 := { s with
      walkAnimationGroup := some { g with isPlaying := false }
      isWalking := false
      calls := Call.walkStop :: s.calls }
    match s1.footstepSound with
    | some a =>
      if a.paused then s1
      else
        { s1 with
          footstepSound := some { a.pause with currentTime := 0 }
          calls := Call.footstepPause :: s1.calls }
    | none => s1
  | _, _ => s

/-- The second half of the frame callback, run when both the player and the
camera exist: facing, movement, walk animation and GUI. -/
def movementStep (E : Engine α) (s : Session α) (playerMesh : Mesh α) (camera : Camera α) :
    Session α :=
  let p1 := { playerMesh with rotationQuaternion := none }
  let target := facingAngle E camera p1
  let p2 := { p1 with rotation := { p1.rotation with y := target } }
  let s1 := { s with targetPlayerRotationY := target, playerMesh := some p2 }
  let s2 :=
    if !(moveVector s1.inputState : Vector3 α).equals Vector3.Zero then
      let p3 := movePlayer s1.obstacles (nextX E s1.inputState target p2)
        (nextZ E s1.inputState target p2) p2
      startWalking { s1 with playerMesh := some p3 }
    else stopWalking s1
  updateBabylonGUI E s2

/-- The callback registered on `scene.onBeforeRenderObservable`, given the
time since the last frame. -/
def onBeforeRender (E : Engine α) (deltaTime : α) (s : Session α) : Session α :=
  let s1 := { s with elapsedTime := s.elapsedTime + deltaTime }
  let s2 := { s1 with followCamera := s1.followCamera.map (fun (c : Camera α) =>
    { c with
      radius := Scalar.Clamp c.radius 5 9
      beta := Scalar.Clamp c.beta (ToRadians E 45) (ToRadians E 80) }) }
  let s3 := match s2.serverMesh, s2.playerHasPackage with
    | some serverMesh, false => { s2 with serverMesh := some (serverMesh.rotate E (1 / 100)) }
    | _, _ => s2
  let s4 := { s3 with deliverySign := s3.deliverySign.map (fun (d : DeliverySign α) =>
    match d.baseY with
    | some b =>
      if b ≠ 0 then
        { d with position :=
          { d.position with y := b + E.sin (s3.elapsedTime * (2 / 1000)) * (25 / 100) } }
      else d
    | none => d) }
  match s4.playerMesh, s4.followCamera with
  | some playerMesh, some camera => movementStep E s4 playerMesh camera
  | _, _ => s4

/-! ### Asset loading -/

/-- The function `spawnPlayerPlaceholder()`: a capsule at the spawn point, no
walk animation. -/
def spawnPlayerPlaceholder (s : Session α) : Session α :=
  { s with
    playerMesh := some
      { position := ⟨0, FLOOR_LEVEL, 0⟩
        rotation := Vector3.Zero
        rotationQuaternion := none
        scaling := ⟨1, 1, 1⟩
        parent := none }
    walkAnimationGroup := none }

/-- The function `spawnServerPlaceholder()`: a box above the pickup zone. -/
def spawnServerPlaceholder (s : Session α) : Session α :=
  { s with
    serverMesh := some
      { position := PICKUP_ZONE_POSITION.add ⟨0, 6 / 10, 0⟩
        rotation := Vector3.Zero
        rotationQuaternion := none
        scaling := ⟨1, 1, 1⟩
        parent := none } }

/-- The test `group.name.toLowerCase().includes("walk")`. -/
def isWalkGroup (g : AnimationGroup) : Bool :=
  decide ((g.name.toLower.splitOn "walk").length ≠ 1)

/-- The function `handlePlayerLoaded(meshes, animationGroups)`; only the
first mesh is kept by the script. -/
def handlePlayerLoaded (meshes : List (Mesh α)) (animationGroups : List AnimationGroup)
    (s : Session α) : Session α :=
  match meshes with
  | [] => spawnPlayerPlaceholder s
  | mesh :: _ =>
    let baseScale : α := 2 / 10
    let m1 := { mesh with position := ⟨0, FLOOR_LEVEL, 0⟩ }
    let m2 := { m1 with scaling :=
      ⟨m1.scaling.x * baseScale, m1.scaling.y * baseScale, m1.scaling.z * baseScale⟩ }
    let m3 := { m2 with position := { m2.position with y := FLOOR_LEVEL } }
    let group := match animationGroups.find? isWalkGroup with
      | some g => some g
      | none => animationGroups.head?
    { s with
      playerMesh := some m3
      walkAnimationGroup := group.map (fun g => { g with loopAnimation := true }) }

/-- The function `handleServerLoaded(meshes)`; only the first mesh is kept by
the script. -/
def handleServerLoaded (meshes : List (Mesh α)) (s : Session α) : Session α :=
  match meshes with
  | [] => spawnServerPlaceholder s
  | mesh :: _ =>
    let serverScale : α := 18 / 100
    let m1 := { mesh with position := PICKUP_ZONE_POSITION.add ⟨0, 45 / 100, 0⟩ }
    let m2 := { m1 with scaling :=
      ⟨m1.scaling.x * serverScale, m1.scaling.y * serverScale, m1.scaling.z * serverScale⟩ }
    { s with serverMesh := some m2 }

/-! ### Timers and sound start -/

/-- The listener `startAudioOnInteraction`: the first click or key press on
the page starts the background music and removes the listener. -/
def startAudioOnInteraction (s : Session α) : Session α :=
  if s.audioListenerArmed then
    { s with
      bgMusic := s.bgMusic.map Audio.play
      audioListenerArmed := false
      calls := Call.bgMusicPlay :: s.calls }
  else s

/-- A pending timer fires: a timeout leaves the pending set before its
callback runs, an interval stays until it is cleared. -/
def fireTimer (id : Nat) (s : Session α) : Session α :=
  match s.timers.find? (fun t => t.id = id) with
  | none => s
  | some t =>
    let s1 := if t.repeats then s else clearTimer id s
    match t.action with
    | TimerAction.hideFeedback =>
      { s1 with feedbackEl := s1.feedbackEl.map (fun f => { f with isVisible := false }) }
    | TimerAction.stopParticles k =>
      { s1 with particleSystems := s1.particleSystems.filter (fun j => j ≠ k) }
    | TimerAction.fadeOut => fadeOutStep id s1

/-! ### Events and runs -/

/-- What the browser and the engine deliver to the script after it has
loaded. -/
inductive Event (α : Type) where
  /-- A key goes down; the key name is as the browser reports it. -/
  | keyDown (key : String)
  /-- A key goes up. -/
  | keyUp (key : String)
  /-- A frame is about to be rendered. -/
  | frame (deltaTime : α)
  /-- The engine has moved the camera (orbit, zoom, following the player). -/
  | cameraMoved (camera : Camera α)
  /-- The player model has loaded. -/
  | playerLoaded (meshes : List (Mesh α)) (animationGroups : List AnimationGroup)
  /-- The player model has failed to load. -/
  | playerLoadError
  /-- The server model has loaded. -/
  | serverLoaded (meshes : List (Mesh α))
  /-- The server model has failed to load. -/
  | serverLoadError
  /-- A click or key press reaches the page. -/
  | pageInteraction
  /-- The pending timer with this identifier fires. -/
  | timer (id : Nat)

/-- The effect of one event: the observer of `scene.onKeyboardObservable`
lower-cases the key and calls `handleInput`. -/
def step (E : Engine α) (s : Session α) : Event α → Session α
  | Event.keyDown key => handleInput E key.toLower true s
  | Event.keyUp key => handleInput E key.toLower false s
  | Event.frame deltaTime => onBeforeRender E deltaTime s
  | Event.cameraMoved camera => { s with followCamera := s.followCamera.map (fun _ => camera) }
  | Event.playerLoaded meshes animationGroups => handlePlayerLoaded meshes animationGroups s
  | Event.playerLoadError => spawnPlayerPlaceholder s
  | Event.serverLoaded meshes => handleServerLoaded meshes s
  | Event.serverLoadError => spawnServerPlaceholder s
  | Event.pageInteraction => startAudioOnInteraction s
  | Event.timer id => fireTimer id s

/-- The session after a sequence of events. -/
def run (E : Engine α) (s : Session α) : List (Event α) → Session α
  | [] => s
  | e :: rest => run E (step E s e) rest

/-- What `createScene` and the page fix before the first event: the desks,
the camera, the delivery sign and the three elements of the page (absent when
the page does not have them). -/
structure Setup (α : Type) where
  obstacles : List (Option (Obstacle α))
  camera : Camera α
  deliverySign : DeliverySign α
  packageStatusEl : Option String
  currentObjectiveEl : Option String
  feedbackEl : Option FeedbackEl

/-- The session once the script has been evaluated: nothing loaded yet, the
four sounds created and paused, the page updated once by `updateUI()`. -/
def initialSession (c : Setup α) : Session α :=
  updateUI
    { playerMesh := none
      walkAnimationGroup := none
      serverMesh := none
      deliverySign := some c.deliverySign
      followCamera := some c.camera
      obstacles := c.obstacles
      elapsedTime := 0
      playerHasPackage := false
      currentPackage := none
      gameState := GameState.buscar_servidor
      bgMusic := some ⟨true, 0, 3 / 10⟩
      footstepSound := some ⟨true, 0, 5 / 10⟩
      pickupSound := some ⟨true, 0, 6 / 10⟩
      successSound := some ⟨true, 0, 7 / 10⟩
      audioListenerArmed := true
      packageStatusEl := c.packageStatusEl
      currentObjectiveEl := c.currentObjectiveEl
      feedbackEl := c.feedbackEl
      feedbackTimeoutId := none
      inputState := ⟨false, false, false, false⟩
      isWalking := false
      targetPlayerRotationY := 0
      gui :=
        { objectiveText := "🎯 Encuentra y recoge el servidor"
          proximityVisible := false
          proximityBarWidth := 0
          proximityBarBackground := "linear-gradient(90deg, #6fd6ff, #00ff88)"
          minimapPlayer := (0, 0)
          minimapPlayerDir := (0, -20)
          minimapPickup := (0, 0)
          minimapPickupVisible := true
          minimapDelivery := (0, 0)
          minimapDeliveryVisible := true }
      timers := []
      nextTimerId := 1
      particleSystems := []
      nextParticleSystem := 0
      calls := [] }

/-- A session the script can be in: the result of some sequence of events
after some setup. -/
def Reachable (E : Engine α) (s : Session α) : Prop :=
  ∃ (c : Setup α) (events : List (Event α)), s = run E (initialSession c) events

/-! ### Vocabulary of the properties -/

/-- Game State together with the carrying flag. -/
def phase (s : Session α) : GameState × Bool := (s.gameState, s.playerHasPackage)

/-- Position of a Game State in the order
`buscar_servidor < llevar_a_reparacion < completado`. -/
def GameState.rank : GameState → Nat
  | GameState.buscar_servidor => 0
  | GameState.llevar_a_reparacion => 1
  | GameState.completado => 2

/-- The carrying flag is set exactly in the state `llevar_a_reparacion`. -/
def Consistent (s : Session α) : Prop :=
  s.playerHasPackage = true ↔ s.gameState = GameState.llevar_a_reparacion

/-- Player and package are loaded, Game State is `buscar_servidor` and the
player is within the pickup distance of the package. -/
def pickupReady (E : Engine α) (s : Session α) : Prop :=
  ∃ p m, s.playerMesh = some p ∧ s.serverMesh = some m ∧
    s.gameState = GameState.buscar_servidor ∧
    Vector3.Distance E p.position (getAbsolutePosition E s m) ≤ PICKUP_INTERACTION_DISTANCE

/-- The player is loaded, Game State is `llevar_a_reparacion` and the player
is within the delivery distance of the delivery point. -/
def deliveryReady (E : Engine α) (s : Session α) : Prop :=
  ∃ p, s.playerMesh = some p ∧ s.gameState = GameState.llevar_a_reparacion ∧
    Vector3.Distance E p.position DELIVERY_ZONE_POSITION ≤ DELIVERY_INTERACTION_DISTANCE

/-- The step from `s` to `t` is a pickup: Game State becomes
`llevar_a_reparacion` and the carrying flag becomes set. -/
def isPickup (s t : Session α) : Prop :=
  s.gameState ≠ GameState.llevar_a_reparacion ∧
    t.gameState = GameState.llevar_a_reparacion ∧ t.playerHasPackage = true

/-- The step from `s` to `t` is a delivery: Game State becomes `completado`
and the carrying flag becomes clear. -/
def isDelivery (s t : Session α) : Prop :=
  s.gameState ≠ GameState.completado ∧
    t.gameState = GameState.completado ∧ t.playerHasPackage = false

instance (s t : Session α) : Decidable (isPickup s t) :=
  inferInstanceAs (Decidable (_ ∧ _))

instance (s t : Session α) : Decidable (isDelivery s t) :=
  inferInstanceAs (Decidable (_ ∧ _))

/-- The number of events of a run from `s` that perform a pickup. -/
def countPickups (E : Engine α) (s : Session α) : List (Event α) → Nat
  | [] => 0
  | e :: rest =>
    (if isPickup s (step E s e) then 1 else 0) + countPickups E (step E s e) rest

/-- The number of events of a run from `s` that perform a delivery. -/
def countDeliveries (E : Engine α) (s : Session α) : List (Event α) → Nat
  | [] => 0
  | e :: rest =>
    (if isDelivery s (step E s e) then 1 else 0) + countDeliveries E (step E s e) rest

/-- The player mesh after the facing update of the frame callback: no
quaternion, yaw set to the facing angle. -/
def faced (E : Engine α) (camera : Camera α) (playerMesh : Mesh α) : Mesh α :=
  { playerMesh with
    rotationQuaternion := none
    rotation := { playerMesh.rotation with y := facingAngle E camera playerMesh } }

/-- The declared world bounds on X and Z, limits included. -/
def inBounds (v : Vector3 α) : Prop :=
  -GROUND_LIMIT ≤ v.x ∧ v.x ≤ GROUND_LIMIT ∧ -GROUND_LIMIT_BACK ≤ v.z ∧ v.z ≤ GROUND_LIMIT

/-- The player, when loaded, is inside the world bounds. -/
def playerInBounds (s : Session α) : Prop :=
  ∀ p, s.playerMesh = some p → inBounds p.position

/-- The proximity value as a function of the distance `d` to the objective,
for the interaction distance `R` of the current state: the expression of
`updateBabylonGUI`, `0` outside the window `d < R * 2`. -/
def proximityAt (R d : α) : α :=
  if d < R * 2 then max 0 (1 - d / (R * 2)) else 0

/-- The map that the movement step applies to the input vector `(mx, mz)`:
`(rotatedX, rotatedZ)` for the angle `a`. -/
def rotateXZ (E : Engine α) (a mx mz : α) : α × α :=
  (-mx * E.cos a - mz * E.sin a, mx * E.sin a - mz * E.cos a)

/-- The minimap position `(left, top)` that `updateBabylonGUI` computes for a
world position `(x, z)`. -/
def minimapProject (x z : α) : α × α := (x * mapScale, -z * mapScale)

/-- The engine computes exact real functions: `sqrt` is the non-negative
square root on non-negative numbers and `cos`, `sin` lie on the unit circle. -/
def ExactMath (E : Engine α) : Prop :=
  (∀ x, 0 ≤ x → 0 ≤ E.sqrt x ∧ E.sqrt x * E.sqrt x = x) ∧
  (∀ a, E.cos a * E.cos a + E.sin a * E.sin a = 1)

/-- The package mesh and the reference to the current package. -/
def cargo (s : Session α) : Option (Mesh α) × Option MeshRef :=
  (s.serverMesh, s.currentPackage)

/-- The package hangs on the player at the offset given by the pickup:
its parent is the player mesh and its position, relative to the parent, is
`(0, 1.2, 1.1)`. -/
def Carried (s : Session α) : Prop :=
  ∃ m, s.serverMesh = some m ∧ m.parent = some MeshRef.playerMesh ∧
    m.position = ⟨0, 12 / 10, 11 / 10⟩

/-- The event is a frame or a key going down or up. -/
def isFrameOrKey : Event α → Bool
  | Event.keyDown _ => true
  | Event.keyUp _ => true
  | Event.frame _ => true
  | _ => false

/-- The event is a key-down of the interaction key. -/
def isInteraction : Event α → Bool
  | Event.keyDown key => decide (key.toLower = "e")
  | _ => false

/-- The engine's `atan2` is exact: the sine and cosine of `atan2(y, x)` are
`y` and `x` divided by the length of `(x, y)`, for a direction that is not
zero. -/
def ExactAtan2 (E : Engine α) : Prop :=
  ∀ y x, (y ≠ 0 ∨ x ≠ 0) →
    E.sin (E.atan2 y x) * E.sqrt (y * y + x * x) = y ∧
    E.cos (E.atan2 y x) * E.sqrt (y * y + x * x) = x

/-- The calls that start or stop the walk animation, out of the call log,
latest first. -/
def walkLog (s : Session α) : List Call :=
  s.calls.filter (fun c => decide (c = Call.walkStart ∨ c = Call.walkStop))

/-- A log of walk calls, latest first, in which starts and stops take turns
and the earliest call is a start; the flag tells whether the latest call is a
start (`true`) or the log is empty or ends with a stop (`false`). -/
def Alternating : Bool → List Call → Prop
  | false, [] => True
  | true, Call.walkStart :: rest => Alternating false rest
  | false, Call.walkStop :: rest => Alternating true rest
  | _, _ => False

/-- What the walk animation and the footstep sound read and write: the flag
`isWalking`, the animation group, the footstep sound and the call log. -/
def walkView (s : Session α) : Bool × Option AnimationGroup × Option (Audio α) × List Call :=
  (s.isWalking, s.walkAnimationGroup, s.footstepSound, s.calls)

/-- The branch of the frame callback for a non-zero input vector, on the
variables it touches. -/
def startWalkingView (v : Bool × Option AnimationGroup × Option (Audio α) × List Call) :
    Bool × Option AnimationGroup × Option (Audio α) × List Call :=
  match v with
  | (false, some g, some a, calls) =>
    if a.paused then
      (true, some { g with loopAnimation := true, isPlaying := true }, some a.play,
        Call.footstepPlay :: Call.walkStart :: calls)
    else
      (true, some { g with loopAnimation := true, isPlaying := true }, some a,
        Call.walkStart :: calls)
  | (false, some g, none, calls) =>
    (true, some { g with loopAnimation := true, isPlaying := true }, none,
      Call.walkStart :: calls)
  | w => w

/-- The branch of the frame callback for a zero input vector, on the
variables it touches. -/
def stopWalkingView (v : Bool × Option AnimationGroup × Option (Audio α) × List Call) :
    Bool × Option AnimationGroup × Option (Audio α) × List Call :=
  match v with
  | (true, some g, some a, calls) =>
    if a.paused then
      (false, some { g with isPlaying := false }, some a, Call.walkStop :: calls)
    else
      (false, some { g with isPlaying := false }, some { a.pause with currentTime := 0 },
        Call.footstepPause :: Call.walkStop :: calls)
  | (true, some g, none, calls) =>
    (false, some { g with isPlaying := false }, none, Call.walkStop :: calls)
  | w => w

/-- The flag `isWalking` together with the walk calls of the log. -/
def walkTrace (s : Session α) : Bool × List Call := (s.isWalking, walkLog s)

/-- The input vector of the session is not zero: the test of the movement
step. -/
def isMoving (s : Session α) : Bool :=
  !(moveVector s.inputState : Vector3 α).equals Vector3.Zero

/-- The timer state of a session: the pending timers, the identifier the
browser hands out next, and the identifier `showFeedback` remembers. -/
def timerView (s : Session α) : List Timer × Nat × Option Nat :=
  (s.timers, s.nextTimerId, s.feedbackTimeoutId)

/-- The pending timers that hide the feedback message. -/
def hideTimers (s : Session α) : List Timer :=
  s.timers.filter (fun t => decide (t.action = TimerAction.hideFeedback))

/-- Timer identifiers are positive, below the next one to be handed out and
pairwise distinct, and every pending timer that hides the feedback message is
the one `feedbackTimeoutId` remembers. -/
def FeedbackTimers (s : Session α) : Prop :=
  0 < s.nextTimerId ∧
  (∀ t ∈ s.timers, 0 < t.id ∧ t.id < s.nextTimerId) ∧
  (s.timers.map Timer.id).Nodup ∧
  (∀ t ∈ s.timers, t.action = TimerAction.hideFeedback → s.feedbackTimeoutId = some t.id)

/-- A sequence of calls `showFeedback(message, duration)`, the head of the
list first. -/
def showFeedbacks (calls : List (String × Nat)) (s : Session α) : Session α :=
  calls.foldl (fun t c => showFeedback c.1 c.2 t) s

end Controller

end TecnicoTI

/-! ## Forest scene

The frame callback of `Clase 003/babylonjs-local-assets/public/assets/js/app.js`:
the flight of the bird around the forest and the light that follows it. -/

namespace ForestScene

open TecnicoTI

/-- The bird mesh, as far as the script writes it. -/
structure BirdMesh (α : Type) where
  position : Vector3 α
  rotation : Vector3 α
  scaling : Vector3 α

/-- The variables of `createScene` that the frame callback reads and writes;
`terrorbirdMesh = none` is the JavaScript `null` before the model has
loaded. -/
structure Flight (α : Type) where
  terrorbirdMesh : Option (BirdMesh α)
  birdMovementAngle : α
  birdLightPosition : Vector3 α
  animationStarted : Bool

section FlightDefs

variable {α : Type} [LinearOrderedField α]

/-- Radius of the flight circle. -/
def birdRadius : α := 8
/-- Height of the flight. -/
def birdHeight : α := 3
/-- Speed of the flight. -/
def birdSpeed : α := 5 / 10

/-- The variables when the script has been evaluated: no bird yet, the light
at `(0, 10, 0)`. -/
def initialFlight : Flight α :=
  { terrorbirdMesh := none
    birdMovementAngle := 0
    birdLightPosition := ⟨0, 10, 0⟩
    animationStarted := false }

/-- The callback of the bird model load, given the first mesh of the model. -/
def birdLoaded (E : Engine α) (mesh : BirdMesh α) (s : Flight α) : Flight α :=
  let placed : BirdMesh α :=
    { position := ⟨birdRadius, birdHeight, 0⟩
      rotation := { mesh.rotation with y := E.PI / 2 }
      scaling := ⟨2 / 1000, 2 / 1000, 2 / 1000⟩ }
  { s with terrorbirdMesh := some placed }

/-- The callback registered with `scene.registerBeforeRender`. -/
def beforeRender (E : Engine α) (s : Flight α) : Flight α :=
  match s.terrorbirdMesh with
  | none => s
  | some mesh =>
    let angle := s.birdMovementAngle + 1 / 100 * birdSpeed
    let x := E.cos angle * birdRadius
    let z := E.sin angle * birdRadius
    let moved : BirdMesh α :=
      { mesh with
        position := ⟨x, birdHeight + E.sin (angle * 3) * (5 / 10), z⟩
        rotation := { mesh.rotation with y := -angle + E.PI / 2 } }
    { terrorbirdMesh := some moved
      birdMovementAngle := angle
      birdLightPosition := ⟨x, birdHeight + 2, z⟩
      animationStarted := true }

end FlightDefs

end ForestScene

namespace TecnicoTI

/-! ## A concrete engine and concrete sessions -/

/-- Exact real arithmetic for the browser functions; for the matrix work of
the engine, the transforms of parents that are neither turned nor scaled. -/
noncomputable def realEngine : Engine ℝ where
  sqrt := Real.sqrt
  sin := Real.sin
  cos := Real.cos
  atan2 := fun y x => Complex.arg ⟨x, y⟩
  PI := Real.pi
  toWorld := fun parent v => parent.position.add v
  relativeTo := fun m current target =>
    let world := match current with
      | some c => c.position.add m.position
      | none => m.position
    { scaling := m.scaling
      quaternion := m.rotationQuaternion.getD ⟨0, 0, 0, 1⟩
      euler := m.rotation
      position := match target with
        | some t => world.subtract t.position
        | none => world }
  rotateY := fun m amount =>
    ⟨0, Real.sin ((m.rotation.y + amount) / 2), 0, Real.cos ((m.rotation.y + amount) / 2)⟩

/-- A setup with no desks, the camera behind the spawn point and a page with
all three elements. -/
noncomputable def plainSetup : Setup ℝ where
  obstacles := []
  camera := ⟨⟨0, 5, -8⟩, 10, 1⟩
  deliverySign := ⟨⟨-16, 24 / 10, -192 / 10⟩, some (24 / 10)⟩
  packageStatusEl := some ""
  currentObjectiveEl := some ""
  feedbackEl := some ⟨"", false⟩

/-- The session after both models have failed to load and the placeholders
stand in: player at the spawn point, package above the pickup zone. -/
noncomputable def loadedSession : Session ℝ :=
  run realEngine (initialSession plainSetup) [Event.playerLoadError, Event.serverLoadError]

/-- The loaded session with the player moved to a point and the package set
down on the pickup point `(16, 1, 16)`. -/
noncomputable def playerAt (x y z : ℝ) : Session ℝ :=
  { loadedSession with
    playerMesh := some ⟨⟨x, y, z⟩, Vector3.Zero, none, ⟨1, 1, 1⟩, none⟩
    serverMesh := some ⟨PICKUP_ZONE_POSITION, Vector3.Zero, none, ⟨1, 1, 1⟩, none⟩ }

/-- A session in which the package is carried and the player stands at a
point. -/
noncomputable def carryingAt (x y z : ℝ) : Session ℝ :=
  { playerAt x y z with
    playerHasPackage := true
    currentPackage := some MeshRef.serverMesh
    gameState := GameState.llevar_a_reparacion
    serverMesh := some
      ⟨⟨0, 12 / 10, 11 / 10⟩, Vector3.Zero, none, ⟨1, 1, 1⟩, some MeshRef.playerMesh⟩ }


/-- A session after the delivery: Game State COMPLETED, the package set down
on the delivery zone. -/
noncomputable def finishedAt (x y z : ℝ) : Session ℝ :=
  { playerAt x y z with
    gameState := GameState.completado
    serverMesh := some
      ⟨DELIVERY_ZONE_POSITION.add ⟨0, 6 / 10, 0⟩, Vector3.Zero, none, ⟨1, 1, 1⟩, none⟩ }

/-- The player at the spawn point with the forward and right keys held, the
camera straight behind, and one desk just ahead: its box, grown by the player
radius, covers `-1.5 ≤ x ≤ 1.5`, `0.1 ≤ z ≤ 2.5`. -/
noncomputable def slideSession : Session ℝ :=
  { playerAt 0 1 0 with
    obstacles := [some ⟨some ⟨⟨-1, 0, 6 / 10⟩, ⟨1, 1, 2⟩⟩⟩]
    inputState := ⟨true, false, false, true⟩ }

/-- The loaded session with the player moved to a point; the package stays
where `spawnServerPlaceholder` put it, at `(16, 1.6, 16)`. -/
noncomputable def standingAt (x y z : ℝ) : Session ℝ :=
  { loadedSession with
    playerMesh := some ⟨⟨x, y, z⟩, Vector3.Zero, none, ⟨1, 1, 1⟩, none⟩ }

/-- The bounding box of a desk of `createOfficeProps` standing on `(x, z)`:
the box is 2.4 wide, 0.9 high and 1.2 deep and its centre is at
`(x, 1.45, z)`. -/
noncomputable def deskAt (x z : ℝ) : Option (Obstacle ℝ) :=
  some ⟨some ⟨⟨x - 12 / 10, 1, z - 6 / 10⟩, ⟨x + 12 / 10, 19 / 10, z + 6 / 10⟩⟩⟩

/-- The `obstacles` array after `createOfficeProps`: the six desks on the
points of `cubiclePositions`, in that order. -/
noncomputable def officeDesks : List (Option (Obstacle ℝ)) :=
  [deskAt 5 0, deskAt (-5) 3, deskAt 10 (-5), deskAt (-12) (-2), deskAt 3 10, deskAt (-8) 12]

/-- The office with its six desks, the player at `(1.2, 1, 8.8)` just off
the corner of the desk on `(3, 10)` (its box, grown by the player radius,
covers `1.3 ≤ x ≤ 4.7`, `8.9 ≤ z ≤ 11.1`), the camera straight behind the
player and the forward and right keys held. -/
noncomputable def cornerSession : Session ℝ :=
  { standingAt (12 / 10) 1 (88 / 10) with
    obstacles := officeDesks
    followCamera := some ⟨⟨12 / 10, 5, 8 / 10⟩, 10, 1⟩
    inputState := ⟨true, false, false, true⟩ }

/-- The player at the spawn point with a walk animation and the forward key
held. -/
noncomputable def walkerSession : Session ℝ :=
  { playerAt 0 1 0 with
    walkAnimationGroup := some ⟨"Walk", true, false⟩
    inputState := ⟨true, false, false, false⟩ }

/-- The placeholder player (no animation group) at the spawn point with the
forward key held. -/
noncomputable def placeholderWalkSession : Session ℝ :=
  { playerAt 0 1 0 with inputState := ⟨true, false, false, false⟩ }

/-! ## Collision filter: correctness -/

section CollisionTheorems

variable {α : Type} [LinearOrderedField α]

theorem checkCollisionWithRadius_iff (r : α) (obstacles : List (Option (Obstacle α)))
    (x z : α) :
    checkCollisionWithRadius r obstacles x z = true ↔
      ∃ o b, some o ∈ obstacles ∧ o.getBoundingInfo = some b ∧ b.containsExpanded r x z := by
  induction obstacles with
  | nil => simp [checkCollisionWithRadius]
  | cons head rest ih =>
    cases head with
    | none =>
      simp only [checkCollisionWithRadius, ih, List.mem_cons]
      constructor
      · rintro ⟨o, b, hm, hb, hc⟩
        exact ⟨o, b, Or.inr hm, hb, hc⟩
      · rintro ⟨o, b, hm | hm, hb, hc⟩
        · cases hm
        · exact ⟨o, b, hm, hb, hc⟩
    | some obstacle =>
      cases hbi : obstacle.getBoundingInfo with
      | none =>
        simp only [checkCollisionWithRadius, hbi, ih, List.mem_cons]
        constructor
        · rintro ⟨o, b, hm, hb, hc⟩
          exact ⟨o, b, Or.inr hm, hb, hc⟩
        · rintro ⟨o, b, hm | hm, hb, hc⟩
          · cases hm
            rw [hbi] at hb
            cases hb
          · exact ⟨o, b, hm, hb, hc⟩
      | some box =>
        simp only [checkCollisionWithRadius, hbi, List.mem_cons]
        by_cases hin : box.containsExpanded r x z
        · have hin2 := hin
          unfold BoundingBox.containsExpanded at hin2
          simp only [ge_iff_le, hin2, and_self, if_true, true_iff]
          exact ⟨obstacle, box, Or.inl rfl, hbi, hin⟩
        · have hin2 := hin
          unfold BoundingBox.containsExpanded at hin2
          simp only [ge_iff_le, hin2, if_false, ih]
          constructor
          · rintro ⟨o, b, hm, hb, hc⟩
            exact ⟨o, b, Or.inr hm, hb, hc⟩
          · rintro ⟨o, b, hm | hm, hb, hc⟩
            · cases hm
              rw [hbi] at hb
              cases hb
              exact absurd hc hin
            · exact ⟨o, b, hm, hb, hc⟩

/-- C1: for every obstacle list, radius and candidate point, the collision
filter answers `true` exactly when some obstacle with bounding info has a box
that, grown by the radius on X and Z only, contains the point (bounds
included); this holds for the script's function with its radius
`PLAYER_RADIUS`, and the empty obstacle list always answers `false`. -/
theorem checkCollisionWithObstacles_spec (r : α) (obstacles : List (Option (Obstacle α)))
    (x z : α) :
    (checkCollisionWithRadius r obstacles x z = true ↔
      ∃ o b, some o ∈ obstacles ∧ o.getBoundingInfo = some b ∧
        (b.minimumWorld.x - r ≤ x ∧ x ≤ b.maximumWorld.x + r ∧
         b.minimumWorld.z - r ≤ z ∧ z ≤ b.maximumWorld.z + r)) ∧
    (checkCollisionWithObstacles obstacles x z = true ↔
      ∃ o b, some o ∈ obstacles ∧ o.getBoundingInfo = some b ∧
        (b.minimumWorld.x - PLAYER_RADIUS ≤ x ∧ x ≤ b.maximumWorld.x + PLAYER_RADIUS ∧
         b.minimumWorld.z - PLAYER_RADIUS ≤ z ∧ z ≤ b.maximumWorld.z + PLAYER_RADIUS)) ∧
    checkCollisionWithRadius r ([] : List (Option (Obstacle α))) x z = false ∧
    checkCollisionWithObstacles ([] : List (Option (Obstacle α))) x z = false :=
  ⟨checkCollisionWithRadius_iff r obstacles x z,
   checkCollisionWithRadius_iff PLAYER_RADIUS obstacles x z, rfl, rfl⟩

end CollisionTheorems

/-! ## Interaction action: what it changes and when -/

section InteractionTheorems

variable {α : Type} [LinearOrderedField α] [FloorRing α]

theorem phase_schedule (a : TimerAction) (d : Nat) (r : Bool) (s : Session α) :
    phase (schedule a d r s) = phase s := rfl

theorem phase_clearTimer (id : Nat) (s : Session α) : phase (clearTimer id s) = phase s := rfl

theorem phase_updateUI (s : Session α) : phase (updateUI s) = phase s := rfl

theorem phase_showFeedback (msg : String) (d : Nat) (s : Session α) :
    phase (showFeedback msg d s) = phase s := by
  unfold showFeedback
  cases s.feedbackEl with
  | none => rfl
  | some f =>
    cases hid : s.feedbackTimeoutId with
    | none => simp [phase, schedule, hid]
    | some id =>
      by_cases h0 : id = 0
      · simp [phase, schedule, hid, h0]
      · simp [phase, schedule, clearTimer, hid, h0]

theorem phase_triggerVictoryEffect (s : Session α) :
    phase (triggerVictoryEffect s) = phase s := rfl

theorem phase_pickUp (E : Engine α) (s : Session α) (m : Mesh α) :
    phase (pickUp E s m) = (GameState.llevar_a_reparacion, true) := by
  unfold pickUp
  simp only []
  split
  · simp only [phase]
    rw [show ∀ t : Session α, (t.gameState, t.playerHasPackage) = phase t from fun _ => rfl,
      phase_showFeedback, phase_updateUI]
    rfl
  · rw [phase_showFeedback, phase_updateUI]
    rfl

theorem phase_deliver (E : Engine α) (s : Session α) :
    phase (deliver E s) = (GameState.completado, false) := by
  have key : ∀ t : Session α, phase t = (GameState.completado, false) →
      phase (match t.bgMusic with
        | some a => if a.paused then t else schedule TimerAction.fadeOut 100 true t
        | none => t) = (GameState.completado, false) := by
    intro t ht
    cases t.bgMusic with
    | none => exact ht
    | some a =>
      by_cases hp : a.paused = true
      · simpa [hp] using ht
      · simpa [hp, phase_schedule] using ht
  have key2 : ∀ t : Session α, phase t = (GameState.completado, false) →
      phase (match t.successSound with
        | some a =>
          { t with
            successSound := some (Audio.play { a with currentTime := 0 })
            calls := Call.successPlay :: t.calls }
        | none => t) = (GameState.completado, false) := by
    intro t ht
    cases t.successSound with
    | none => exact ht
    | some a => exact ht
  unfold deliver
  apply key
  apply key2
  rw [phase_triggerVictoryEffect, phase_showFeedback, phase_updateUI]
  cases s.serverMesh <;> rfl

theorem tryInteract_of_no_player (E : Engine α) (s : Session α) (h : s.playerMesh = none) :
    tryInteract E s = s := by
  unfold tryInteract
  rw [h]

theorem tryInteract_pickup (E : Engine α) (s : Session α) (p m : Mesh α)
    (hp : s.playerMesh = some p) (hm : s.serverMesh = some m)
    (hg : s.gameState = GameState.buscar_servidor) (hf : s.playerHasPackage = false)
    (hd : Vector3.Distance E p.position (getAbsolutePosition E s m) ≤
      PICKUP_INTERACTION_DISTANCE) :
    tryInteract E s = pickUp E s m := by
  unfold tryInteract
  simp only [hp, hm, hg, hf]
  rw [if_pos hd]

theorem tryInteract_pickup_far (E : Engine α) (s : Session α) (p m : Mesh α)
    (hp : s.playerMesh = some p) (hm : s.serverMesh = some m)
    (hg : s.gameState = GameState.buscar_servidor)
    (hd : ¬ Vector3.Distance E p.position (getAbsolutePosition E s m) ≤
      PICKUP_INTERACTION_DISTANCE) :
    tryInteract E s = s := by
  unfold tryInteract
  cases hf : s.playerHasPackage with
  | false =>
    simp only [hp, hm, hg, hf]
    rw [if_neg hd]
  | true => simp [hp, hm, hg, hf]

theorem tryInteract_buscar_no_server (E : Engine α) (s : Session α)
    (hm : s.serverMesh = none) (hg : s.gameState = GameState.buscar_servidor) :
    tryInteract E s = s := by
  unfold tryInteract
  cases s.playerMesh with
  | none => rfl
  | some p => simp [hm, hg]

theorem tryInteract_buscar_flag (E : Engine α) (s : Session α)
    (hg : s.gameState = GameState.buscar_servidor) (hf : s.playerHasPackage = true) :
    tryInteract E s = s := by
  unfold tryInteract
  cases s.playerMesh with
  | none => rfl
  | some p =>
    cases hm : s.serverMesh <;> simp [hg, hf]

theorem tryInteract_deliver (E : Engine α) (s : Session α) (p : Mesh α)
    (hp : s.playerMesh = some p) (hg : s.gameState = GameState.llevar_a_reparacion)
    (hf : s.playerHasPackage = true)
    (hd : Vector3.Distance E p.position DELIVERY_ZONE_POSITION ≤
      DELIVERY_INTERACTION_DISTANCE) :
    tryInteract E s = deliver E s := by
  unfold tryInteract
  cases hm : s.serverMesh <;> simp [hp, hg, hf, hd]

theorem tryInteract_deliver_far (E : Engine α) (s : Session α) (p : Mesh α)
    (hp : s.playerMesh = some p) (hg : s.gameState = GameState.llevar_a_reparacion)
    (hd : ¬ Vector3.Distance E p.position DELIVERY_ZONE_POSITION ≤
      DELIVERY_INTERACTION_DISTANCE) :
    tryInteract E s = s := by
  unfold tryInteract
  cases hm : s.serverMesh <;> simp [hp, hg, hd]

theorem tryInteract_llevar_flag (E : Engine α) (s : Session α)
    (hg : s.gameState = GameState.llevar_a_reparacion) (hf : s.playerHasPackage = false) :
    tryInteract E s = s := by
  unfold tryInteract
  cases s.playerMesh with
  | none => rfl
  | some p =>
    cases hm : s.serverMesh <;> simp [hg, hf]

theorem tryInteract_completado (E : Engine α) (s : Session α)
    (hg : s.gameState = GameState.completado) : tryInteract E s = s := by
  unfold tryInteract
  cases s.playerMesh with
  | none => rfl
  | some p =>
    cases hm : s.serverMesh <;> simp [hg]

theorem tryInteract_eq_self_of_not_ready (E : Engine α) (s : Session α)
    (h1 : ¬ pickupReady E s) (h2 : ¬ deliveryReady E s) : tryInteract E s = s := by
  cases hp : s.playerMesh with
  | none => exact tryInteract_of_no_player E s hp
  | some p =>
    cases hg : s.gameState with
    | buscar_servidor =>
      cases hm : s.serverMesh with
      | none => exact tryInteract_buscar_no_server E s hm hg
      | some m =>
        apply tryInteract_pickup_far E s p m hp hm hg
        intro hd
        exact h1 ⟨p, m, hp, hm, hg, hd⟩
    | llevar_a_reparacion =>
      apply tryInteract_deliver_far E s p hp hg
      intro hd
      exact h2 ⟨p, hp, hg, hd⟩
    | completado => exact tryInteract_completado E s hg

theorem tryInteract_phase_cases (E : Engine α) (s : Session α) :
    tryInteract E s = s ∨
    (s.gameState = GameState.buscar_servidor ∧ s.playerHasPackage = false ∧ pickupReady E s ∧
      phase (tryInteract E s) = (GameState.llevar_a_reparacion, true)) ∨
    (s.gameState = GameState.llevar_a_reparacion ∧ s.playerHasPackage = true ∧
      deliveryReady E s ∧ phase (tryInteract E s) = (GameState.completado, false)) := by
  cases hp : s.playerMesh with
  | none => exact Or.inl (tryInteract_of_no_player E s hp)
  | some p =>
    cases hg : s.gameState with
    | buscar_servidor =>
      cases hf : s.playerHasPackage with
      | true => exact Or.inl (tryInteract_buscar_flag E s hg hf)
      | false =>
        cases hm : s.serverMesh with
        | none => exact Or.inl (tryInteract_buscar_no_server E s hm hg)
        | some m =>
          by_cases hd : Vector3.Distance E p.position (getAbsolutePosition E s m) ≤
              PICKUP_INTERACTION_DISTANCE
          · refine Or.inr (Or.inl ⟨rfl, rfl, ⟨p, m, hp, hm, hg, hd⟩, ?_⟩)
            rw [tryInteract_pickup E s p m hp hm hg hf hd, phase_pickUp]
          · exact Or.inl (tryInteract_pickup_far E s p m hp hm hg hd)
    | llevar_a_reparacion =>
      cases hf : s.playerHasPackage with
      | false => exact Or.inl (tryInteract_llevar_flag E s hg hf)
      | true =>
        by_cases hd : Vector3.Distance E p.position DELIVERY_ZONE_POSITION ≤
            DELIVERY_INTERACTION_DISTANCE
        · refine Or.inr (Or.inr ⟨rfl, rfl, ⟨p, hp, hg, hd⟩, ?_⟩)
          rw [tryInteract_deliver E s p hp hg hf hd, phase_deliver]
        · exact Or.inl (tryInteract_deliver_far E s p hp hg hd)
    | completado => exact Or.inl (tryInteract_completado E s hg)

theorem tryInteract_cases (E : Engine α) (s : Session α) :
    tryInteract E s = s ∨ (∃ m, tryInteract E s = pickUp E s m) ∨
      tryInteract E s = deliver E s := by
  cases hp : s.playerMesh with
  | none => exact Or.inl (tryInteract_of_no_player E s hp)
  | some p =>
    cases hg : s.gameState with
    | buscar_servidor =>
      cases hf : s.playerHasPackage with
      | true => exact Or.inl (tryInteract_buscar_flag E s hg hf)
      | false =>
        cases hm : s.serverMesh with
        | none => exact Or.inl (tryInteract_buscar_no_server E s hm hg)
        | some m =>
          by_cases hd : Vector3.Distance E p.position (getAbsolutePosition E s m) ≤
              PICKUP_INTERACTION_DISTANCE
          · exact Or.inr (Or.inl ⟨m, tryInteract_pickup E s p m hp hm hg hf hd⟩)
          · exact Or.inl (tryInteract_pickup_far E s p m hp hm hg hd)
    | llevar_a_reparacion =>
      cases hf : s.playerHasPackage with
      | false => exact Or.inl (tryInteract_llevar_flag E s hg hf)
      | true =>
        by_cases hd : Vector3.Distance E p.position DELIVERY_ZONE_POSITION ≤
            DELIVERY_INTERACTION_DISTANCE
        · exact Or.inr (Or.inr (tryInteract_deliver E s p hp hg hf hd))
        · exact Or.inl (tryInteract_deliver_far E s p hp hg hd)
    | completado => exact Or.inl (tryInteract_completado E s hg)

theorem phase_eq_iff (s : Session α) (g : GameState) (b : Bool) :
    phase s = (g, b) ↔ s.gameState = g ∧ s.playerHasPackage = b := by
  simp [phase]

/-- C2 (amended): with the player and the package loaded, in a session whose
carrying flag is set exactly in the state DELIVERING (as in every reachable
session), the interaction action performs a pickup (Game State becomes
DELIVERING and the carrying flag becomes set) if and only if Game State is
SEEKING_PACKAGE and the distance from the player position to the absolute
position of the package is at most `PICKUP_INTERACTION_DISTANCE = 3`, bound
included; in every other case the session is unchanged, unless Game State is
DELIVERING and the player is within the delivery distance of the delivery
point. -/
theorem tryInteract_pickup_iff (E : Engine α) (s : Session α) (p m : Mesh α)
    (hp : s.playerMesh = some p) (hm : s.serverMesh = some m) (hc : Consistent s) :
    (isPickup s (tryInteract E s) ↔
      (s.gameState = GameState.buscar_servidor ∧
        Vector3.Distance E p.position (getAbsolutePosition E s m) ≤ 3)) ∧
    (¬ (s.gameState = GameState.buscar_servidor ∧
        Vector3.Distance E p.position (getAbsolutePosition E s m) ≤ 3) →
      ¬ deliveryReady E s → tryInteract E s = s) := by
  have hready : pickupReady E s ↔ (s.gameState = GameState.buscar_servidor ∧
      Vector3.Distance E p.position (getAbsolutePosition E s m) ≤ 3) := by
    constructor
    · rintro ⟨p', m', hp', hm', hg, hd⟩
      rw [hp] at hp'
      rw [hm] at hm'
      cases hp'
      cases hm'
      exact ⟨hg, hd⟩
    · rintro ⟨hg, hd⟩
      exact ⟨p, m, hp, hm, hg, hd⟩
  refine ⟨⟨?_, ?_⟩, ?_⟩
  · rintro ⟨hne, hg', hf'⟩
    rcases tryInteract_phase_cases E s with h | ⟨_, _, hr, _⟩ | ⟨_, _, _, hph⟩
    · rw [h] at hg'
      exact absurd hg' hne
    · exact hready.mp hr
    · rw [phase_eq_iff] at hph
      rw [hph.1] at hg'
      cases hg'
  · rintro ⟨hg, hd⟩
    have hf : s.playerHasPackage = false := by
      cases hf : s.playerHasPackage with
      | false => rfl
      | true =>
        have := hc.mp hf
        rw [hg] at this
        cases this
    have h := tryInteract_pickup E s p m hp hm hg hf hd
    have hph := phase_pickUp E s m
    rw [← h, phase_eq_iff] at hph
    refine ⟨?_, hph.1, hph.2⟩
    rw [hg]
    intro hcontra
    cases hcontra
  · intro hn hd
    exact tryInteract_eq_self_of_not_ready E s (fun hr => hn (hready.mp hr)) hd

/-- C3 (amended): with the player loaded, in a session whose carrying flag is
set exactly in the state DELIVERING (as in every reachable session), the
interaction action performs a delivery (Game State becomes COMPLETED and the
carrying flag becomes clear) if and only if Game State is DELIVERING and the
distance from the player position to the delivery point `(-16, 1, -18)` is at
most `DELIVERY_INTERACTION_DISTANCE = 5`, bound included; otherwise the
session is unchanged, unless Game State is SEEKING_PACKAGE with the package
loaded and within the pickup distance. -/
theorem tryInteract_delivery_iff (E : Engine α) (s : Session α) (p : Mesh α)
    (hp : s.playerMesh = some p) (hc : Consistent s) :
    (isDelivery s (tryInteract E s) ↔
      (s.gameState = GameState.llevar_a_reparacion ∧
        Vector3.Distance E p.position ⟨-16, 1, -18⟩ ≤ 5)) ∧
    (¬ (s.gameState = GameState.llevar_a_reparacion ∧
        Vector3.Distance E p.position ⟨-16, 1, -18⟩ ≤ 5) →
      ¬ pickupReady E s → tryInteract E s = s) := by
  have hready : deliveryReady E s ↔ (s.gameState = GameState.llevar_a_reparacion ∧
      Vector3.Distance E p.position ⟨-16, 1, -18⟩ ≤ 5) := by
    constructor
    · rintro ⟨p', hp', hg, hd⟩
      rw [hp] at hp'
      cases hp'
      exact ⟨hg, hd⟩
    · rintro ⟨hg, hd⟩
      exact ⟨p, hp, hg, hd⟩
  refine ⟨⟨?_, ?_⟩, ?_⟩
  · rintro ⟨hne, hg', hf'⟩
    rcases tryInteract_phase_cases E s with h | ⟨_, _, _, hph⟩ | ⟨_, _, hr, _⟩
    · rw [h] at hg'
      exact absurd hg' hne
    · rw [phase_eq_iff] at hph
      rw [hph.1] at hg'
      cases hg'
    · exact hready.mp hr
  · rintro ⟨hg, hd⟩
    have hf : s.playerHasPackage = true := hc.mpr hg
    have h := tryInteract_deliver E s p hp hg hf hd
    have hph := phase_deliver E s
    rw [← h, phase_eq_iff] at hph
    refine ⟨?_, hph.1, hph.2⟩
    rw [hg]
    intro hcontra
    cases hcontra
  · intro hn hd
    exact tryInteract_eq_self_of_not_ready E s hd (fun hr => hn (hready.mp hr))

/-- C5: ordering the states SEEKING_PACKAGE < DELIVERING < COMPLETED, one
interaction action leaves Game State where it is or advances it by exactly
one step,
whatever the positions of player and package; in particular an interaction in
SEEKING_PACKAGE never ends in COMPLETED. -/
theorem tryInteract_rank (E : Engine α) (s : Session α) :
    ((tryInteract E s).gameState.rank = s.gameState.rank ∨
      (tryInteract E s).gameState.rank = s.gameState.rank + 1) ∧
    (s.gameState = GameState.buscar_servidor →
      (tryInteract E s).gameState ≠ GameState.completado) := by
  rcases tryInteract_phase_cases E s with h | ⟨hg, _, _, hph⟩ | ⟨hg, _, _, hph⟩
  · rw [h]
    refine ⟨Or.inl rfl, ?_⟩
    intro hg hcontra
    rw [hg] at hcontra
    cases hcontra
  · rw [phase_eq_iff] at hph
    rw [hph.1, hg]
    refine ⟨Or.inr rfl, ?_⟩
    intro _ hcontra
    cases hcontra
  · rw [phase_eq_iff] at hph
    rw [hph.1, hg]
    refine ⟨Or.inr rfl, ?_⟩
    intro hcontra
    cases hcontra

/-- C10: an interaction action whose preconditions are not met (neither a
pickup nor a delivery is ready: player or package not loaded, wrong state, or
out of range) returns normally and leaves the whole session as it was, so
Game State, carrying flag, current package, the package mesh and the feedback
message are unchanged, and any number of such calls equals none. -/
theorem tryInteract_noop (E : Engine α) (s : Session α) (n : Nat)
    (h1 : ¬ pickupReady E s) (h2 : ¬ deliveryReady E s) :
    tryInteract E s = s ∧ (tryInteract E)^[n] s = s := by
  have h := tryInteract_eq_self_of_not_ready E s h1 h2
  refine ⟨h, ?_⟩
  induction n with
  | zero => rfl
  | succ k ih => rw [Function.iterate_succ_apply, h, ih]

end InteractionTheorems

/-! ## Events other than the interaction key -/

section EventTheorems

variable {α : Type} [LinearOrderedField α] [FloorRing α]

theorem phase_updateBabylonGUI (E : Engine α) (s : Session α) :
    phase (updateBabylonGUI E s) = phase s := by
  unfold updateBabylonGUI
  split <;> rfl

theorem phase_startWalking (s : Session α) : phase (startWalking s) = phase s := by
  unfold startWalking
  split
  · simp only []
    (repeat' split) <;> rfl
  · rfl

theorem phase_stopWalking (s : Session α) : phase (stopWalking s) = phase s := by
  unfold stopWalking
  split
  · simp only []
    (repeat' split) <;> rfl
  · rfl

theorem phase_movementStep (E : Engine α) (s : Session α) (p : Mesh α) (c : Camera α) :
    phase (movementStep E s p c) = phase s := by
  unfold movementStep
  simp only []
  rw [phase_updateBabylonGUI]
  split
  · rw [phase_startWalking]
    rfl
  · rw [phase_stopWalking]
    rfl

theorem phase_onBeforeRender (E : Engine α) (deltaTime : α) (s : Session α) :
    phase (onBeforeRender E deltaTime s) = phase s := by
  unfold onBeforeRender
  simp only []
  split
  · rw [phase_movementStep]
    simp only [phase]
    split <;> rfl
  · simp only [phase]
    split <;> rfl

theorem phase_handlePlayerLoaded (meshes : List (Mesh α)) (groups : List AnimationGroup)
    (s : Session α) : phase (handlePlayerLoaded meshes groups s) = phase s := by
  unfold handlePlayerLoaded
  split <;> rfl

theorem phase_handleServerLoaded (meshes : List (Mesh α)) (s : Session α) :
    phase (handleServerLoaded meshes s) = phase s := by
  unfold handleServerLoaded
  split <;> rfl

theorem phase_startAudioOnInteraction (s : Session α) :
    phase (startAudioOnInteraction s) = phase s := by
  unfold startAudioOnInteraction
  split <;> rfl

theorem phase_fadeOutStep (id : Nat) (s : Session α) : phase (fadeOutStep id s) = phase s := by
  unfold fadeOutStep
  (repeat' split) <;> rfl

theorem phase_fireTimer (id : Nat) (s : Session α) : phase (fireTimer id s) = phase s := by
  unfold fireTimer
  split
  · rfl
  · simp only []
    split
    · split <;> rfl
    · split <;> rfl
    · rw [phase_fadeOutStep]
      split <;> rfl

theorem handleInput_cases (E : Engine α) (key : String) (pressed : Bool) (s : Session α) :
    phase (handleInput E key pressed s) = phase s ∨
      (key = "e" ∧ pressed = true ∧ handleInput E key pressed s = tryInteract E s) := by
  unfold handleInput
  split
  · exact Or.inl rfl
  · split
    · exact Or.inl rfl
    · split
      · exact Or.inl rfl
      · split
        · exact Or.inl rfl
        · split
          · rename_i he
            cases pressed with
            | true => exact Or.inr ⟨he, rfl, rfl⟩
            | false => exact Or.inl rfl
          · exact Or.inl rfl

theorem step_cases (E : Engine α) (s : Session α) (e : Event α) :
    phase (step E s e) = phase s ∨ step E s e = tryInteract E s := by
  cases e with
  | keyDown key =>
    rcases handleInput_cases E key.toLower true s with h | ⟨_, _, h⟩
    · exact Or.inl h
    · exact Or.inr h
  | keyUp key =>
    rcases handleInput_cases E key.toLower false s with h | ⟨_, hf, _⟩
    · exact Or.inl h
    · cases hf
  | frame deltaTime => exact Or.inl (phase_onBeforeRender E deltaTime s)
  | cameraMoved camera => exact Or.inl rfl
  | playerLoaded meshes groups => exact Or.inl (phase_handlePlayerLoaded meshes groups s)
  | playerLoadError => exact Or.inl rfl
  | serverLoaded meshes => exact Or.inl (phase_handleServerLoaded meshes s)
  | serverLoadError => exact Or.inl rfl
  | pageInteraction => exact Or.inl (phase_startAudioOnInteraction s)
  | timer id => exact Or.inl (phase_fireTimer id s)

/-- Every event leaves Game State and carrying flag alone, or performs a
pickup from a consistent SEEKING_PACKAGE session, or a delivery from a
consistent DELIVERING session. -/
theorem step_phase (E : Engine α) (s : Session α) (e : Event α) :
    phase (step E s e) = phase s ∨
    (phase s = (GameState.buscar_servidor, false) ∧
      phase (step E s e) = (GameState.llevar_a_reparacion, true)) ∨
    (phase s = (GameState.llevar_a_reparacion, true) ∧
      phase (step E s e) = (GameState.completado, false)) := by
  rcases step_cases E s e with h | h
  · exact Or.inl h
  · rw [h]
    rcases tryInteract_phase_cases E s with h' | ⟨hg, hf, _, hph⟩ | ⟨hg, hf, _, hph⟩
    · rw [h']
      exact Or.inl rfl
    · exact Or.inr (Or.inl ⟨(phase_eq_iff s _ _).mpr ⟨hg, hf⟩, hph⟩)
    · exact Or.inr (Or.inr ⟨(phase_eq_iff s _ _).mpr ⟨hg, hf⟩, hph⟩)

theorem run_append (E : Engine α) (s : Session α) (xs ys : List (Event α)) :
    run E s (xs ++ ys) = run E (run E s xs) ys := by
  induction xs generalizing s with
  | nil => rfl
  | cons e rest ih => exact ih (step E s e)

theorem consistent_iff_phase (s : Session α) :
    Consistent s ↔ (phase s = (GameState.buscar_servidor, false) ∨
      phase s = (GameState.llevar_a_reparacion, true) ∨
      phase s = (GameState.completado, false)) := by
  unfold Consistent
  simp only [phase_eq_iff]
  cases s.gameState <;> cases s.playerHasPackage <;> simp

theorem consistent_step (E : Engine α) (s : Session α) (e : Event α) (h : Consistent s) :
    Consistent (step E s e) := by
  rw [consistent_iff_phase] at h ⊢
  rcases step_phase E s e with h' | ⟨_, h'⟩ | ⟨_, h'⟩
  · rw [h']
    exact h
  · exact Or.inr (Or.inl h')
  · exact Or.inr (Or.inr h')

theorem consistent_run (E : Engine α) (s : Session α) (events : List (Event α))
    (h : Consistent s) : Consistent (run E s events) := by
  induction events generalizing s with
  | nil => exact h
  | cons e rest ih => exact ih (step E s e) (consistent_step E s e h)

theorem consistent_initialSession (c : Setup α) : Consistent (initialSession c) := by
  unfold Consistent
  constructor
  · intro h
    cases h
  · intro h
    cases h

/-- C4: the initial Game State is SEEKING_PACKAGE, and COMPLETED is absorbing:
from a session whose Game State is COMPLETED and whose carrying flag is clear,
every event (a key going down or up, the interaction key included, a frame,
a camera move, a load callback, a timer) leaves Game State COMPLETED and the
carrying flag clear. -/
theorem completado_absorbing (E : Engine α) (c : Setup α) (s : Session α) (e : Event α)
    (hg : s.gameState = GameState.completado) (hf : s.playerHasPackage = false) :
    (initialSession c).gameState = GameState.buscar_servidor ∧
    (step E s e).gameState = GameState.completado ∧
    (step E s e).playerHasPackage = false := by
  refine ⟨rfl, ?_⟩
  rw [← phase_eq_iff]
  have hs : phase s = (GameState.completado, false) := (phase_eq_iff s _ _).mpr ⟨hg, hf⟩
  rcases step_phase E s e with h | ⟨h, _⟩ | ⟨h, _⟩
  · rw [h, hs]
  · rw [hs] at h
    cases h
  · rw [hs] at h
    cases h

/-- C6: in every session reachable from the initial one by any sequence of
events, the carrying flag is set if and only if Game State is DELIVERING. -/
theorem reachable_consistent (E : Engine α) (s : Session α) (h : Reachable E s) :
    s.playerHasPackage = true ↔ s.gameState = GameState.llevar_a_reparacion := by
  obtain ⟨c, events, rfl⟩ := h
  exact consistent_run E (initialSession c) events (consistent_initialSession c)

theorem not_isPickup_of_phase_eq (s t : Session α) (h : phase t = phase s) :
    ¬ isPickup s t := by
  rintro ⟨hne, hg, _⟩
  have : t.gameState = s.gameState := congrArg Prod.fst h
  rw [this] at hg
  exact hne hg

theorem not_isDelivery_of_phase_eq (s t : Session α) (h : phase t = phase s) :
    ¬ isDelivery s t := by
  rintro ⟨hne, hg, _⟩
  have : t.gameState = s.gameState := congrArg Prod.fst h
  rw [this] at hg
  exact hne hg

theorem countPickups_le (E : Engine α) (events : List (Event α)) (s : Session α) :
    countPickups E s events ≤ 1 ∧
      (s.gameState ≠ GameState.buscar_servidor → countPickups E s events = 0) := by
  induction events generalizing s with
  | nil => exact ⟨Nat.zero_le 1, fun _ => rfl⟩
  | cons e rest ih =>
    have ih' := ih (step E s e)
    rcases step_phase E s e with h | ⟨hs, ht⟩ | ⟨hs, ht⟩
    · have hno := not_isPickup_of_phase_eq s (step E s e) h
      have hg : (step E s e).gameState = s.gameState := congrArg Prod.fst h
      simp only [countPickups, if_neg hno, Nat.zero_add]
      refine ⟨ih'.1, fun hne => ih'.2 ?_⟩
      rw [hg]
      exact hne
    · rw [phase_eq_iff] at hs ht
      have hyes : isPickup s (step E s e) := by
        refine ⟨?_, ht.1, ht.2⟩
        rw [hs.1]
        intro hcontra
        cases hcontra
      have hrest : countPickups E (step E s e) rest = 0 := by
        apply ih'.2
        rw [ht.1]
        intro hcontra
        cases hcontra
      simp only [countPickups, if_pos hyes, hrest]
      refine ⟨Nat.le_refl 1, fun hne => absurd hs.1 hne⟩
    · rw [phase_eq_iff] at hs ht
      have hno : ¬ isPickup s (step E s e) := by
        rintro ⟨_, hg, _⟩
        rw [ht.1] at hg
        cases hg
      have hrest : countPickups E (step E s e) rest = 0 := by
        apply ih'.2
        rw [ht.1]
        intro hcontra
        cases hcontra
      rw [countPickups, if_neg hno, hrest]
      exact ⟨Nat.zero_le 1, fun _ => rfl⟩

theorem countDeliveries_le (E : Engine α) (events : List (Event α)) (s : Session α) :
    countDeliveries E s events ≤ 1 ∧
      (s.gameState = GameState.completado → countDeliveries E s events = 0) := by
  induction events generalizing s with
  | nil => exact ⟨Nat.zero_le 1, fun _ => rfl⟩
  | cons e rest ih =>
    have ih' := ih (step E s e)
    rcases step_phase E s e with h | ⟨hs, ht⟩ | ⟨hs, ht⟩
    · have hno := not_isDelivery_of_phase_eq s (step E s e) h
      have hg : (step E s e).gameState = s.gameState := congrArg Prod.fst h
      simp only [countDeliveries, if_neg hno, Nat.zero_add]
      refine ⟨ih'.1, fun he => ih'.2 ?_⟩
      rw [hg]
      exact he
    · rw [phase_eq_iff] at hs ht
      have hno : ¬ isDelivery s (step E s e) := by
        rintro ⟨_, hg, _⟩
        rw [ht.1] at hg
        cases hg
      simp only [countDeliveries, if_neg hno, Nat.zero_add]
      refine ⟨ih'.1, fun he => ?_⟩
      rw [hs.1] at he
      cases he
    · rw [phase_eq_iff] at hs ht
      have hyes : isDelivery s (step E s e) := by
        refine ⟨?_, ht.1, ht.2⟩
        rw [hs.1]
        intro hcontra
        cases hcontra
      have hrest : countDeliveries E (step E s e) rest = 0 := ih'.2 ht.1
      simp only [countDeliveries, if_pos hyes, hrest]
      refine ⟨Nat.le_refl 1, fun he => ?_⟩
      rw [hs.1] at he
      cases he

theorem countPickups_eq_one (E : Engine α) (events : List (Event α)) (s : Session α)
    (hs : s.gameState = GameState.buscar_servidor)
    (ht : (run E s events).gameState ≠ GameState.buscar_servidor) :
    countPickups E s events = 1 := by
  induction events generalizing s with
  | nil => exact absurd hs ht
  | cons e rest ih =>
    rcases step_phase E s e with h | ⟨_, h'⟩ | ⟨h', _⟩
    · have hno := not_isPickup_of_phase_eq s (step E s e) h
      have hg : (step E s e).gameState = s.gameState := congrArg Prod.fst h
      simp only [countPickups, if_neg hno, Nat.zero_add]
      exact ih (step E s e) (hg.trans hs) ht
    · rw [phase_eq_iff] at h'
      have hyes : isPickup s (step E s e) := by
        refine ⟨?_, h'.1, h'.2⟩
        rw [hs]
        intro hcontra
        cases hcontra
      have hrest : countPickups E (step E s e) rest = 0 := by
        apply (countPickups_le E rest (step E s e)).2
        rw [h'.1]
        intro hcontra
        cases hcontra
      simp only [countPickups, if_pos hyes, hrest]
    · rw [phase_eq_iff] at h'
      rw [hs] at h'
      cases h'.1

theorem isDelivery_step_source (E : Engine α) (s : Session α) (e : Event α)
    (h : isDelivery s (step E s e)) : s.gameState = GameState.llevar_a_reparacion := by
  rcases step_phase E s e with h' | ⟨_, h'⟩ | ⟨h', _⟩
  · exact absurd h (not_isDelivery_of_phase_eq s (step E s e) h')
  · rw [phase_eq_iff] at h'
    have hg := h.2.1
    rw [h'.1] at hg
    cases hg
  · rw [phase_eq_iff] at h'
    exact h'.1

/-- C7: in every finite sequence of events applied to the initial session, at
most one event performs a pickup and at most one performs a delivery, and an
event that performs a delivery comes after the one event that performed the
pickup. -/
theorem one_pickup_one_delivery (E : Engine α) (c : Setup α) (events : List (Event α)) :
    countPickups E (initialSession c) events ≤ 1 ∧
    countDeliveries E (initialSession c) events ≤ 1 ∧
    ∀ before e after, events = before ++ e :: after →
      isDelivery (run E (initialSession c) before)
        (step E (run E (initialSession c) before) e) →
      countPickups E (initialSession c) before = 1 := by
  refine ⟨(countPickups_le E events _).1, (countDeliveries_le E events _).1, ?_⟩
  intro before e after _ hd
  apply countPickups_eq_one E before (initialSession c) rfl
  rw [isDelivery_step_source E _ e hd]
  intro hcontra
  cases hcontra

end EventTheorems

/-! ## Movement: world bounds and sliding -/

section MovementTheorems

variable {α : Type} [LinearOrderedField α] [FloorRing α]

theorem playerMesh_showFeedback (msg : String) (d : Nat) (s : Session α) :
    (showFeedback msg d s).playerMesh = s.playerMesh := by
  unfold showFeedback
  cases s.feedbackEl with
  | none => rfl
  | some f =>
    cases hid : s.feedbackTimeoutId with
    | none => simp [schedule, hid]
    | some id =>
      by_cases h0 : id = 0
      · simp [schedule, hid, h0]
      · simp [schedule, clearTimer, hid, h0]

theorem playerMesh_pickUp (E : Engine α) (s : Session α) (m : Mesh α) :
    (pickUp E s m).playerMesh = s.playerMesh := by
  unfold pickUp
  simp only []
  split
  · show (showFeedback _ _ _).playerMesh = _
    rw [playerMesh_showFeedback]
    rfl
  · rw [playerMesh_showFeedback]
    rfl

theorem playerMesh_deliver (E : Engine α) (s : Session α) :
    (deliver E s).playerMesh = s.playerMesh := by
  have key : ∀ t : Session α,
      (match t.bgMusic with
        | some a => if a.paused then t else schedule TimerAction.fadeOut 100 true t
        | none => t).playerMesh = t.playerMesh := by
    intro t
    cases t.bgMusic with
    | none => rfl
    | some a =>
      by_cases hp : a.paused = true
      · simp [hp]
      · simp [hp, schedule]
  have key2 : ∀ t : Session α,
      (match t.successSound with
        | some a =>
          { t with
            successSound := some (Audio.play { a with currentTime := 0 })
            calls := Call.successPlay :: t.calls }
        | none => t).playerMesh = t.playerMesh := by
    intro t
    cases t.successSound <;> rfl
  unfold deliver
  simp only []
  rw [key, key2]
  show (showFeedback _ _ _).playerMesh = _
  rw [playerMesh_showFeedback]
  show (match s.serverMesh with
    | some serverMesh => _
    | none => _ : Session α).playerMesh = _
  cases s.serverMesh <;> rfl

theorem playerMesh_tryInteract (E : Engine α) (s : Session α) :
    (tryInteract E s).playerMesh = s.playerMesh := by
  rcases tryInteract_cases E s with h | ⟨m, h⟩ | h
  · rw [h]
  · rw [h, playerMesh_pickUp]
  · rw [h, playerMesh_deliver]

theorem playerMesh_handleInput (E : Engine α) (key : String) (pressed : Bool) (s : Session α) :
    (handleInput E key pressed s).playerMesh = s.playerMesh := by
  unfold handleInput
  (repeat' split) <;> first | rfl | exact playerMesh_tryInteract E s

theorem playerMesh_updateBabylonGUI (E : Engine α) (s : Session α) :
    (updateBabylonGUI E s).playerMesh = s.playerMesh := by
  unfold updateBabylonGUI
  split <;> rfl

theorem playerMesh_startWalking (s : Session α) :
    (startWalking s).playerMesh = s.playerMesh := by
  unfold startWalking
  split
  · simp only []
    (repeat' split) <;> rfl
  · rfl

theorem playerMesh_stopWalking (s : Session α) :
    (stopWalking s).playerMesh = s.playerMesh := by
  unfold stopWalking
  split
  · simp only []
    (repeat' split) <;> rfl
  · rfl

theorem playerMesh_fireTimer (id : Nat) (s : Session α) :
    (fireTimer id s).playerMesh = s.playerMesh := by
  have hfade : ∀ t : Session α, (fadeOutStep id t).playerMesh = t.playerMesh := by
    intro t
    unfold fadeOutStep
    (repeat' split) <;> rfl
  unfold fireTimer
  split
  · rfl
  · simp only []
    split
    · split <;> rfl
    · split <;> rfl
    · rw [hfade]
      split <;> rfl

theorem movementStep_playerMesh (E : Engine α) (s : Session α) (p : Mesh α) (c : Camera α) :
    (movementStep E s p c).playerMesh =
      some (if (moveVector s.inputState : Vector3 α).equals Vector3.Zero = false then
        movePlayer s.obstacles (nextX E s.inputState (facingAngle E c p) p)
          (nextZ E s.inputState (facingAngle E c p) p) (faced E c p)
        else faced E c p) := by
  unfold movementStep
  simp only []
  rw [playerMesh_updateBabylonGUI]
  cases hz : (moveVector s.inputState : Vector3 α).equals Vector3.Zero with
  | false =>
    simp only [hz, Bool.not_false, if_true]
    rw [playerMesh_startWalking]
    rfl
  | true =>
    simp only [hz, Bool.not_true, Bool.false_eq_true, if_false]
    rw [playerMesh_stopWalking]
    rfl

theorem onBeforeRender_playerMesh (E : Engine α) (deltaTime : α) (s : Session α)
    (p : Mesh α) (c : Camera α) (hp : s.playerMesh = some p) (hc : s.followCamera = some c) :
    (onBeforeRender E deltaTime s).playerMesh =
      some (if (moveVector s.inputState : Vector3 α).equals Vector3.Zero = false then
        movePlayer s.obstacles (nextX E s.inputState (facingAngle E c p) p)
          (nextZ E s.inputState (facingAngle E c p) p) (faced E c p)
        else faced E c p) := by
  unfold onBeforeRender
  simp only []
  cases hm : s.serverMesh with
  | none =>
    simp only [hp, hc, hm, Option.map_some']
    rw [movementStep_playerMesh]
    rfl
  | some m =>
    cases hf : s.playerHasPackage with
    | true =>
      simp only [hp, hc, hm, hf, Option.map_some']
      rw [movementStep_playerMesh]
      rfl
    | false =>
      simp only [hp, hc, hm, hf, Option.map_some']
      rw [movementStep_playerMesh]
      rfl

theorem onBeforeRender_playerMesh_of_none (E : Engine α) (deltaTime : α) (s : Session α)
    (h : s.playerMesh = none ∨ s.followCamera = none) :
    (onBeforeRender E deltaTime s).playerMesh = s.playerMesh := by
  unfold onBeforeRender
  simp only []
  cases hm : s.serverMesh with
  | none =>
    rcases h with h | h
    · simp only [h, hm]
    · cases hp : s.playerMesh <;> simp only [h, hm, hp, Option.map_none']
  | some m =>
    cases hf : s.playerHasPackage with
    | true =>
      rcases h with h | h
      · simp only [h, hm, hf]
      · cases hp : s.playerMesh <;> simp only [h, hm, hp, hf, Option.map_none']
    | false =>
      rcases h with h | h
      · simp only [h, hm, hf]
      · cases hp : s.playerMesh <;> simp only [h, hm, hp, hf, Option.map_none']

theorem Clamp_bounds (v lo hi : α) (h : lo ≤ hi) :
    lo ≤ Scalar.Clamp v lo hi ∧ Scalar.Clamp v lo hi ≤ hi :=
  ⟨le_min h (le_max_left lo v), min_le_left hi _⟩

theorem nextX_bounds (E : Engine α) (i : InputState) (a : α) (p : Mesh α) :
    -GROUND_LIMIT ≤ nextX E i a p ∧ nextX E i a p ≤ GROUND_LIMIT :=
  Clamp_bounds _ _ _ (by unfold GROUND_LIMIT; norm_num)

theorem nextZ_bounds (E : Engine α) (i : InputState) (a : α) (p : Mesh α) :
    -GROUND_LIMIT_BACK ≤ nextZ E i a p ∧ nextZ E i a p ≤ GROUND_LIMIT :=
  Clamp_bounds _ _ _ (by unfold GROUND_LIMIT GROUND_LIMIT_BACK; norm_num)

theorem movePlayer_position (obstacles : List (Option (Obstacle α))) (cx cz : α) (p : Mesh α) :
    (movePlayer obstacles cx cz p).position.x =
        (if checkCollisionWithObstacles obstacles cx p.position.z = false then cx
          else p.position.x) ∧
    (movePlayer obstacles cx cz p).position.y = p.position.y ∧
    (movePlayer obstacles cx cz p).position.z =
        (if checkCollisionWithObstacles obstacles p.position.x cz = false then cz
          else p.position.z) := by
  unfold movePlayer
  cases checkCollisionWithObstacles obstacles cx p.position.z <;>
    cases checkCollisionWithObstacles obstacles p.position.x cz <;> simp

theorem inBounds_movePlayer (obstacles : List (Option (Obstacle α))) (cx cz : α) (p : Mesh α)
    (hp : inBounds p.position) (hx : -GROUND_LIMIT ≤ cx ∧ cx ≤ GROUND_LIMIT)
    (hz : -GROUND_LIMIT_BACK ≤ cz ∧ cz ≤ GROUND_LIMIT) :
    inBounds (movePlayer obstacles cx cz p).position := by
  obtain ⟨h1, _, h3⟩ := movePlayer_position obstacles cx cz p
  unfold inBounds at hp ⊢
  rw [h1, h3]
  refine ⟨?_, ?_, ?_, ?_⟩
  · split
    · exact hx.1
    · exact hp.1
  · split
    · exact hx.2
    · exact hp.2.1
  · split
    · exact hz.1
    · exact hp.2.2.1
  · split
    · exact hz.2
    · exact hp.2.2.2

theorem inBounds_spawn : inBounds (⟨0, FLOOR_LEVEL, 0⟩ : Vector3 α) := by
  unfold inBounds GROUND_LIMIT GROUND_LIMIT_BACK
  norm_num

theorem playerInBounds_onBeforeRender (E : Engine α) (deltaTime : α) (s : Session α)
    (h : playerInBounds s) : playerInBounds (onBeforeRender E deltaTime s) := by
  intro q hq
  cases hp : s.playerMesh with
  | none =>
    rw [onBeforeRender_playerMesh_of_none E deltaTime s (Or.inl hp), hp] at hq
    cases hq
  | some p =>
    cases hc : s.followCamera with
    | none =>
      rw [onBeforeRender_playerMesh_of_none E deltaTime s (Or.inr hc)] at hq
      exact h q hq
    | some c =>
      rw [onBeforeRender_playerMesh E deltaTime s p c hp hc] at hq
      have hpb : inBounds (faced E c p).position := h p hp
      cases hq
      split
      · exact inBounds_movePlayer _ _ _ _ hpb (nextX_bounds E _ _ _) (nextZ_bounds E _ _ _)
      · exact hpb

theorem playerInBounds_step (E : Engine α) (s : Session α) (e : Event α)
    (h : playerInBounds s) : playerInBounds (step E s e) := by
  cases e with
  | keyDown key =>
    intro q hq
    exact h q ((playerMesh_handleInput E key.toLower true s).symm.trans hq)
  | keyUp key =>
    intro q hq
    exact h q ((playerMesh_handleInput E key.toLower false s).symm.trans hq)
  | frame deltaTime => exact playerInBounds_onBeforeRender E deltaTime s h
  | cameraMoved camera => exact h
  | playerLoaded meshes groups =>
    intro q hq
    cases meshes with
    | nil =>
      cases hq
      exact inBounds_spawn
    | cons m rest =>
      cases hq
      exact inBounds_spawn
  | playerLoadError =>
    intro q hq
    cases hq
    exact inBounds_spawn
  | serverLoaded meshes =>
    intro q hq
    cases meshes with
    | nil => exact h q hq
    | cons m rest => exact h q hq
  | serverLoadError => exact h
  | pageInteraction =>
    intro q hq
    apply h q
    rw [← hq]
    show s.playerMesh = (startAudioOnInteraction s).playerMesh
    unfold startAudioOnInteraction
    split <;> rfl
  | timer id =>
    intro q hq
    exact h q ((playerMesh_fireTimer id s).symm.trans hq)

theorem playerInBounds_run (E : Engine α) (events : List (Event α)) (s : Session α)
    (h : playerInBounds s) : playerInBounds (run E s events) := by
  induction events generalizing s with
  | nil => exact h
  | cons e rest ih => exact ih (step E s e) (playerInBounds_step E s e h)

/-- C8: the movement step, and every other event, keeps the player inside
the world bounds `-18 ≤ x ≤ 18`, `-25 ≤ z ≤ 18` (limits included): from a
session whose player is inside them, after any sequence of events (frames
with any flags, camera positions and obstacles among them) and after any
single frame the player is inside them; and from the initial session, where
the player appears at the spawn point `(0, 1, 0)`, the player is inside them
after every sequence of events. -/
theorem player_stays_in_bounds (E : Engine α) (s : Session α) (events : List (Event α))
    (h : ∀ p, s.playerMesh = some p →
      -18 ≤ p.position.x ∧ p.position.x ≤ 18 ∧ -25 ≤ p.position.z ∧ p.position.z ≤ 18) :
    (∀ q, (run E s events).playerMesh = some q →
      -18 ≤ q.position.x ∧ q.position.x ≤ 18 ∧ -25 ≤ q.position.z ∧ q.position.z ≤ 18) ∧
    (∀ deltaTime q, (onBeforeRender E deltaTime s).playerMesh = some q →
      -18 ≤ q.position.x ∧ q.position.x ≤ 18 ∧ -25 ≤ q.position.z ∧ q.position.z ≤ 18) ∧
    (∀ (c : Setup α) q, (run E (initialSession c) events).playerMesh = some q →
      -18 ≤ q.position.x ∧ q.position.x ≤ 18 ∧ -25 ≤ q.position.z ∧ q.position.z ≤ 18) := by
  refine ⟨playerInBounds_run E events s h, ?_, ?_⟩
  · intro deltaTime
    exact playerInBounds_onBeforeRender E deltaTime s h
  · intro c
    apply playerInBounds_run E events (initialSession c)
    intro p hp
    cases hp

theorem Vector3.equals_eq_false {a b : Vector3 α} (h : a ≠ b) : a.equals b = false := by
  cases hab : a.equals b with
  | false => rfl
  | true =>
    exfalso
    apply h
    unfold Vector3.equals at hab
    simp only [Bool.and_eq_true, decide_eq_true_eq] at hab
    cases a
    cases b
    simp only [Vector3.mk.injEq]
    exact ⟨hab.1.1, hab.1.2, hab.2⟩

/-- C9: in a frame with non-zero input, the two axes are gated separately:
when the X candidate `(nextX, z)` is free and the Z candidate `(x, nextZ)` is
blocked, the player ends at `x = nextX` with `z` unchanged; when only the X
candidate is blocked, the player ends at `z = nextZ` with `x` unchanged; when
both are blocked the position is unchanged. -/
theorem sliding (E : Engine α) (deltaTime : α) (s : Session α) (p : Mesh α) (c : Camera α)
    (hp : s.playerMesh = some p) (hc : s.followCamera = some c)
    (hmove : (moveVector s.inputState : Vector3 α) ≠ Vector3.Zero) :
    ∃ q, (onBeforeRender E deltaTime s).playerMesh = some q ∧
      (checkCollisionWithObstacles s.obstacles
          (nextX E s.inputState (facingAngle E c p) p) p.position.z = false →
        checkCollisionWithObstacles s.obstacles p.position.x
          (nextZ E s.inputState (facingAngle E c p) p) = true →
        q.position.x = nextX E s.inputState (facingAngle E c p) p ∧
          q.position.z = p.position.z) ∧
      (checkCollisionWithObstacles s.obstacles
          (nextX E s.inputState (facingAngle E c p) p) p.position.z = true →
        checkCollisionWithObstacles s.obstacles p.position.x
          (nextZ E s.inputState (facingAngle E c p) p) = false →
        q.position.x = p.position.x ∧
          q.position.z = nextZ E s.inputState (facingAngle E c p) p) ∧
      (checkCollisionWithObstacles s.obstacles
          (nextX E s.inputState (facingAngle E c p) p) p.position.z = true →
        checkCollisionWithObstacles s.obstacles p.position.x
          (nextZ E s.inputState (facingAngle E c p) p) = true →
        q.position = p.position) := by
  refine ⟨_, onBeforeRender_playerMesh E deltaTime s p c hp hc, ?_⟩
  rw [if_pos (Vector3.equals_eq_false hmove)]
  obtain ⟨h1, h2, h3⟩ := movePlayer_position s.obstacles
    (nextX E s.inputState (facingAngle E c p) p) (nextZ E s.inputState (facingAngle E c p) p)
    (faced E c p)
  have hfx : (faced E c p).position = p.position := rfl
  rw [hfx] at h1 h2 h3
  refine ⟨?_, ?_, ?_⟩
  · intro hx hz
    rw [h1, h3, if_pos hx, hz]
    exact ⟨rfl, rfl⟩
  · intro hx hz
    rw [h1, h3, if_pos hz, hx]
    exact ⟨rfl, rfl⟩
  · intro hx hz
    rw [hx] at h1
    rw [hz] at h3
    cases hq : (movePlayer s.obstacles (nextX E s.inputState (facingAngle E c p) p)
      (nextZ E s.inputState (facingAngle E c p) p) (faced E c p)).position with
    | mk qx qy qz =>
      rw [hq] at h1 h2 h3
      cases hpp : p.position with
      | mk px py pz =>
        rw [hpp] at h1 h2 h3
        simp only [Bool.true_eq_false, if_false] at h1 h3
        simp only at h2
        rw [h1, h2, h3]

end MovementTheorems

/-! ## Concrete sessions -/

section Examples

theorem sqrt_nine : Real.sqrt 9 = 3 := by
  rw [show (9 : ℝ) = 3 ^ 2 by norm_num]
  exact Real.sqrt_sq (by norm_num)

theorem distance_pickup_13 :
    Vector3.Distance realEngine (⟨16, 1, 13⟩ : Vector3 ℝ) PICKUP_ZONE_POSITION = 3 := by
  simp only [Vector3.Distance, Vector3.subtract, Vector3.lengthSquared, realEngine,
    PICKUP_ZONE_POSITION, FLOOR_LEVEL]
  norm_num
  exact sqrt_nine

theorem distance_pickup_12 :
    ¬ Vector3.Distance realEngine (⟨16, 1, 12⟩ : Vector3 ℝ) PICKUP_ZONE_POSITION ≤ 3 := by
  simp only [Vector3.Distance, Vector3.subtract, Vector3.lengthSquared, realEngine,
    PICKUP_ZONE_POSITION, FLOOR_LEVEL]
  rw [Real.sqrt_le_iff]
  norm_num

theorem consistent_playerAt (x y z : ℝ) : Consistent (playerAt x y z) := by
  show (false = true ↔ GameState.buscar_servidor = GameState.llevar_a_reparacion)
  constructor <;> intro h <;> cases h

theorem consistent_carryingAt (x y z : ℝ) : Consistent (carryingAt x y z) := by
  show (true = true ↔ GameState.llevar_a_reparacion = GameState.llevar_a_reparacion)
  constructor <;> intro _ <;> rfl

theorem not_deliveryReady_playerAt (x y z : ℝ) : ¬ deliveryReady realEngine (playerAt x y z) := by
  rintro ⟨p, _, hg, _⟩
  change GameState.buscar_servidor = GameState.llevar_a_reparacion at hg
  cases hg

theorem not_pickupReady_carryingAt (x y z : ℝ) :
    ¬ pickupReady realEngine (carryingAt x y z) := by
  rintro ⟨p, m, _, _, hg, _⟩
  change GameState.llevar_a_reparacion = GameState.buscar_servidor at hg
  cases hg

theorem not_pickupReady_12 : ¬ pickupReady realEngine (playerAt 16 1 12) := by
  rintro ⟨p, m, hp, hm, _, hd⟩
  change some _ = some p at hp
  change some _ = some m at hm
  cases hp
  cases hm
  exact distance_pickup_12 hd

theorem distance_delivery_13 :
    Vector3.Distance realEngine (⟨-16, 1, -13⟩ : Vector3 ℝ) ⟨-16, 1, -18⟩ ≤ 5 := by
  simp only [Vector3.Distance, Vector3.subtract, Vector3.lengthSquared, realEngine]
  rw [Real.sqrt_le_iff]
  norm_num

theorem distance_delivery_12 :
    ¬ Vector3.Distance realEngine (⟨-16, 1, -12⟩ : Vector3 ℝ) ⟨-16, 1, -18⟩ ≤ 5 := by
  simp only [Vector3.Distance, Vector3.subtract, Vector3.lengthSquared, realEngine]
  rw [Real.sqrt_le_iff]
  norm_num

theorem distance_delivery_zero :
    Vector3.Distance realEngine (⟨-16, 1, -18⟩ : Vector3 ℝ) DELIVERY_ZONE_POSITION ≤
      DELIVERY_INTERACTION_DISTANCE := by
  simp only [Vector3.Distance, Vector3.subtract, Vector3.lengthSquared, realEngine,
    DELIVERY_ZONE_POSITION, FLOOR_LEVEL, DELIVERY_INTERACTION_DISTANCE]
  rw [Real.sqrt_le_iff]
  norm_num

/-- C2, as stated, fails: with player and package loaded, Game State
DELIVERING and the player on the delivery point (so not the case "SEEKING and
within 3 of the package"), the interaction changes Game State to COMPLETED. -/
theorem pickup_otherwise_unchanged_counterexample :
    (carryingAt (-16) 1 (-18)).playerMesh.isSome = true ∧
    (carryingAt (-16) 1 (-18)).serverMesh.isSome = true ∧
    (carryingAt (-16) 1 (-18)).gameState = GameState.llevar_a_reparacion ∧
    (tryInteract realEngine (carryingAt (-16) 1 (-18))).gameState = GameState.completado := by
  refine ⟨rfl, rfl, rfl, ?_⟩
  rw [tryInteract_deliver realEngine (carryingAt (-16) 1 (-18)) _ rfl rfl rfl
    distance_delivery_zero]
  exact congrArg Prod.fst (phase_deliver realEngine (carryingAt (-16) 1 (-18)))

/-- C2 (amended) at concrete sessions with the package on `(16, 1, 16)`: at
distance 3 the interaction performs the pickup, at distance 4 it changes
nothing. -/
theorem tryInteract_pickup_iff_witness :
    isPickup (playerAt 16 1 13) (tryInteract realEngine (playerAt 16 1 13)) ∧
    tryInteract realEngine (playerAt 16 1 12) = playerAt 16 1 12 :=
  ⟨(tryInteract_pickup_iff realEngine (playerAt 16 1 13) _ _ rfl rfl
      (consistent_playerAt 16 1 13)).1.mpr ⟨rfl, le_of_eq distance_pickup_13⟩,
   (tryInteract_pickup_iff realEngine (playerAt 16 1 12) _ _ rfl rfl
      (consistent_playerAt 16 1 12)).2 (fun h => distance_pickup_12 h.2)
      (not_deliveryReady_playerAt 16 1 12)⟩

theorem distance_pickup_14 :
    Vector3.Distance realEngine (⟨16, 1, 14⟩ : Vector3 ℝ)
      (PICKUP_ZONE_POSITION.add ⟨0, 6 / 10, 0⟩) ≤ 3 := by
  simp only [Vector3.Distance, Vector3.subtract, Vector3.add, Vector3.lengthSquared,
    realEngine, PICKUP_ZONE_POSITION, FLOOR_LEVEL]
  rw [Real.sqrt_le_iff]
  norm_num

/-- C3, as stated, fails: with the player loaded at `(16, 1, 14)`, the
placeholder package where the script puts it, at `(16, 1.6, 16)` (about 2.09
away), and Game State SEEKING_PACKAGE (so not the case "DELIVERING and within
5 of the delivery point"), the interaction is not a no-op: Game State becomes
DELIVERING and the carrying flag becomes set. -/
theorem delivery_otherwise_noop_counterexample :
    (standingAt 16 1 14).playerMesh =
      some ⟨⟨16, 1, 14⟩, Vector3.Zero, none, ⟨1, 1, 1⟩, none⟩ ∧
    (standingAt 16 1 14).serverMesh =
      some ⟨PICKUP_ZONE_POSITION.add ⟨0, 6 / 10, 0⟩, Vector3.Zero, none, ⟨1, 1, 1⟩, none⟩ ∧
    (standingAt 16 1 14).gameState = GameState.buscar_servidor ∧
    (standingAt 16 1 14).playerHasPackage = false ∧
    (tryInteract realEngine (standingAt 16 1 14)).gameState = GameState.llevar_a_reparacion ∧
    (tryInteract realEngine (standingAt 16 1 14)).playerHasPackage = true := by
  refine ⟨rfl, rfl, rfl, rfl, ?_⟩
  rw [tryInteract_pickup realEngine (standingAt 16 1 14) _ _ rfl rfl rfl rfl
    distance_pickup_14]
  exact (phase_eq_iff _ _ _).mp (phase_pickUp realEngine (standingAt 16 1 14) _)

/-- C3 (amended) at concrete sessions: carrying the package, at distance 5
from the delivery point the interaction performs the delivery, at distance 6
it changes nothing. -/
theorem tryInteract_delivery_iff_witness :
    isDelivery (carryingAt (-16) 1 (-13)) (tryInteract realEngine (carryingAt (-16) 1 (-13))) ∧
    tryInteract realEngine (carryingAt (-16) 1 (-12)) = carryingAt (-16) 1 (-12) :=
  ⟨(tryInteract_delivery_iff realEngine (carryingAt (-16) 1 (-13)) _ rfl
      (consistent_carryingAt _ _ _)).1.mpr ⟨rfl, distance_delivery_13⟩,
   (tryInteract_delivery_iff realEngine (carryingAt (-16) 1 (-12)) _ rfl
      (consistent_carryingAt _ _ _)).2 (fun h => distance_delivery_12 h.2)
      (not_pickupReady_carryingAt _ _ _)⟩

/-- C4 at a concrete session: after the delivery, pressing the interaction
key on the delivery point leaves Game State COMPLETED and the flag clear. -/
theorem completado_absorbing_witness :
    (initialSession plainSetup).gameState = GameState.buscar_servidor ∧
    (step realEngine (finishedAt (-16) 1 (-18)) (Event.keyDown "E")).gameState =
      GameState.completado ∧
    (step realEngine (finishedAt (-16) 1 (-18)) (Event.keyDown "E")).playerHasPackage = false :=
  completado_absorbing realEngine plainSetup (finishedAt (-16) 1 (-18)) (Event.keyDown "E")
    rfl rfl

/-- C6 at a concrete reachable session: both models loaded, the interaction
key pressed far from the package, one frame rendered. -/
theorem reachable_consistent_witness :
    (run realEngine (initialSession plainSetup)
      [Event.playerLoadError, Event.serverLoadError, Event.keyDown "e",
        Event.frame 16]).playerHasPackage = true ↔
    (run realEngine (initialSession plainSetup)
      [Event.playerLoadError, Event.serverLoadError, Event.keyDown "e",
        Event.frame 16]).gameState = GameState.llevar_a_reparacion :=
  reachable_consistent realEngine _ ⟨plainSetup, _, rfl⟩

theorem playerInBounds_loadedSession : playerInBounds loadedSession := by
  intro p hp
  change some _ = some p at hp
  cases hp
  exact inBounds_spawn

/-- C8 at a concrete session: from the spawn point, with the forward key held
for two frames, the player is inside the world bounds. -/
theorem player_stays_in_bounds_witness :
    playerInBounds (run realEngine loadedSession
      [Event.keyDown "w", Event.frame 16, Event.frame 16]) :=
  (player_stays_in_bounds realEngine loadedSession
    [Event.keyDown "w", Event.frame 16, Event.frame 16] playerInBounds_loadedSession).1

/-- C10 at a concrete session: at distance 4 from the package, one call and
three calls of the interaction action leave the session as it was. -/
theorem tryInteract_noop_witness :
    tryInteract realEngine (playerAt 16 1 12) = playerAt 16 1 12 ∧
    (tryInteract realEngine)^[3] (playerAt 16 1 12) = playerAt 16 1 12 :=
  tryInteract_noop realEngine (playerAt 16 1 12) 3 not_pickupReady_12
    (not_deliveryReady_playerAt 16 1 12)


theorem facing_slide :
    facingAngle realEngine (⟨⟨0, 5, -8⟩, 10, 1⟩ : Camera ℝ)
      (⟨⟨0, 1, 0⟩, Vector3.Zero, none, ⟨1, 1, 1⟩, none⟩ : Mesh ℝ) = Real.pi := by
  simp only [facingAngle, Vector3.subtract, realEngine]
  have h : (⟨-8 - 0, 0 - 0⟩ : ℂ) = ((-8 : ℝ) : ℂ) := by
    apply Complex.ext <;> simp
  rw [h]
  exact Complex.arg_ofReal_of_neg (by norm_num)

theorem sqrt_two_bounds : 1 < Real.sqrt 2 ∧ Real.sqrt 2 < 2 := by
  constructor
  · rw [Real.lt_sqrt (by norm_num)]
    norm_num
  · rw [Real.sqrt_lt' (by norm_num)]
    norm_num

theorem normalizedMove_slide :
    normalizedMove realEngine ⟨true, false, false, true⟩ Real.pi =
      ⟨1 / Real.sqrt 2 * (2 / 10), 0, 1 / Real.sqrt 2 * (2 / 10)⟩ := by
  simp only [normalizedMove, moveVector, Vector3.normalize, Vector3.length,
    Vector3.lengthSquared, Vector3.scale, realEngine, MOVEMENT_SPEED, Real.cos_pi, Real.sin_pi]
  norm_num

theorem slide_step_bounds :
    1 / 10 ≤ 1 / Real.sqrt 2 * (2 / 10) ∧ 1 / Real.sqrt 2 * (2 / 10) ≤ 2 / 10 := by
  obtain ⟨h1, h2⟩ := sqrt_two_bounds
  have hpos : 0 < Real.sqrt 2 := lt_trans one_pos h1
  have hinv1 : 1 / Real.sqrt 2 ≤ 1 := by
    rw [div_le_iff₀ hpos]
    linarith
  have hinv2 : 1 / 2 ≤ 1 / Real.sqrt 2 := by
    rw [le_div_iff₀ hpos]
    linarith
  constructor <;> nlinarith

theorem nextX_slide (p : Mesh ℝ) (hp : p.position.x = 0) :
    nextX realEngine ⟨true, false, false, true⟩ Real.pi p = 1 / Real.sqrt 2 * (2 / 10) := by
  obtain ⟨h1, h2⟩ := slide_step_bounds
  unfold nextX Scalar.Clamp GROUND_LIMIT
  rw [normalizedMove_slide, hp]
  simp only [zero_add]
  rw [max_eq_right (by linarith), min_eq_right (by linarith)]

theorem nextZ_slide (p : Mesh ℝ) (hp : p.position.z = 0) :
    nextZ realEngine ⟨true, false, false, true⟩ Real.pi p = 1 / Real.sqrt 2 * (2 / 10) := by
  obtain ⟨h1, h2⟩ := slide_step_bounds
  unfold nextZ Scalar.Clamp GROUND_LIMIT GROUND_LIMIT_BACK
  rw [normalizedMove_slide, hp]
  simp only [zero_add]
  rw [max_eq_right (by linarith), min_eq_right (by linarith)]

/-- C9 at a concrete session: one desk, the forward and right keys held (a
diagonal input), the X candidate free and the Z candidate blocked; the player
slides along X by `0.2 / √2` and keeps `z = 0`. -/
theorem sliding_witness :
    ∃ q, (onBeforeRender realEngine 16 slideSession).playerMesh = some q ∧
      q.position.x = 1 / Real.sqrt 2 * (2 / 10) ∧ q.position.z = 0 := by
  have hmove : (moveVector slideSession.inputState : Vector3 ℝ) ≠ Vector3.Zero := by
    intro h
    have hx := congrArg Vector3.x h
    simp [moveVector, Vector3.Zero, slideSession] at hx
  obtain ⟨q, hq, hslide, _, _⟩ := sliding realEngine 16 slideSession
    ⟨⟨0, 1, 0⟩, Vector3.Zero, none, ⟨1, 1, 1⟩, none⟩ ⟨⟨0, 5, -8⟩, 10, 1⟩ rfl rfl hmove
  refine ⟨q, hq, ?_⟩
  rw [facing_slide] at hslide
  have hin : slideSession.inputState = ⟨true, false, false, true⟩ := rfl
  have hob : slideSession.obstacles = [some ⟨some ⟨⟨-1, 0, 6 / 10⟩, ⟨1, 1, 2⟩⟩⟩] := rfl
  rw [hin, hob, nextX_slide _ rfl, nextZ_slide _ rfl] at hslide
  obtain ⟨h1, h2⟩ := slide_step_bounds
  apply hslide
  · simp only [checkCollisionWithObstacles, checkCollisionWithRadius, PLAYER_RADIUS]
    norm_num
  · simp only [checkCollisionWithObstacles, checkCollisionWithRadius, PLAYER_RADIUS]
    rw [if_pos]
    refine ⟨by norm_num, by norm_num, ?_, ?_⟩
    · show 6 / 10 - 1 / 2 ≤ 1 / Real.sqrt 2 * (2 / 10)
      linarith
    · show 1 / Real.sqrt 2 * (2 / 10) ≤ 2 + 1 / 2
      linarith

end Examples

/-! ## Heads-up display and movement vector -/

section DisplayTheorems

variable {α : Type} [LinearOrderedField α] [FloorRing α]

theorem proximity_buscar (E : Engine α) (s : Session α) (p m : Mesh α)
    (hg : s.gameState = GameState.buscar_servidor) (hm : s.serverMesh = some m) :
    proximity E s p =
      (proximityAt 3 (Vector3.Distance E p.position (getAbsolutePosition E s m)),
        decide (Vector3.Distance E p.position (getAbsolutePosition E s m) < 3 * 2)) := by
  unfold proximity proximityAt PICKUP_INTERACTION_DISTANCE
  simp only [hg, hm]
  split <;> simp [*]

theorem proximity_llevar (E : Engine α) (s : Session α) (p : Mesh α)
    (hg : s.gameState = GameState.llevar_a_reparacion) :
    proximity E s p =
      (proximityAt 5 (Vector3.Distance E p.position DELIVERY_ZONE_POSITION),
        decide (Vector3.Distance E p.position DELIVERY_ZONE_POSITION < 5 * 2)) := by
  unfold proximity proximityAt DELIVERY_INTERACTION_DISTANCE
  simp only [hg]
  split <;> simp [*]

theorem proximityAt_zero (R : α) (hR : 0 < R) : proximityAt R 0 = 1 := by
  unfold proximityAt
  rw [if_pos (by linarith)]
  simp

theorem proximityAt_of_le (R d : α) (h : R * 2 ≤ d) : proximityAt R d = 0 := by
  unfold proximityAt
  rw [if_neg (not_lt.mpr h)]

theorem proximityAt_of_lt (R d : α) (hR : 0 < R) (h : d < R * 2) :
    proximityAt R d = 1 - d / (R * 2) ∧ 0 < proximityAt R d := by
  have h2 : 0 < R * 2 := by linarith
  have hlt : d / (R * 2) < 1 := (div_lt_one h2).mpr h
  unfold proximityAt
  rw [if_pos h, max_eq_right (by linarith)]
  exact ⟨rfl, by linarith⟩

theorem proximityAt_nonneg (R d : α) : 0 ≤ proximityAt R d := by
  unfold proximityAt
  split
  · exact le_max_left _ _
  · exact le_refl 0

theorem proximityAt_le_one (R d : α) (hR : 0 < R) (hd : 0 ≤ d) : proximityAt R d ≤ 1 := by
  have h2 : 0 < R * 2 := by linarith
  unfold proximityAt
  split
  · apply max_le (by norm_num)
    have : 0 ≤ d / (R * 2) := div_nonneg hd (le_of_lt h2)
    linarith
  · norm_num

theorem proximityAt_antitone (R d e : α) (hR : 0 < R) (hde : d ≤ e) :
    proximityAt R e ≤ proximityAt R d := by
  have h2 : 0 < R * 2 := by linarith
  by_cases he : e < R * 2
  · have hd : d < R * 2 := lt_of_le_of_lt hde he
    rw [(proximityAt_of_lt R e hR he).1, (proximityAt_of_lt R d hR hd).1]
    have : d / (R * 2) ≤ e / (R * 2) := div_le_div_of_nonneg_right hde (le_of_lt h2)
    linarith
  · rw [proximityAt_of_le R e (not_lt.mp he)]
    exact proximityAt_nonneg R d

/-- C13: the proximity value of `updateBabylonGUI` is the function
`proximityAt R d` of the distance `d` to the objective (`R = 3` and the
distance to the package while SEEKING_PACKAGE, `R = 5` and the distance to the
delivery point while DELIVERING); for these `R` it is 1 at `d = 0`, 0 at
`d = 2R` and beyond, within `[0, 1]` for every `d ≥ 0`, and non-increasing
in `d`. -/
theorem proximity_spec (E : Engine α) (s : Session α) (p : Mesh α) (R : α)
    (hR : R = 3 ∨ R = 5) :
    (∀ m, s.gameState = GameState.buscar_servidor → s.serverMesh = some m →
      (proximity E s p).1 =
        proximityAt 3 (Vector3.Distance E p.position (getAbsolutePosition E s m))) ∧
    (s.gameState = GameState.llevar_a_reparacion →
      (proximity E s p).1 =
        proximityAt 5 (Vector3.Distance E p.position DELIVERY_ZONE_POSITION)) ∧
    proximityAt R 0 = 1 ∧
    proximityAt R (2 * R) = 0 ∧
    (∀ d, 2 * R < d → proximityAt R d = 0) ∧
    (∀ d, 0 ≤ d → 0 ≤ proximityAt R d ∧ proximityAt R d ≤ 1) ∧
    (∀ d e, d ≤ e → proximityAt R e ≤ proximityAt R d) := by
  have hpos : 0 < R := by
    rcases hR with h | h <;> rw [h] <;> norm_num
  refine ⟨?_, ?_, proximityAt_zero R hpos, ?_, ?_, ?_, ?_⟩
  · intro m hg hm
    rw [proximity_buscar E s p m hg hm]
  · intro hg
    rw [proximity_llevar E s p hg]
  · exact proximityAt_of_le R (2 * R) (by linarith)
  · intro d hd
    exact proximityAt_of_le R d (by linarith)
  · intro d hd
    exact ⟨proximityAt_nonneg R d, proximityAt_le_one R d hpos hd⟩
  · intro d e hde
    exact proximityAt_antitone R d e hpos hde

/-- C13 at a concrete session: at distance 3 from the package the value is
one half; for the pickup distance it is 1 on the package and 0 at distances 6
and 7. -/
theorem proximity_spec_witness :
    (proximity realEngine (playerAt 16 1 13)
      ⟨⟨16, 1, 13⟩, Vector3.Zero, none, ⟨1, 1, 1⟩, none⟩).1 = 1 / 2 ∧
    proximityAt (3 : ℝ) 0 = 1 ∧ proximityAt (3 : ℝ) (2 * 3) = 0 ∧
    proximityAt (3 : ℝ) 7 = 0 := by
  have h := proximity_spec realEngine (playerAt 16 1 13)
    ⟨⟨16, 1, 13⟩, Vector3.Zero, none, ⟨1, 1, 1⟩, none⟩ 3 (Or.inl rfl)
  refine ⟨?_, h.2.2.1, h.2.2.2.1, h.2.2.2.2.1 7 (by norm_num)⟩
  rw [h.1 _ rfl rfl]
  change proximityAt 3 (Vector3.Distance realEngine ⟨16, 1, 13⟩ PICKUP_ZONE_POSITION) = 1 / 2
  rw [distance_pickup_13]
  norm_num [proximityAt]

theorem updateBabylonGUI_gui (E : Engine α) (s : Session α) (p : Mesh α)
    (hp : s.playerMesh = some p) :
    (updateBabylonGUI E s).gui.proximityVisible = (proximity E s p).2 ∧
    ((proximity E s p).2 = true →
      (updateBabylonGUI E s).gui.proximityBarBackground = proximityColor (proximity E s p).1 ∧
      (updateBabylonGUI E s).gui.proximityBarWidth = ⌊(proximity E s p).1 * 180⌋) ∧
    (updateBabylonGUI E s).gui.minimapPlayer = minimapProject p.position.x p.position.z ∧
    (updateBabylonGUI E s).gui.minimapPickup = minimapProject 16 16 ∧
    (updateBabylonGUI E s).gui.minimapDelivery = minimapProject (-16) (-18) := by
  unfold updateBabylonGUI
  split
  · rename_i h
    rw [hp] at h
    cases h
  · rename_i q h
    rw [hp] at h
    cases h
    refine ⟨rfl, ?_, rfl, rfl, rfl⟩
    intro hshow
    exact ⟨if_pos hshow, if_pos hshow⟩

theorem proximityColor_cases (v : α) :
    (proximityColor v = "#00ff88" ↔ v > 7 / 10) ∧
    (proximityColor v = "#ffdd00" ↔ (4 / 10 < v ∧ v ≤ 7 / 10)) ∧
    (proximityColor v = "#6fd6ff" ↔ v ≤ 4 / 10) := by
  unfold proximityColor
  by_cases h7 : v > 7 / 10
  · have h4 : v > 4 / 10 := by
      have : (4 : α) / 10 < 7 / 10 := by norm_num
      exact lt_trans this h7
    rw [if_pos h7]
    refine ⟨⟨fun _ => h7, fun _ => rfl⟩, ⟨fun h => ?_, fun h => ?_⟩, ⟨fun h => ?_, fun h => ?_⟩⟩
    · exact absurd h (by decide)
    · exact absurd h7 (not_lt.mpr h.2)
    · exact absurd h (by decide)
    · exact absurd h4 (not_lt.mpr h)
  · rw [if_neg h7]
    by_cases h4 : v > 4 / 10
    · rw [if_pos h4]
      refine ⟨⟨fun h => ?_, fun h => absurd h h7⟩, ⟨fun _ => ⟨h4, not_lt.mp h7⟩, fun _ => rfl⟩,
        ⟨fun h => ?_, fun h => ?_⟩⟩
      · exact absurd h (by decide)
      · exact absurd h (by decide)
      · exact absurd h4 (not_lt.mpr h)
    · rw [if_neg h4]
      refine ⟨⟨fun h => ?_, fun h => absurd h h7⟩, ⟨fun h => ?_, fun h => absurd h.1 h4⟩,
        ⟨fun _ => not_lt.mp h4, fun _ => rfl⟩⟩
      · exact absurd h (by decide)
      · exact absurd h (by decide)

/-- C17: whenever the proximity bar is shown, its colour is decided by the
proximity value `p` in three tiers: `#00ff88` iff `p > 0.7`, `#ffdd00` iff
`0.4 < p ≤ 0.7`, `#6fd6ff` iff `p ≤ 0.4`. -/
theorem proximity_color_tiers (E : Engine α) (s : Session α) (p : Mesh α)
    (hp : s.playerMesh = some p) (hshow : (updateBabylonGUI E s).gui.proximityVisible = true) :
    ((updateBabylonGUI E s).gui.proximityBarBackground = "#00ff88" ↔
      (proximity E s p).1 > 7 / 10) ∧
    ((updateBabylonGUI E s).gui.proximityBarBackground = "#ffdd00" ↔
      (4 / 10 < (proximity E s p).1 ∧ (proximity E s p).1 ≤ 7 / 10)) ∧
    ((updateBabylonGUI E s).gui.proximityBarBackground = "#6fd6ff" ↔
      (proximity E s p).1 ≤ 4 / 10) := by
  obtain ⟨hv, hb, _⟩ := updateBabylonGUI_gui E s p hp
  rw [hv] at hshow
  rw [(hb hshow).1]
  exact proximityColor_cases _

theorem proximity_playerAt_13 :
    proximity realEngine (playerAt 16 1 13)
      ⟨⟨16, 1, 13⟩, Vector3.Zero, none, ⟨1, 1, 1⟩, none⟩ = (1 / 2, true) := by
  rw [proximity_buscar realEngine (playerAt 16 1 13) _ _ rfl rfl]
  change (proximityAt 3 (Vector3.Distance realEngine ⟨16, 1, 13⟩ PICKUP_ZONE_POSITION),
    decide (Vector3.Distance realEngine ⟨16, 1, 13⟩ PICKUP_ZONE_POSITION < 3 * 2)) = _
  rw [distance_pickup_13]
  norm_num [proximityAt]

/-- C17 at a concrete session: at distance 3 from the package the bar is
shown, the value is one half and the colour is the middle one. -/
theorem proximity_color_tiers_witness :
    (updateBabylonGUI realEngine (playerAt 16 1 13)).gui.proximityVisible = true ∧
    (updateBabylonGUI realEngine (playerAt 16 1 13)).gui.proximityBarBackground = "#ffdd00" := by
  have hshow : (updateBabylonGUI realEngine (playerAt 16 1 13)).gui.proximityVisible = true := by
    rw [(updateBabylonGUI_gui realEngine (playerAt 16 1 13) _ rfl).1, proximity_playerAt_13]
  refine ⟨hshow, ?_⟩
  apply (proximity_color_tiers realEngine (playerAt 16 1 13) _ rfl hshow).2.1.mpr
  rw [proximity_playerAt_13]
  norm_num

theorem mapScale_eq : (mapScale : α) = 300 / 46 := by
  unfold mapScale minimapSize GROUND_LIMIT
  norm_num

/-- C18: the minimap position of a world point `(x, z)` is
`(s * x, -(s * z))` with the one factor `s = minimapSize / (2 * GROUND_LIMIT + 10)
= 300 / 46`; the map is linear, and `updateBabylonGUI` applies it to the
player, to the pickup landmark `(16, 16)` and to the delivery landmark
`(-16, -18)`. -/
theorem minimap_projection (E : Engine α) (s : Session α) (p : Mesh α)
    (hp : s.playerMesh = some p) :
    (updateBabylonGUI E s).gui.minimapPlayer = minimapProject p.position.x p.position.z ∧
    (updateBabylonGUI E s).gui.minimapPickup = minimapProject 16 16 ∧
    (updateBabylonGUI E s).gui.minimapDelivery = minimapProject (-16) (-18) ∧
    (mapScale : α) = minimapSize / (2 * GROUND_LIMIT + 10) ∧
    (mapScale : α) = 300 / 46 ∧
    (∀ x z : α, minimapProject x z = (300 / 46 * x, -(300 / 46 * z))) ∧
    (∀ x z x' z' : α, minimapProject (x + x') (z + z') =
      ((minimapProject x z).1 + (minimapProject x' z').1,
        (minimapProject x z).2 + (minimapProject x' z').2)) ∧
    (∀ k x z : α, minimapProject (k * x) (k * z) =
      (k * (minimapProject x z).1, k * (minimapProject x z).2)) := by
  obtain ⟨_, _, h1, h2, h3⟩ := updateBabylonGUI_gui E s p hp
  refine ⟨h1, h2, h3, ?_, mapScale_eq, ?_, ?_, ?_⟩
  · unfold mapScale
    rw [mul_comm]
  · intro x z
    unfold minimapProject
    rw [mapScale_eq]
    refine Prod.ext ?_ ?_ <;> simp only <;> ring
  · intro x z x' z'
    unfold minimapProject
    refine Prod.ext ?_ ?_ <;> simp only <;> ring
  · intro k x z
    unfold minimapProject
    refine Prod.ext ?_ ?_ <;> simp only <;> ring

/-- C18 at a concrete session: the player at `(23, -46)` is drawn at
`(150, 300)`. -/
theorem minimap_projection_witness :
    (updateBabylonGUI realEngine (playerAt 23 1 (-46))).gui.minimapPlayer = (150, 300) := by
  have h := minimap_projection realEngine (playerAt 23 1 (-46))
    ⟨⟨23, 1, -46⟩, Vector3.Zero, none, ⟨1, 1, 1⟩, none⟩ rfl
  rw [h.1, h.2.2.2.2.2.1]
  refine Prod.ext ?_ ?_ <;> norm_num

theorem moveVector_cases (i : InputState) :
    ((moveVector i : Vector3 α).x = -1 ∨ (moveVector i : Vector3 α).x = 0 ∨
      (moveVector i : Vector3 α).x = 1) ∧
    (moveVector i : Vector3 α).y = 0 ∧
    ((moveVector i : Vector3 α).z = -1 ∨ (moveVector i : Vector3 α).z = 0 ∨
      (moveVector i : Vector3 α).z = 1) := by
  rcases i with ⟨f, b, l, r⟩
  cases f <;> cases b <;> cases l <;> cases r <;> simp [moveVector]

/-- C19 (amended): for every combination of the four flags, the components
of the composed vector `(right - left, 0, forward - backward)` are -1, 0 or
1; its squared length is 0 exactly when it is the zero vector, 1 exactly when
one of the two axes is active, and 2 (length `√2`, not a unit vector) exactly
when both axes are active. -/
theorem moveVector_lengthSquared (i : InputState) :
    (((moveVector i : Vector3 α).x = -1 ∨ (moveVector i : Vector3 α).x = 0 ∨
        (moveVector i : Vector3 α).x = 1) ∧
      (moveVector i : Vector3 α).y = 0 ∧
      ((moveVector i : Vector3 α).z = -1 ∨ (moveVector i : Vector3 α).z = 0 ∨
        (moveVector i : Vector3 α).z = 1)) ∧
    ((moveVector i : Vector3 α).lengthSquared = 0 ↔
      (moveVector i : Vector3 α) = Vector3.Zero) ∧
    ((moveVector i : Vector3 α).lengthSquared = 1 ↔
      (((moveVector i : Vector3 α).x = 0 ∧ (moveVector i : Vector3 α).z ≠ 0) ∨
        ((moveVector i : Vector3 α).x ≠ 0 ∧ (moveVector i : Vector3 α).z = 0))) ∧
    ((moveVector i : Vector3 α).lengthSquared = 2 ↔
      ((moveVector i : Vector3 α).x ≠ 0 ∧ (moveVector i : Vector3 α).z ≠ 0)) ∧
    ((moveVector i : Vector3 α).lengthSquared = 0 ∨
      (moveVector i : Vector3 α).lengthSquared = 1 ∨
      (moveVector i : Vector3 α).lengthSquared = 2) := by
  refine ⟨moveVector_cases i, ?_⟩
  rcases i with ⟨f, b, l, r⟩
  cases f <;> cases b <;> cases l <;> cases r <;>
    norm_num [moveVector, Vector3.lengthSquared, Vector3.Zero]

/-- C19, as stated, fails: with the forward and right flags set the composed
vector is `(1, 0, 1)`, which is not the zero vector and has length `√2`, not
1. -/
theorem moveVector_unit_counterexample :
    (moveVector ⟨true, false, false, true⟩ : Vector3 ℝ) = ⟨1, 0, 1⟩ ∧
    (moveVector ⟨true, false, false, true⟩ : Vector3 ℝ) ≠ Vector3.Zero ∧
    Vector3.length realEngine (moveVector ⟨true, false, false, true⟩ : Vector3 ℝ) =
      Real.sqrt 2 ∧
    Vector3.length realEngine (moveVector ⟨true, false, false, true⟩ : Vector3 ℝ) ≠ 1 := by
  have hv : (moveVector ⟨true, false, false, true⟩ : Vector3 ℝ) = ⟨1, 0, 1⟩ := by
    simp [moveVector]
  have hl : Vector3.length realEngine (moveVector ⟨true, false, false, true⟩ : Vector3 ℝ) =
      Real.sqrt 2 := by
    rw [hv]
    simp only [Vector3.length, Vector3.lengthSquared, realEngine]
    norm_num
  refine ⟨hv, ?_, hl, ?_⟩
  · rw [hv]
    intro h
    have hx := congrArg Vector3.x h
    simp [Vector3.Zero] at hx
  · rw [hl]
    exact ne_of_gt sqrt_two_bounds.1

theorem rotateXZ_lengthSquared (E : Engine α) (hE : ExactMath E) (a x z : α) :
    (rotateXZ E a x z).1 * (rotateXZ E a x z).1 + (rotateXZ E a x z).2 * (rotateXZ E a x z).2 =
      x * x + z * z := by
  have hc := hE.2 a
  unfold rotateXZ
  simp only
  have h : (-x * E.cos a - z * E.sin a) * (-x * E.cos a - z * E.sin a) +
      (x * E.sin a - z * E.cos a) * (x * E.sin a - z * E.cos a) =
      (x * x + z * z) * (E.cos a * E.cos a + E.sin a * E.sin a) := by ring
  rw [h, hc, mul_one]

theorem sum_squares_eq_zero (x z : α) (h : x * x + z * z = 0) : x = 0 ∧ z = 0 := by
  have hx : 0 ≤ x * x := mul_self_nonneg x
  have hz : 0 ≤ z * z := mul_self_nonneg z
  have hx0 : x * x = 0 := le_antisymm (by linarith) hx
  have hz0 : z * z = 0 := le_antisymm (by linarith) hz
  exact ⟨mul_self_eq_zero.mp hx0, mul_self_eq_zero.mp hz0⟩

theorem moveVector_xz_ne_zero (i : InputState)
    (h : (moveVector i : Vector3 α) ≠ Vector3.Zero) :
    (moveVector i : Vector3 α).x ≠ 0 ∨ (moveVector i : Vector3 α).z ≠ 0 := by
  by_contra hcon
  simp only [not_or, not_not] at hcon
  apply h
  have hy : (moveVector i : Vector3 α).y = 0 := (moveVector_cases i).2.1
  cases hv : (moveVector i : Vector3 α) with
  | mk vx vy vz =>
    rw [hv] at hcon hy
    simp only at hcon hy
    rw [hcon.1, hcon.2, hy]
    rfl

theorem rotated_lengthSquared_pos (E : Engine α) (hE : ExactMath E) (a : α) (i : InputState)
    (h : (moveVector i : Vector3 α) ≠ Vector3.Zero) :
    0 < (⟨(rotateXZ E a (moveVector i : Vector3 α).x (moveVector i : Vector3 α).z).1, 0,
      (rotateXZ E a (moveVector i : Vector3 α).x (moveVector i : Vector3 α).z).2⟩ :
        Vector3 α).lengthSquared := by
  have hl := rotateXZ_lengthSquared E hE a (moveVector i : Vector3 α).x (moveVector i : Vector3 α).z
  unfold Vector3.lengthSquared
  simp only [mul_zero, add_zero]
  rw [hl]
  have hnn : 0 ≤ (moveVector i : Vector3 α).x * (moveVector i : Vector3 α).x +
      (moveVector i : Vector3 α).z * (moveVector i : Vector3 α).z :=
    add_nonneg (mul_self_nonneg _) (mul_self_nonneg _)
  rcases lt_or_eq_of_le hnn with hlt | heq
  · exact hlt
  · exfalso
    obtain ⟨hx, hz⟩ := sum_squares_eq_zero _ _ heq.symm
    rcases moveVector_xz_ne_zero i h with h' | h'
    · exact h' hx
    · exact h' hz

theorem sqrt_pos_of_pos (E : Engine α) (hE : ExactMath E) (x : α) (hx : 0 < x) :
    0 < E.sqrt x := by
  obtain ⟨h0, hsq⟩ := hE.1 x (le_of_lt hx)
  rcases lt_or_eq_of_le h0 with hlt | heq
  · exact hlt
  · exfalso
    rw [← heq] at hsq
    simp only [mul_zero] at hsq
    rw [← hsq] at hx
    exact lt_irrefl 0 hx

theorem normalizedMove_eq (E : Engine α) (i : InputState) (a : α) :
    normalizedMove E i a =
      ((⟨(rotateXZ E a (moveVector i : Vector3 α).x (moveVector i : Vector3 α).z).1, 0,
        (rotateXZ E a (moveVector i : Vector3 α).x (moveVector i : Vector3 α).z).2⟩ :
          Vector3 α).normalize E).scale MOVEMENT_SPEED := rfl

/-- C20: for every angle `a` (with `cos` and `sin` on the unit circle), the
map `(mx, mz) ↦ (-mx cos a - mz sin a, mx sin a - mz cos a)` of the movement
step is linear, has determinant 1 and preserves the squared Euclidean length;
so a non-zero input vector gives a non-zero rotated vector, and the length
that the normalization divides by is not zero. -/
theorem rotateXZ_rotation (E : Engine α) (hE : ExactMath E) (a : α) :
    (∀ x z x' z', rotateXZ E a (x + x') (z + z') =
      ((rotateXZ E a x z).1 + (rotateXZ E a x' z').1,
        (rotateXZ E a x z).2 + (rotateXZ E a x' z').2)) ∧
    (∀ k x z, rotateXZ E a (k * x) (k * z) =
      (k * (rotateXZ E a x z).1, k * (rotateXZ E a x z).2)) ∧
    ((rotateXZ E a 1 0).1 * (rotateXZ E a 0 1).2 -
      (rotateXZ E a 0 1).1 * (rotateXZ E a 1 0).2 = 1) ∧
    (∀ x z, (rotateXZ E a x z).1 * (rotateXZ E a x z).1 +
      (rotateXZ E a x z).2 * (rotateXZ E a x z).2 = x * x + z * z) ∧
    (∀ x z, (x ≠ 0 ∨ z ≠ 0) → rotateXZ E a x z ≠ (0, 0)) ∧
    (∀ i, normalizedMove E i a =
      ((⟨(rotateXZ E a (moveVector i : Vector3 α).x (moveVector i : Vector3 α).z).1, 0,
        (rotateXZ E a (moveVector i : Vector3 α).x (moveVector i : Vector3 α).z).2⟩ :
          Vector3 α).normalize E).scale MOVEMENT_SPEED) ∧
    (∀ i, (moveVector i : Vector3 α) ≠ Vector3.Zero →
      Vector3.length E
        (⟨(rotateXZ E a (moveVector i : Vector3 α).x (moveVector i : Vector3 α).z).1, 0,
          (rotateXZ E a (moveVector i : Vector3 α).x (moveVector i : Vector3 α).z).2⟩ :
            Vector3 α) ≠ 0) := by
  refine ⟨?_, ?_, ?_, rotateXZ_lengthSquared E hE a, ?_, fun i => normalizedMove_eq E i a, ?_⟩
  · intro x z x' z'
    unfold rotateXZ
    refine Prod.ext ?_ ?_ <;> simp only <;> ring
  · intro k x z
    unfold rotateXZ
    refine Prod.ext ?_ ?_ <;> simp only <;> ring
  · have hc := hE.2 a
    unfold rotateXZ
    simp only
    have h : (-1 * E.cos a - 0 * E.sin a) * (0 * E.sin a - 1 * E.cos a) -
        (-0 * E.cos a - 1 * E.sin a) * (1 * E.sin a - 0 * E.cos a) =
        E.cos a * E.cos a + E.sin a * E.sin a := by ring
    rw [h, hc]
  · intro x z hxz hzero
    have hl := rotateXZ_lengthSquared E hE a x z
    rw [hzero] at hl
    simp only [mul_zero, add_zero] at hl
    obtain ⟨hx, hz⟩ := sum_squares_eq_zero x z hl.symm
    rcases hxz with h | h
    · exact h hx
    · exact h hz
  · intro i hi
    exact ne_of_gt (sqrt_pos_of_pos E hE _ (rotated_lengthSquared_pos E hE a i hi))

theorem Vector3.lengthSquared_scale (v : Vector3 α) (k : α) :
    (v.scale k).lengthSquared = v.lengthSquared * (k * k) := by
  unfold Vector3.scale Vector3.lengthSquared
  simp only
  ring

theorem sqrt_mul_self_eq (E : Engine α) (hE : ExactMath E) (y : α) (hy : 0 ≤ y) :
    E.sqrt (y * y) = y := by
  obtain ⟨h0, hsq⟩ := hE.1 (y * y) (mul_self_nonneg y)
  rcases mul_self_eq_mul_self_iff.mp hsq with h | h
  · exact h
  · have hy0 : y = 0 := by linarith
    rw [h, hy0, neg_zero]

theorem Vector3.normalize_lengthSquared (E : Engine α) (hE : ExactMath E) (v : Vector3 α)
    (hv : 0 < v.lengthSquared) : (v.normalize E).lengthSquared = 1 := by
  obtain ⟨h0, hsq⟩ := hE.1 v.lengthSquared (le_of_lt hv)
  have hpos := sqrt_pos_of_pos E hE _ hv
  unfold Vector3.normalize Vector3.length
  split
  · rename_i h
    rcases h with h | h
    · exact absurd h (ne_of_gt hpos)
    · rw [h] at hsq
      rw [← hsq, mul_one]
  · rw [Vector3.lengthSquared_scale]
    have hne : E.sqrt v.lengthSquared ≠ 0 := ne_of_gt hpos
    have h2 : v.lengthSquared * (1 / E.sqrt v.lengthSquared * (1 / E.sqrt v.lengthSquared)) =
        v.lengthSquared / (E.sqrt v.lengthSquared * E.sqrt v.lengthSquared) := by
      field_simp
    rw [h2, hsq]
    exact div_self (ne_of_gt hv)

/-- C16: in exact arithmetic, for every combination of the four flags whose
composed vector is non-zero and every facing angle, the displacement added to
the player position before clamping and collision gating has Euclidean length
exactly `MOVEMENT_SPEED = 0.2`; so every non-zero input, diagonal or along one
axis, moves the player at the same speed. -/
theorem normalizedMove_length (E : Engine α) (hE : ExactMath E) (i : InputState) (a : α)
    (hmove : (moveVector i : Vector3 α) ≠ Vector3.Zero) :
    Vector3.length E (normalizedMove E i a) = MOVEMENT_SPEED ∧
    (MOVEMENT_SPEED : α) = 2 / 10 ∧
    (∀ (j : InputState) (b : α), (moveVector j : Vector3 α) ≠ Vector3.Zero →
      Vector3.length E (normalizedMove E j b) = Vector3.length E (normalizedMove E i a)) := by
  have key : ∀ (j : InputState) (b : α), (moveVector j : Vector3 α) ≠ Vector3.Zero →
      Vector3.length E (normalizedMove E j b) = MOVEMENT_SPEED := by
    intro j b hj
    have hn := Vector3.normalize_lengthSquared E hE _ (rotated_lengthSquared_pos E hE b j hj)
    rw [normalizedMove_eq E j b]
    unfold Vector3.length
    rw [Vector3.lengthSquared_scale, hn, one_mul]
    apply sqrt_mul_self_eq E hE
    unfold MOVEMENT_SPEED
    norm_num
  exact ⟨key i a hmove, rfl, fun j b hj => (key j b hj).trans (key i a hmove).symm⟩

theorem exactMath_realEngine : ExactMath realEngine := by
  refine ⟨fun x hx => ⟨Real.sqrt_nonneg x, Real.mul_self_sqrt hx⟩, fun a => ?_⟩
  show Real.cos a * Real.cos a + Real.sin a * Real.sin a = 1
  rw [← sq, ← sq]
  exact Real.cos_sq_add_sin_sq a

theorem moveVector_diagonal_ne_zero :
    (moveVector ⟨true, false, false, true⟩ : Vector3 ℝ) ≠ Vector3.Zero := by
  intro h
  have hx := congrArg Vector3.x h
  simp [moveVector, Vector3.Zero] at hx

theorem moveVector_forward_ne_zero :
    (moveVector ⟨true, false, false, false⟩ : Vector3 ℝ) ≠ Vector3.Zero := by
  intro h
  have hz := congrArg Vector3.z h
  simp [moveVector, Vector3.Zero] at hz

/-- C16 with exact real functions, at the angle of one radian: the diagonal
input (forward and right) and the forward input both move the player by a
displacement of length 0.2. -/
theorem normalizedMove_length_witness :
    Vector3.length realEngine (normalizedMove realEngine ⟨true, false, false, true⟩ 1) =
      2 / 10 ∧
    Vector3.length realEngine (normalizedMove realEngine ⟨true, false, false, false⟩ 1) =
      2 / 10 :=
  ⟨(normalizedMove_length realEngine exactMath_realEngine _ 1 moveVector_diagonal_ne_zero).1,
   (normalizedMove_length realEngine exactMath_realEngine _ 1 moveVector_forward_ne_zero).1⟩

/-- C20 with exact real functions, at the angle of one radian: the
determinant is 1, the diagonal vector `(1, 1)` keeps its squared length 2 and
is not sent to zero. -/
theorem rotateXZ_rotation_witness :
    ((rotateXZ realEngine 1 1 0).1 * (rotateXZ realEngine 1 0 1).2 -
      (rotateXZ realEngine 1 0 1).1 * (rotateXZ realEngine 1 1 0).2 = 1) ∧
    ((rotateXZ realEngine 1 1 1).1 * (rotateXZ realEngine 1 1 1).1 +
      (rotateXZ realEngine 1 1 1).2 * (rotateXZ realEngine 1 1 1).2 = 1 * 1 + 1 * 1) ∧
    rotateXZ realEngine 1 1 1 ≠ (0, 0) :=
  ⟨(rotateXZ_rotation realEngine exactMath_realEngine 1).2.2.1,
   (rotateXZ_rotation realEngine exactMath_realEngine 1).2.2.2.1 1 1,
   (rotateXZ_rotation realEngine exactMath_realEngine 1).2.2.2.2.1 1 1 (Or.inl one_ne_zero)⟩

end DisplayTheorems

/-! ## Keyboard handler -/

section KeyboardTheorems

variable {α : Type} [LinearOrderedField α] [FloorRing α]

theorem handleInput_structure (E : Engine α) (key : String) (pressed : Bool) (s : Session α) :
    (∃ i, handleInput E key pressed s = { s with inputState := i }) ∨
      (key = "e" ∧ pressed = true ∧ handleInput E key pressed s = tryInteract E s) := by
  unfold handleInput
  split
  · exact Or.inl ⟨_, rfl⟩
  · split
    · exact Or.inl ⟨_, rfl⟩
    · split
      · exact Or.inl ⟨_, rfl⟩
      · split
        · exact Or.inl ⟨_, rfl⟩
        · split
          · rename_i he
            cases pressed with
            | true => exact Or.inr ⟨he, rfl, rfl⟩
            | false => exact Or.inl ⟨s.inputState, rfl⟩
          · exact Or.inl ⟨s.inputState, rfl⟩

/-- C14: `handleInput(key, pressed)` for a movement key writes `pressed` to
the one flag of that key and returns the session otherwise unchanged (the
other three flags and every other variable keep their values); for a key that
is neither a movement key nor `"e"` it returns the session unchanged. -/
theorem handleInput_movement (E : Engine α) (key : String) (pressed : Bool) (s : Session α) :
    ((key = "w" ∨ key = "arrowup") → handleInput E key pressed s =
      { s with inputState := { s.inputState with forward := pressed } }) ∧
    ((key = "s" ∨ key = "arrowdown") → handleInput E key pressed s =
      { s with inputState := { s.inputState with backward := pressed } }) ∧
    ((key = "a" ∨ key = "arrowleft") → handleInput E key pressed s =
      { s with inputState := { s.inputState with left := pressed } }) ∧
    ((key = "d" ∨ key = "arrowright") → handleInput E key pressed s =
      { s with inputState := { s.inputState with right := pressed } }) ∧
    (key ∉ ["w", "arrowup", "s", "arrowdown", "a", "arrowleft", "d", "arrowright", "e"] →
      handleInput E key pressed s = s) := by
  refine ⟨?_, ?_, ?_, ?_, ?_⟩
  · intro h
    unfold handleInput
    rw [if_pos h]
  · intro h
    unfold handleInput
    rw [if_neg (by rcases h with h | h <;> rw [h] <;> decide), if_pos h]
  · intro h
    unfold handleInput
    rw [if_neg (by rcases h with h | h <;> rw [h] <;> decide),
      if_neg (by rcases h with h | h <;> rw [h] <;> decide), if_pos h]
  · intro h
    unfold handleInput
    rw [if_neg (by rcases h with h | h <;> rw [h] <;> decide),
      if_neg (by rcases h with h | h <;> rw [h] <;> decide),
      if_neg (by rcases h with h | h <;> rw [h] <;> decide), if_pos h]
  · intro h
    simp only [List.mem_cons, List.mem_singleton, List.not_mem_nil, or_false, not_or] at h
    obtain ⟨h1, h2, h3, h4, h5, h6, h7, h8, h9⟩ := h
    unfold handleInput
    rw [if_neg (by rintro (h | h) <;> contradiction),
      if_neg (by rintro (h | h) <;> contradiction),
      if_neg (by rintro (h | h) <;> contradiction),
      if_neg (by rintro (h | h) <;> contradiction), if_neg h9]

theorem phase_run_frames (E : Engine α) (ts : List α) (s : Session α) :
    phase (run E s (ts.map Event.frame)) = phase s := by
  induction ts generalizing s with
  | nil => rfl
  | cons t rest ih =>
    show phase (run E (onBeforeRender E t s) (rest.map Event.frame)) = phase s
    rw [ih, phase_onBeforeRender]

/-- C15: Game State and the carrying flag change only on a key-down of the
interaction key: such an event runs the interaction action once (its result
is that of one call of `tryInteract`), and every other event (a key-up of any
key, the interaction key included, a key-down of any other key, a frame, and
any number of frames in a row) leaves Game State and the carrying flag as
they were. -/
theorem phase_changes_only_on_interaction_keydown (E : Engine α) (s : Session α)
    (e : Event α) :
    (∀ key, key.toLower = "e" → step E s (Event.keyDown key) = tryInteract E s) ∧
    (∀ key, (step E s (Event.keyUp key)).gameState = s.gameState ∧
      (step E s (Event.keyUp key)).playerHasPackage = s.playerHasPackage) ∧
    (∀ key, key.toLower ≠ "e" →
      (step E s (Event.keyDown key)).gameState = s.gameState ∧
      (step E s (Event.keyDown key)).playerHasPackage = s.playerHasPackage) ∧
    (∀ ts : List α, (run E s (ts.map Event.frame)).gameState = s.gameState ∧
      (run E s (ts.map Event.frame)).playerHasPackage = s.playerHasPackage) ∧
    ((∀ key, e = Event.keyDown key → key.toLower ≠ "e") →
      (step E s e).gameState = s.gameState ∧
      (step E s e).playerHasPackage = s.playerHasPackage) := by
  have hdown : ∀ key, key.toLower ≠ "e" →
      phase (step E s (Event.keyDown key)) = phase s := by
    intro key hk
    rcases handleInput_cases E key.toLower true s with h | ⟨he, _, _⟩
    · exact h
    · exact absurd he hk
  have hup : ∀ key, phase (step E s (Event.keyUp key)) = phase s := by
    intro key
    rcases handleInput_cases E key.toLower false s with h | ⟨_, hf, _⟩
    · exact h
    · cases hf
  refine ⟨?_, ?_, ?_, ?_, ?_⟩
  · intro key hk
    show handleInput E key.toLower true s = tryInteract E s
    unfold handleInput
    rw [hk]
    simp
  · intro key
    exact (phase_eq_iff _ _ _).mp (hup key)
  · intro key hk
    exact (phase_eq_iff _ _ _).mp (hdown key hk)
  · intro ts
    exact (phase_eq_iff _ _ _).mp (phase_run_frames E ts s)
  · intro hne
    apply (phase_eq_iff _ _ _).mp
    cases e with
    | keyDown key => exact hdown key (hne key rfl)
    | keyUp key => exact hup key
    | frame deltaTime => exact phase_onBeforeRender E deltaTime s
    | cameraMoved camera => rfl
    | playerLoaded meshes groups => exact phase_handlePlayerLoaded meshes groups s
    | playerLoadError => rfl
    | serverLoaded meshes => exact phase_handleServerLoaded meshes s
    | serverLoadError => rfl
    | pageInteraction => exact phase_startAudioOnInteraction s
    | timer id => exact phase_fireTimer id s

end KeyboardTheorems

/-! ## The package: carried after the pickup, set down by the delivery -/

section PackageTheorems

variable {α : Type} [LinearOrderedField α] [FloorRing α]

theorem cargo_showFeedback (msg : String) (d : Nat) (s : Session α) :
    cargo (showFeedback msg d s) = cargo s := by
  unfold showFeedback
  cases s.feedbackEl with
  | none => rfl
  | some f =>
    cases hid : s.feedbackTimeoutId with
    | none => simp [cargo, schedule, hid]
    | some id =>
      by_cases h0 : id = 0
      · simp [cargo, schedule, hid, h0]
      · simp [cargo, schedule, clearTimer, hid, h0]

theorem cargo_updateBabylonGUI (E : Engine α) (s : Session α) :
    cargo (updateBabylonGUI E s) = cargo s := by
  unfold updateBabylonGUI
  split <;> rfl

theorem cargo_startWalking (s : Session α) : cargo (startWalking s) = cargo s := by
  unfold startWalking
  split
  · simp only []
    (repeat' split) <;> rfl
  · rfl

theorem cargo_stopWalking (s : Session α) : cargo (stopWalking s) = cargo s := by
  unfold stopWalking
  split
  · simp only []
    (repeat' split) <;> rfl
  · rfl

theorem cargo_movementStep (E : Engine α) (s : Session α) (p : Mesh α) (c : Camera α) :
    cargo (movementStep E s p c) = cargo s := by
  unfold movementStep
  simp only []
  rw [cargo_updateBabylonGUI]
  split
  · rw [cargo_startWalking]
    rfl
  · rw [cargo_stopWalking]
    rfl

theorem cargo_onBeforeRender (E : Engine α) (deltaTime : α) (s : Session α)
    (hf : s.playerHasPackage = true) : cargo (onBeforeRender E deltaTime s) = cargo s := by
  unfold onBeforeRender
  simp only []
  split
  · rw [cargo_movementStep]
    simp only [cargo]
    split
    · rename_i h1 h2
      rw [hf] at h2
      cases h2
    · rfl
  · simp only [cargo]
    split
    · rename_i h1 h2
      rw [hf] at h2
      cases h2
    · rfl

theorem Mesh.setParent_parent (E : Engine α) (s : Session α) (m : Mesh α)
    (node : Option MeshRef) : (m.setParent E s node).parent = node := by
  unfold Mesh.setParent
  split
  · rename_i h
    rw [h.1, h.2]
  · rfl

theorem pickUp_cargo (E : Engine α) (s : Session α) (m : Mesh α) :
    (pickUp E s m).currentPackage = some MeshRef.serverMesh ∧
    ∃ m', (pickUp E s m).serverMesh = some m' ∧ m'.parent = some MeshRef.playerMesh ∧
      m'.position = ⟨0, 12 / 10, 11 / 10⟩ ∧ m'.rotation = Vector3.Zero := by
  have h : cargo (pickUp E s m) =
      (some { ((({ m with rotationQuaternion := none } : Mesh α).setParent E
          { s with playerHasPackage := true, currentPackage := some MeshRef.serverMesh }
          (some MeshRef.playerMesh))) with
        position := ⟨0, 12 / 10, 11 / 10⟩, rotation := Vector3.Zero },
        some MeshRef.serverMesh) := by
    unfold pickUp
    simp only []
    split
    · show cargo (showFeedback _ _ _) = _
      rw [cargo_showFeedback]
      rfl
    · rw [cargo_showFeedback]
      rfl
  have h1 : (pickUp E s m).serverMesh = _ := congrArg Prod.fst h
  have h2 : (pickUp E s m).currentPackage = _ := congrArg Prod.snd h
  refine ⟨h2, _, h1, ?_, rfl, rfl⟩
  exact Mesh.setParent_parent E _ _ _

theorem deliver_cargo (E : Engine α) (s : Session α) (m : Mesh α)
    (hm : s.serverMesh = some m) :
    (deliver E s).currentPackage = none ∧
    ∃ m', (deliver E s).serverMesh = some m' ∧ m'.parent = none ∧
      m'.position = DELIVERY_ZONE_POSITION.add ⟨0, 6 / 10, 0⟩ ∧
      m'.rotationQuaternion = none := by
  have key : ∀ t : Session α,
      cargo (match t.bgMusic with
        | some a => if a.paused then t else schedule TimerAction.fadeOut 100 true t
        | none => t) = cargo t := by
    intro t
    cases t.bgMusic with
    | none => rfl
    | some a =>
      by_cases hp : a.paused = true
      · simp [hp]
      · simp [hp, schedule, cargo]
  have key2 : ∀ t : Session α,
      cargo (match t.successSound with
        | some a =>
          { t with
            successSound := some (Audio.play { a with currentTime := 0 })
            calls := Call.successPlay :: t.calls }
        | none => t) = cargo t := by
    intro t
    cases t.successSound <;> rfl
  have h : cargo (deliver E s) =
      (some { (m.setParent E { s with playerHasPackage := false, currentPackage := none }
          none) with
        rotationQuaternion := none
        position := DELIVERY_ZONE_POSITION.add ⟨0, 6 / 10, 0⟩ }, none) := by
    unfold deliver
    simp only []
    rw [key, key2]
    show cargo (showFeedback _ _ _) = _
    rw [cargo_showFeedback]
    simp only [cargo, updateUI, hm]
  have h1 : (deliver E s).serverMesh = _ := congrArg Prod.fst h
  have h2 : (deliver E s).currentPackage = _ := congrArg Prod.snd h
  refine ⟨h2, _, h1, ?_, rfl, rfl⟩
  exact Mesh.setParent_parent E _ _ _

theorem delivery_point_raised :
    (DELIVERY_ZONE_POSITION : Vector3 α).add ⟨0, 6 / 10, 0⟩ = ⟨-16, 16 / 10, -18⟩ := by
  unfold DELIVERY_ZONE_POSITION FLOOR_LEVEL Vector3.add
  simp only [Vector3.mk.injEq]
  refine ⟨?_, ?_, ?_⟩ <;> norm_num

/-- C12 (amended): after a successful delivery, Game State is COMPLETED, the
carrying flag is clear, the current-package reference is cleared, the package
has no parent (it stands in the world), its quaternion is cleared, and its
position is the delivery coordinate raised by 0.6 on Y: `(-16, 1.6, -18)`,
with the X and Z of the delivery coordinate `(-16, 1, -18)`. -/
theorem delivery_effect (E : Engine α) (s : Session α) (p m : Mesh α)
    (hp : s.playerMesh = some p) (hm : s.serverMesh = some m)
    (hg : s.gameState = GameState.llevar_a_reparacion) (hf : s.playerHasPackage = true)
    (hd : Vector3.Distance E p.position ⟨-16, 1, -18⟩ ≤ 5) :
    (tryInteract E s).gameState = GameState.completado ∧
    (tryInteract E s).playerHasPackage = false ∧
    (tryInteract E s).currentPackage = none ∧
    ∃ m', (tryInteract E s).serverMesh = some m' ∧ m'.parent = none ∧
      m'.rotationQuaternion = none ∧
      m'.position = ⟨-16, 16 / 10, -18⟩ ∧
      m'.position.x = -16 ∧ m'.position.y = 1 + 6 / 10 ∧ m'.position.z = -18 := by
  have h := tryInteract_deliver E s p hp hg hf hd
  have hph := (phase_eq_iff _ _ _).mp (phase_deliver E s)
  obtain ⟨hc, m', hs, hpar, hpos, hq⟩ := deliver_cargo E s m hm
  rw [h]
  refine ⟨hph.1, hph.2, hc, m', hs, hpar, hq, ?_, ?_, ?_, ?_⟩
  · rw [hpos, delivery_point_raised]
  · rw [hpos, delivery_point_raised]
  · rw [hpos, delivery_point_raised]
    norm_num
  · rw [hpos, delivery_point_raised]

theorem deliver_position_example :
    ∃ m', (tryInteract realEngine (carryingAt (-16) 1 (-18))).serverMesh = some m' ∧
      m'.position = ⟨-16, 16 / 10, -18⟩ := by
  rw [tryInteract_deliver realEngine (carryingAt (-16) 1 (-18)) _ rfl rfl rfl
    distance_delivery_zero]
  obtain ⟨_, m', hs, _, hpos, _⟩ := deliver_cargo realEngine (carryingAt (-16) 1 (-18)) _ rfl
  exact ⟨m', hs, by rw [hpos, delivery_point_raised]⟩

/-- C12, as stated, fails: after the delivery made on the delivery point, the
package stands at `(-16, 1.6, -18)`, which is not the delivery coordinate
`(-16, 1, -18)`. -/
theorem delivery_position_counterexample :
    ∃ m', (tryInteract realEngine (carryingAt (-16) 1 (-18))).serverMesh = some m' ∧
      m'.position = ⟨-16, 16 / 10, -18⟩ ∧ m'.position ≠ ⟨-16, 1, -18⟩ := by
  obtain ⟨m', hs, hpos⟩ := deliver_position_example
  refine ⟨m', hs, hpos, ?_⟩
  rw [hpos]
  intro h
  have hy := congrArg Vector3.y h
  norm_num at hy

/-- C12 (amended) at a concrete session: the delivery made at distance 5 from
the delivery point. -/
theorem delivery_effect_witness :
    (tryInteract realEngine (carryingAt (-16) 1 (-13))).gameState = GameState.completado ∧
    (tryInteract realEngine (carryingAt (-16) 1 (-13))).playerHasPackage = false ∧
    (tryInteract realEngine (carryingAt (-16) 1 (-13))).currentPackage = none ∧
    ∃ m', (tryInteract realEngine (carryingAt (-16) 1 (-13))).serverMesh = some m' ∧
      m'.parent = none ∧ m'.rotationQuaternion = none ∧
      m'.position = ⟨-16, 16 / 10, -18⟩ ∧
      m'.position.x = -16 ∧ m'.position.y = 1 + 6 / 10 ∧ m'.position.z = -18 :=
  delivery_effect realEngine (carryingAt (-16) 1 (-13)) _ _ rfl rfl rfl rfl
    distance_delivery_13

theorem phase_step_of_not_interaction (E : Engine α) (s : Session α) (e : Event α)
    (h : isInteraction e = false) : phase (step E s e) = phase s := by
  rcases step_cases E s e with h' | h'
  · exact h'
  · cases e with
    | keyDown key =>
      rcases handleInput_cases E key.toLower true s with h'' | ⟨he, _, _⟩
      · exact h''
      · simp [isInteraction, he] at h
    | keyUp key =>
      rcases handleInput_cases E key.toLower false s with h'' | ⟨_, hfalse, _⟩
      · exact h''
      · cases hfalse
    | frame deltaTime => exact phase_onBeforeRender E deltaTime s
    | cameraMoved camera => rfl
    | playerLoaded meshes groups => exact phase_handlePlayerLoaded meshes groups s
    | playerLoadError => rfl
    | serverLoaded meshes => exact phase_handleServerLoaded meshes s
    | serverLoadError => rfl
    | pageInteraction => exact phase_startAudioOnInteraction s
    | timer id => exact phase_fireTimer id s

theorem countDeliveries_of_no_interaction (E : Engine α) (events : List (Event α))
    (s : Session α) (h : ∀ e ∈ events, isInteraction e = false) :
    countDeliveries E s events = 0 := by
  induction events generalizing s with
  | nil => rfl
  | cons e rest ih =>
    have hph := phase_step_of_not_interaction E s e (h e (List.mem_cons_self e rest))
    have hno := not_isDelivery_of_phase_eq s (step E s e) hph
    rw [countDeliveries, if_neg hno, Nat.zero_add]
    exact ih (step E s e) (fun e' he' => h e' (List.mem_cons_of_mem e he'))

theorem playerMesh_isSome_onBeforeRender (E : Engine α) (deltaTime : α) (s : Session α)
    (h : s.playerMesh.isSome = true) : (onBeforeRender E deltaTime s).playerMesh.isSome = true := by
  cases hp : s.playerMesh with
  | none =>
    rw [hp] at h
    cases h
  | some p =>
    cases hc : s.followCamera with
    | none =>
      rw [onBeforeRender_playerMesh_of_none E deltaTime s (Or.inr hc), hp]
      rfl
    | some c =>
      rw [onBeforeRender_playerMesh E deltaTime s p c hp hc]
      rfl

/-- The package is being carried: Game State DELIVERING, flag set, player
loaded, package on the player at the pickup offset. -/
theorem carrying_step (E : Engine α) (s : Session α) (e : Event α)
    (hph : phase s = (GameState.llevar_a_reparacion, true)) (hc : Carried s)
    (hpl : s.playerMesh.isSome = true) (he : isFrameOrKey e = true)
    (hno : ¬ isDelivery s (step E s e)) :
    phase (step E s e) = (GameState.llevar_a_reparacion, true) ∧ Carried (step E s e) ∧
      (step E s e).playerMesh.isSome = true := by
  have hkey : ∀ key pressed, step E s e = handleInput E key pressed s →
      phase (step E s e) = (GameState.llevar_a_reparacion, true) ∧ Carried (step E s e) ∧
        (step E s e).playerMesh.isSome = true := by
    intro key pressed hstep
    rcases handleInput_structure E key pressed s with ⟨i, hi⟩ | ⟨_, _, hi⟩
    · rw [hstep, hi]
      exact ⟨hph, hc, hpl⟩
    · rcases tryInteract_phase_cases E s with h | ⟨hg, _, _, _⟩ | ⟨_, _, _, hdone⟩
      · rw [hstep, hi, h]
        exact ⟨hph, hc, hpl⟩
      · rw [phase_eq_iff] at hph
        rw [hph.1] at hg
        cases hg
      · exfalso
        apply hno
        rw [hstep, hi]
        rw [phase_eq_iff] at hdone hph
        refine ⟨?_, hdone.1, hdone.2⟩
        rw [hph.1]
        intro hcontra
        cases hcontra
  cases e with
  | keyDown key => exact hkey key.toLower true rfl
  | keyUp key => exact hkey key.toLower false rfl
  | frame deltaTime =>
    have hf : s.playerHasPackage = true := ((phase_eq_iff _ _ _).mp hph).2
    have hcargo := cargo_onBeforeRender E deltaTime s hf
    have hs : (onBeforeRender E deltaTime s).serverMesh = s.serverMesh :=
      congrArg Prod.fst hcargo
    refine ⟨(phase_onBeforeRender E deltaTime s).trans hph, ?_,
      playerMesh_isSome_onBeforeRender E deltaTime s hpl⟩
    obtain ⟨m, hm, hpar, hpos⟩ := hc
    exact ⟨m, hs.trans hm, hpar, hpos⟩
  | cameraMoved camera => cases he
  | playerLoaded meshes groups => cases he
  | playerLoadError => cases he
  | serverLoaded meshes => cases he
  | serverLoadError => cases he
  | pageInteraction => cases he
  | timer id => cases he

theorem carrying_run (E : Engine α) (events : List (Event α)) (s : Session α)
    (hph : phase s = (GameState.llevar_a_reparacion, true)) (hc : Carried s)
    (hpl : s.playerMesh.isSome = true) (hev : ∀ e ∈ events, isFrameOrKey e = true)
    (hno : countDeliveries E s events = 0) :
    phase (run E s events) = (GameState.llevar_a_reparacion, true) ∧
      Carried (run E s events) ∧ (run E s events).playerMesh.isSome = true := by
  induction events generalizing s with
  | nil => exact ⟨hph, hc, hpl⟩
  | cons e rest ih =>
    rw [countDeliveries] at hno
    have hnod : ¬ isDelivery s (step E s e) := by
      intro hd
      rw [if_pos hd] at hno
      omega
    rw [if_neg hnod, Nat.zero_add] at hno
    obtain ⟨h1, h2, h3⟩ := carrying_step E s e hph hc hpl
      (hev e (List.mem_cons_self e rest)) hnod
    exact ih (step E s e) h1 h2 h3 (fun e' he' => hev e' (List.mem_cons_of_mem e he')) hno

/-- C11: a successful pickup puts the package on the player (its parent is
the player mesh) at the relative position `(0, 1.2, 1.1)`; after any sequence
of frames and key events in which no delivery is performed, Game State is
still DELIVERING and the package still has that parent and that relative
position, so its absolute position is the engine's world transform of the
fixed offset in the frame of the player mesh. -/
theorem package_tracks_player (E : Engine α) (s : Session α) (p m : Mesh α)
    (events : List (Event α))
    (hp : s.playerMesh = some p) (hm : s.serverMesh = some m)
    (hg : s.gameState = GameState.buscar_servidor) (hf : s.playerHasPackage = false)
    (hd : Vector3.Distance E p.position (getAbsolutePosition E s m) ≤ 3)
    (hev : ∀ e ∈ events, isFrameOrKey e = true)
    (hno : countDeliveries E (tryInteract E s) events = 0) :
    Carried (tryInteract E s) ∧
    (run E (tryInteract E s) events).gameState = GameState.llevar_a_reparacion ∧
    ∃ q m', (run E (tryInteract E s) events).playerMesh = some q ∧
      (run E (tryInteract E s) events).serverMesh = some m' ∧
      m'.parent = some MeshRef.playerMesh ∧ m'.position = ⟨0, 12 / 10, 11 / 10⟩ ∧
      getAbsolutePosition E (run E (tryInteract E s) events) m' =
        E.toWorld q ⟨0, 12 / 10, 11 / 10⟩ := by
  have h := tryInteract_pickup E s p m hp hm hg hf hd
  have hcar : Carried (tryInteract E s) := by
    rw [h]
    obtain ⟨_, m', hs, hpar, hpos, _⟩ := pickUp_cargo E s m
    exact ⟨m', hs, hpar, hpos⟩
  have hph : phase (tryInteract E s) = (GameState.llevar_a_reparacion, true) := by
    rw [h]
    exact phase_pickUp E s m
  have hpl : (tryInteract E s).playerMesh.isSome = true := by
    rw [playerMesh_tryInteract, hp]
    rfl
  obtain ⟨h1, ⟨m', hs, hpar, hpos⟩, h3⟩ :=
    carrying_run E events (tryInteract E s) hph hcar hpl hev hno
  refine ⟨hcar, ((phase_eq_iff _ _ _).mp h1).1, ?_⟩
  cases hq : (run E (tryInteract E s) events).playerMesh with
  | none =>
    rw [hq] at h3
    cases h3
  | some q =>
    refine ⟨q, m', rfl, hs, hpar, hpos, ?_⟩
    unfold getAbsolutePosition
    rw [hpar]
    simp only [hq, hpos]

theorem toLower_w : "w".toLower = "w" := by
  rw [String.toLower, String.map_eq]
  decide

theorem not_interaction_w : isInteraction (Event.keyDown "w" : Event ℝ) = false := by
  show decide ("w".toLower = "e") = false
  rw [toLower_w]
  decide

/-- C11 at a concrete session: the pickup made at distance 3, then the
forward key held for two frames and released. -/
theorem package_tracks_player_witness :
    Carried (tryInteract realEngine (playerAt 16 1 13)) ∧
    (run realEngine (tryInteract realEngine (playerAt 16 1 13))
      [Event.keyDown "w", Event.frame 16, Event.frame 16, Event.keyUp "w"]).gameState =
        GameState.llevar_a_reparacion ∧
    ∃ q m', (run realEngine (tryInteract realEngine (playerAt 16 1 13))
        [Event.keyDown "w", Event.frame 16, Event.frame 16, Event.keyUp "w"]).playerMesh =
          some q ∧
      (run realEngine (tryInteract realEngine (playerAt 16 1 13))
        [Event.keyDown "w", Event.frame 16, Event.frame 16, Event.keyUp "w"]).serverMesh =
          some m' ∧
      m'.parent = some MeshRef.playerMesh ∧ m'.position = ⟨0, 12 / 10, 11 / 10⟩ ∧
      getAbsolutePosition realEngine (run realEngine (tryInteract realEngine (playerAt 16 1 13))
        [Event.keyDown "w", Event.frame 16, Event.frame 16, Event.keyUp "w"]) m' =
        realEngine.toWorld q ⟨0, 12 / 10, 11 / 10⟩ :=
  package_tracks_player realEngine (playerAt 16 1 13) _ _
    [Event.keyDown "w", Event.frame 16, Event.frame 16, Event.keyUp "w"] rfl rfl rfl rfl
    (le_of_eq distance_pickup_13)
    (by
      intro e he
      simp only [List.mem_cons, List.mem_singleton, List.not_mem_nil, or_false] at he
      rcases he with h | h | h | h <;> rw [h] <;> rfl)
    (countDeliveries_of_no_interaction realEngine _ _ (by
      intro e he
      simp only [List.mem_cons, List.mem_singleton, List.not_mem_nil, or_false] at he
      rcases he with h | h | h | h <;> rw [h]
      · exact not_interaction_w
      · rfl
      · rfl
      · rfl))

end PackageTheorems

/-! ## Facing and camera-relative movement -/

section FacingTheorems

variable {α : Type} [LinearOrderedField α] [FloorRing α]

theorem sqrt_one (E : Engine α) (hE : ExactMath E) : E.sqrt 1 = 1 := by
  have h := sqrt_mul_self_eq E hE 1 zero_le_one
  rwa [mul_one] at h

theorem normalizedMove_forward (E : Engine α) (hE : ExactMath E) (a : α) :
    normalizedMove E ⟨true, false, false, false⟩ a =
      ⟨-E.sin a * MOVEMENT_SPEED, 0, -E.cos a * MOVEMENT_SPEED⟩ := by
  have hc := hE.2 a
  have hl : Vector3.length E (⟨-E.sin a, 0, -E.cos a⟩ : Vector3 α) = 1 := by
    unfold Vector3.length Vector3.lengthSquared
    have h : -E.sin a * -E.sin a + 0 * 0 + -E.cos a * -E.cos a =
        E.cos a * E.cos a + E.sin a * E.sin a := by ring
    rw [h, hc]
    exact sqrt_one E hE
  have hr : normalizedMove E ⟨true, false, false, false⟩ a =
      ((⟨-E.sin a, 0, -E.cos a⟩ : Vector3 α).normalize E).scale MOVEMENT_SPEED := by
    unfold normalizedMove moveVector
    simp
  rw [hr]
  unfold Vector3.normalize
  rw [if_pos (Or.inr hl)]
  unfold Vector3.scale
  simp

theorem normalizedMove_backward (E : Engine α) (hE : ExactMath E) (a : α) :
    normalizedMove E ⟨false, true, false, false⟩ a =
      ⟨E.sin a * MOVEMENT_SPEED, 0, E.cos a * MOVEMENT_SPEED⟩ := by
  have hc := hE.2 a
  have hl : Vector3.length E (⟨E.sin a, 0, E.cos a⟩ : Vector3 α) = 1 := by
    unfold Vector3.length Vector3.lengthSquared
    have h : E.sin a * E.sin a + 0 * 0 + E.cos a * E.cos a =
        E.cos a * E.cos a + E.sin a * E.sin a := by ring
    rw [h, hc]
    exact sqrt_one E hE
  have hr : normalizedMove E ⟨false, true, false, false⟩ a =
      ((⟨E.sin a, 0, E.cos a⟩ : Vector3 α).normalize E).scale MOVEMENT_SPEED := by
    unfold normalizedMove moveVector
    simp
  rw [hr]
  unfold Vector3.normalize
  rw [if_pos (Or.inr hl)]
  unfold Vector3.scale
  simp

theorem sum_squares_pos (y x : α) (h : y ≠ 0 ∨ x ≠ 0) : 0 < y * y + x * x := by
  have hnn : 0 ≤ y * y + x * x := add_nonneg (mul_self_nonneg _) (mul_self_nonneg _)
  rcases lt_or_eq_of_le hnn with hlt | heq
  · exact hlt
  · exfalso
    obtain ⟨hy, hx⟩ := sum_squares_eq_zero _ _ heq.symm
    rcases h with h | h
    · exact h hy
    · exact h hx

/-- C21: in exact arithmetic, when the horizontal offset `d` from the player
to the camera is not zero, the displacement of the movement step before
clamping is `MOVEMENT_SPEED` times `-d / |d|` with only the forward flag set
(directly away from the camera) and `MOVEMENT_SPEED` times `d / |d|` with
only the backward flag set (directly toward it), where `|d|`, the square root
of `dx² + dz²`, is positive. -/
theorem forward_moves_away_from_camera (E : Engine α) (hE : ExactMath E) (hA : ExactAtan2 E)
    (c : Camera α) (p : Mesh α)
    (hd : c.position.x - p.position.x ≠ 0 ∨ c.position.z - p.position.z ≠ 0) :
    0 < E.sqrt ((c.position.x - p.position.x) * (c.position.x - p.position.x) +
      (c.position.z - p.position.z) * (c.position.z - p.position.z)) ∧
    normalizedMove E ⟨true, false, false, false⟩ (facingAngle E c p) =
      ⟨MOVEMENT_SPEED * (-(c.position.x - p.position.x) /
          E.sqrt ((c.position.x - p.position.x) * (c.position.x - p.position.x) +
            (c.position.z - p.position.z) * (c.position.z - p.position.z))), 0,
        MOVEMENT_SPEED * (-(c.position.z - p.position.z) /
          E.sqrt ((c.position.x - p.position.x) * (c.position.x - p.position.x) +
            (c.position.z - p.position.z) * (c.position.z - p.position.z)))⟩ ∧
    normalizedMove E ⟨false, true, false, false⟩ (facingAngle E c p) =
      ⟨MOVEMENT_SPEED * ((c.position.x - p.position.x) /
          E.sqrt ((c.position.x - p.position.x) * (c.position.x - p.position.x) +
            (c.position.z - p.position.z) * (c.position.z - p.position.z))), 0,
        MOVEMENT_SPEED * ((c.position.z - p.position.z) /
          E.sqrt ((c.position.x - p.position.x) * (c.position.x - p.position.x) +
            (c.position.z - p.position.z) * (c.position.z - p.position.z)))⟩ := by
  have hpos := sqrt_pos_of_pos E hE _ (sum_squares_pos _ _ hd)
  have hne := ne_of_gt hpos
  obtain ⟨hs, hc⟩ := hA _ _ hd
  have hs' := eq_div_of_mul_eq hne hs
  have hc' := eq_div_of_mul_eq hne hc
  have hang : facingAngle E c p =
      E.atan2 (c.position.x - p.position.x) (c.position.z - p.position.z) := rfl
  refine ⟨hpos, ?_, ?_⟩
  · rw [normalizedMove_forward E hE, hang, hs', hc']
    simp only [Vector3.mk.injEq]
    refine ⟨?_, trivial, ?_⟩ <;> ring
  · rw [normalizedMove_backward E hE, hang, hs', hc']
    simp only [Vector3.mk.injEq]
    refine ⟨?_, trivial, ?_⟩ <;> ring

theorem movePlayer_rotation (obstacles : List (Option (Obstacle α))) (cx cz : α) (p : Mesh α) :
    (movePlayer obstacles cx cz p).rotation = p.rotation := by
  unfold movePlayer
  cases checkCollisionWithObstacles obstacles cx p.position.z <;>
    cases checkCollisionWithObstacles obstacles p.position.x cz <;> simp

theorem onBeforeRender_yaw (E : Engine α) (deltaTime : α) (s : Session α) (p : Mesh α)
    (c : Camera α) (hp : s.playerMesh = some p) (hc : s.followCamera = some c) :
    ∃ q, (onBeforeRender E deltaTime s).playerMesh = some q ∧
      q.rotation.y = E.atan2 (c.position.x - p.position.x) (c.position.z - p.position.z) := by
  refine ⟨_, onBeforeRender_playerMesh E deltaTime s p c hp hc, ?_⟩
  split
  · rw [movePlayer_rotation]
    rfl
  · rfl

/-- C22: the yaw of the player after a frame is
`atan2(camera.x - player.x, camera.z - player.z)`, taken at the positions
before the move; two sessions that agree on the camera position and on the
player position get the same yaw, whatever their previous yaw, input flags,
obstacles and frame time. -/
theorem yaw_depends_on_positions (E : Engine α) (dt1 dt2 : α) (s1 s2 : Session α)
    (p1 p2 : Mesh α) (c1 c2 : Camera α)
    (hp1 : s1.playerMesh = some p1) (hc1 : s1.followCamera = some c1)
    (hp2 : s2.playerMesh = some p2) (hc2 : s2.followCamera = some c2)
    (hpp : p1.position = p2.position) (hcc : c1.position = c2.position) :
    ∃ q1 q2, (onBeforeRender E dt1 s1).playerMesh = some q1 ∧
      (onBeforeRender E dt2 s2).playerMesh = some q2 ∧
      q1.rotation.y = q2.rotation.y ∧
      q1.rotation.y =
        E.atan2 (c1.position.x - p1.position.x) (c1.position.z - p1.position.z) := by
  obtain ⟨q1, hq1, hy1⟩ := onBeforeRender_yaw E dt1 s1 p1 c1 hp1 hc1
  obtain ⟨q2, hq2, hy2⟩ := onBeforeRender_yaw E dt2 s2 p2 c2 hp2 hc2
  refine ⟨q1, q2, hq1, hq2, ?_, hy1⟩
  rw [hy1, hy2, hpp, hcc]

theorem exactAtan2_realEngine : ExactAtan2 realEngine := by
  intro y x h
  show Real.sin (Complex.arg ⟨x, y⟩) * Real.sqrt (y * y + x * x) = y ∧
    Real.cos (Complex.arg ⟨x, y⟩) * Real.sqrt (y * y + x * x) = x
  have hz : (⟨x, y⟩ : ℂ) ≠ 0 := by
    intro hzero
    have hre := congrArg Complex.re hzero
    have him := congrArg Complex.im hzero
    simp only [Complex.zero_re, Complex.zero_im] at hre him
    rcases h with h | h
    · exact h him
    · exact h hre
  have habs : Complex.abs ⟨x, y⟩ = Real.sqrt (y * y + x * x) := by
    rw [Complex.abs_apply, Complex.normSq_mk]
    congr 1
    ring
  have hpos : 0 < Complex.abs ⟨x, y⟩ := Complex.abs.pos hz
  rw [← habs, Complex.sin_arg, Complex.cos_arg hz]
  constructor
  · exact div_mul_cancel₀ _ (ne_of_gt hpos)
  · exact div_mul_cancel₀ _ (ne_of_gt hpos)

/-- C21 with exact real functions: the camera 8 units behind the player
(at smaller `z`), only the forward key held: the displacement is `(0, 0, 0.2)`,
straight away from the camera. -/
theorem forward_moves_away_from_camera_witness :
    normalizedMove realEngine ⟨true, false, false, false⟩
      (facingAngle realEngine ⟨⟨0, 5, -8⟩, 10, 1⟩
        ⟨⟨0, 1, 0⟩, Vector3.Zero, none, ⟨1, 1, 1⟩, none⟩) = ⟨0, 0, 2 / 10⟩ := by
  have h := (forward_moves_away_from_camera realEngine exactMath_realEngine
    exactAtan2_realEngine ⟨⟨0, 5, -8⟩, 10, 1⟩
    ⟨⟨0, 1, 0⟩, Vector3.Zero, none, ⟨1, 1, 1⟩, none⟩ (Or.inr (by norm_num))).2.1
  rw [h]
  have h64 : Real.sqrt ((0 - 0) * (0 - 0) + (-8 - 0) * (-8 - 0)) = 8 := by
    rw [show ((0 : ℝ) - 0) * (0 - 0) + (-8 - 0) * (-8 - 0) = 8 ^ 2 by norm_num]
    exact Real.sqrt_sq (by norm_num)
  simp only [realEngine, h64, MOVEMENT_SPEED, Vector3.mk.injEq]
  refine ⟨?_, trivial, ?_⟩ <;> norm_num

/-- C22 at two concrete sessions with the same player and camera positions
and different input flags and frame times: the yaw after the frame is the
same. -/
theorem yaw_depends_on_positions_witness :
    ∃ q1 q2, (onBeforeRender realEngine 16 (playerAt 0 1 0)).playerMesh = some q1 ∧
      (onBeforeRender realEngine 33 slideSession).playerMesh = some q2 ∧
      q1.rotation.y = q2.rotation.y ∧
      q1.rotation.y = realEngine.atan2 ((0 : ℝ) - 0) (-8 - 0) :=
  yaw_depends_on_positions realEngine 16 33 (playerAt 0 1 0) slideSession
    ⟨⟨0, 1, 0⟩, Vector3.Zero, none, ⟨1, 1, 1⟩, none⟩
    ⟨⟨0, 1, 0⟩, Vector3.Zero, none, ⟨1, 1, 1⟩, none⟩
    ⟨⟨0, 5, -8⟩, 10, 1⟩ ⟨⟨0, 5, -8⟩, 10, 1⟩ rfl rfl rfl rfl rfl rfl

theorem updateBabylonGUI_of_no_player (E : Engine α) (s : Session α)
    (h : s.playerMesh = none) : updateBabylonGUI E s = s := by
  unfold updateBabylonGUI
  rw [h]

theorem onBeforeRender_inputState_of_none (E : Engine α) (deltaTime : α) (s : Session α)
    (h : s.playerMesh = none) : (onBeforeRender E deltaTime s).inputState = s.inputState := by
  unfold onBeforeRender
  simp only []
  cases hm : s.serverMesh with
  | none => simp only [h, hm]
  | some m =>
    cases hf : s.playerHasPackage with
    | true => simp only [h, hm, hf]
    | false => simp only [h, hm, hf]

theorem proximity_of_no_server (E : Engine α) (s : Session α) (p : Mesh α)
    (hm : s.serverMesh = none) (hg : s.gameState = GameState.buscar_servidor) :
    proximity E s p = (0, false) := by
  unfold proximity
  simp only [hm, hg]

/-- C23: with no player loaded, the interaction action and the GUI update
return the session unchanged, and a frame skips the movement part: Game
State, carrying flag and input flags are unchanged and the player is still
absent; with the player loaded, no package loaded and Game State
SEEKING_PACKAGE, the interaction action returns the session unchanged, the
proximity value is 0 and the proximity indicator is hidden. -/
theorem tolerates_missing_references (E : Engine α) (deltaTime : α) (s : Session α) :
    (s.playerMesh = none →
      tryInteract E s = s ∧ updateBabylonGUI E s = s ∧
      (onBeforeRender E deltaTime s).gameState = s.gameState ∧
      (onBeforeRender E deltaTime s).playerHasPackage = s.playerHasPackage ∧
      (onBeforeRender E deltaTime s).inputState = s.inputState ∧
      (onBeforeRender E deltaTime s).playerMesh = none) ∧
    (∀ p, s.playerMesh = some p → s.serverMesh = none →
      s.gameState = GameState.buscar_servidor →
      tryInteract E s = s ∧ proximity E s p = (0, false) ∧
      (updateBabylonGUI E s).gui.proximityVisible = false) := by
  constructor
  · intro h
    have hph := (phase_eq_iff _ _ _).mp (phase_onBeforeRender E deltaTime s)
    refine ⟨tryInteract_of_no_player E s h, updateBabylonGUI_of_no_player E s h, hph.1, hph.2,
      onBeforeRender_inputState_of_none E deltaTime s h, ?_⟩
    rw [onBeforeRender_playerMesh_of_none E deltaTime s (Or.inl h), h]
  · intro p hp hm hg
    have hprox := proximity_of_no_server E s p hm hg
    refine ⟨tryInteract_buscar_no_server E s hm hg, hprox, ?_⟩
    rw [(updateBabylonGUI_gui E s p hp).1, hprox]

end FacingTheorems

/-! ## Collision tests per axis and the corner of a desk -/

section CornerTheorems

variable {α : Type} [LinearOrderedField α] [FloorRing α]

theorem faced_position (E : Engine ℝ) (c : Camera ℝ) (p : Mesh ℝ) :
    (faced E c p).position = p.position := rfl

/-- The collision tests around the corner of the desk on `(3, 10)`, for a
step `a` between 0.1 and 0.2 on each axis: the start, the X candidate and the
Z candidate are outside every grown box, the combined point is inside the
grown box of that desk. -/
theorem officeDesks_corner (a : ℝ) (h1 : 1 / 10 ≤ a) (h2 : a ≤ 2 / 10) :
    checkCollisionWithObstacles officeDesks (12 / 10) (88 / 10) = false ∧
    checkCollisionWithObstacles officeDesks (12 / 10 + a) (88 / 10) = false ∧
    checkCollisionWithObstacles officeDesks (12 / 10) (88 / 10 + a) = false ∧
    checkCollisionWithObstacles officeDesks (12 / 10 + a) (88 / 10 + a) = true := by
  simp only [checkCollisionWithObstacles, officeDesks, deskAt, checkCollisionWithRadius,
    PLAYER_RADIUS]
  refine ⟨?_, ?_, ?_, ?_⟩
  · split_ifs <;> first | rfl | (exfalso; rename_i h; obtain ⟨ha, hb, hc, hd⟩ := h; linarith)
  · split_ifs <;> first | rfl | (exfalso; rename_i h; obtain ⟨ha, hb, hc, hd⟩ := h; linarith)
  · split_ifs <;> first | rfl | (exfalso; rename_i h; obtain ⟨ha, hb, hc, hd⟩ := h; linarith)
  · have hin : (12 / 10 + a ≥ 3 - 12 / 10 - 1 / 2 ∧ 12 / 10 + a ≤ 3 + 12 / 10 + 1 / 2 ∧
        88 / 10 + a ≥ 10 - 6 / 10 - 1 / 2 ∧ 88 / 10 + a ≤ 10 + 6 / 10 + 1 / 2) := by
      refine ⟨?_, ?_, ?_, ?_⟩ <;> linarith
    split_ifs <;> rfl

theorem facing_corner :
    facingAngle realEngine (⟨⟨12 / 10, 5, 8 / 10⟩, 10, 1⟩ : Camera ℝ)
      (⟨⟨12 / 10, 1, 88 / 10⟩, Vector3.Zero, none, ⟨1, 1, 1⟩, none⟩ : Mesh ℝ) = Real.pi := by
  simp only [facingAngle, Vector3.subtract, realEngine]
  have h : (⟨8 / 10 - 88 / 10, 12 / 10 - 12 / 10⟩ : ℂ) = ((-8 : ℝ) : ℂ) := by
    apply Complex.ext <;> norm_num
  rw [h]
  exact Complex.arg_ofReal_of_neg (by norm_num)

theorem nextX_corner (p : Mesh ℝ) (hp : p.position.x = 12 / 10) :
    nextX realEngine ⟨true, false, false, true⟩ Real.pi p =
      12 / 10 + 1 / Real.sqrt 2 * (2 / 10) := by
  obtain ⟨h1, h2⟩ := slide_step_bounds
  unfold nextX Scalar.Clamp GROUND_LIMIT
  rw [normalizedMove_slide, hp]
  rw [max_eq_right (by linarith), min_eq_right (by linarith)]

theorem nextZ_corner (p : Mesh ℝ) (hp : p.position.z = 88 / 10) :
    nextZ realEngine ⟨true, false, false, true⟩ Real.pi p =
      88 / 10 + 1 / Real.sqrt 2 * (2 / 10) := by
  obtain ⟨h1, h2⟩ := slide_step_bounds
  unfold nextZ Scalar.Clamp GROUND_LIMIT GROUND_LIMIT_BACK
  rw [normalizedMove_slide, hp]
  rw [max_eq_right (by linarith), min_eq_right (by linarith)]

/-- C28 (amended): in a frame with player and camera loaded, starting
outside every grown box, each axis is tested on its own against the old
coordinate of the other axis: after the frame the point `(new x, old z)` and
the point `(old x, new z)` are outside every grown box, and when the frame
changes at most one of the two coordinates the new `(x, z)` is outside every
grown box. Nothing is said about a diagonal step that changes both. -/
theorem movement_axes_stay_free (E : Engine α) (deltaTime : α) (s : Session α)
    (p : Mesh α) (c : Camera α)
    (hp : s.playerMesh = some p) (hc : s.followCamera = some c)
    (hfree : checkCollisionWithObstacles s.obstacles p.position.x p.position.z = false) :
    ∃ q, (onBeforeRender E deltaTime s).playerMesh = some q ∧
      checkCollisionWithObstacles s.obstacles q.position.x p.position.z = false ∧
      checkCollisionWithObstacles s.obstacles p.position.x q.position.z = false ∧
      ((q.position.x = p.position.x ∨ q.position.z = p.position.z) →
        checkCollisionWithObstacles s.obstacles q.position.x q.position.z = false) := by
  have hq := onBeforeRender_playerMesh E deltaTime s p c hp hc
  have hpos : (faced E c p).position = p.position := rfl
  by_cases hm : (moveVector s.inputState : Vector3 α).equals Vector3.Zero = false
  · rw [if_pos hm] at hq
    obtain ⟨hx, _, hz⟩ := movePlayer_position s.obstacles
      (nextX E s.inputState (facingAngle E c p) p) (nextZ E s.inputState (facingAngle E c p) p)
      (faced E c p)
    rw [hpos] at hx hz
    refine ⟨_, hq, ?_, ?_, ?_⟩
    · rw [hx]
      split
      · assumption
      · exact hfree
    · rw [hz]
      split
      · assumption
      · exact hfree
    · rintro (h | h)
      · rw [h, hz]
        split
        · assumption
        · exact hfree
      · rw [h, hx]
        split
        · assumption
        · exact hfree
  · rw [if_neg hm] at hq
    refine ⟨_, hq, ?_, ?_, fun _ => ?_⟩ <;> rw [hpos] <;> exact hfree

theorem cornerSession_frame :
    (onBeforeRender realEngine 16 cornerSession).playerMesh =
      some (movePlayer officeDesks (12 / 10 + 1 / Real.sqrt 2 * (2 / 10))
        (88 / 10 + 1 / Real.sqrt 2 * (2 / 10))
        (faced realEngine ⟨⟨12 / 10, 5, 8 / 10⟩, 10, 1⟩
          ⟨⟨12 / 10, 1, 88 / 10⟩, Vector3.Zero, none, ⟨1, 1, 1⟩, none⟩)) := by
  have hq := onBeforeRender_playerMesh realEngine 16 cornerSession
    ⟨⟨12 / 10, 1, 88 / 10⟩, Vector3.Zero, none, ⟨1, 1, 1⟩, none⟩
    ⟨⟨12 / 10, 5, 8 / 10⟩, 10, 1⟩ rfl rfl
  have hmove : (moveVector cornerSession.inputState : Vector3 ℝ) ≠ Vector3.Zero :=
    moveVector_diagonal_ne_zero
  rw [if_pos (Vector3.equals_eq_false hmove), facing_corner] at hq
  have hinput : cornerSession.inputState = ⟨true, false, false, true⟩ := rfl
  have hobs : cornerSession.obstacles = officeDesks := rfl
  rw [hinput, hobs, nextX_corner _ rfl, nextZ_corner _ rfl] at hq
  exact hq

/-- C28, as stated, fails: in the office with its six desks the player
stands at `(1.2, 8.8)`, outside every grown box, with the forward and right
keys held and the camera straight behind; the X candidate `(1.2 + 0.2/√2,
8.8)` and the Z candidate `(1.2, 8.8 + 0.2/√2)` are each free, both axes are
applied, and after the frame the player stands at `(1.2 + 0.2/√2, 8.8 +
0.2/√2)`, inside the grown box of the desk on `(3, 10)`. -/
theorem corner_cut_counterexample :
    cornerSession.obstacles = officeDesks ∧
    cornerSession.playerMesh =
      some ⟨⟨12 / 10, 1, 88 / 10⟩, Vector3.Zero, none, ⟨1, 1, 1⟩, none⟩ ∧
    checkCollisionWithObstacles cornerSession.obstacles (12 / 10) (88 / 10) = false ∧
    ∃ q, (onBeforeRender realEngine 16 cornerSession).playerMesh = some q ∧
      q.position.x = 12 / 10 + 1 / Real.sqrt 2 * (2 / 10) ∧
      q.position.z = 88 / 10 + 1 / Real.sqrt 2 * (2 / 10) ∧
      checkCollisionWithObstacles cornerSession.obstacles q.position.x q.position.z = true := by
  obtain ⟨h1, h2⟩ := slide_step_bounds
  obtain ⟨hstart, hfreeX, hfreeZ, hin⟩ := officeDesks_corner _ h1 h2
  obtain ⟨hx, _, hz⟩ := movePlayer_position officeDesks
    (12 / 10 + 1 / Real.sqrt 2 * (2 / 10)) (88 / 10 + 1 / Real.sqrt 2 * (2 / 10))
    (faced realEngine ⟨⟨12 / 10, 5, 8 / 10⟩, 10, 1⟩
      ⟨⟨12 / 10, 1, 88 / 10⟩, Vector3.Zero, none, ⟨1, 1, 1⟩, none⟩)
  rw [faced_position] at hx hz
  simp only at hx hz
  rw [if_pos hfreeX] at hx
  rw [if_pos hfreeZ] at hz
  refine ⟨rfl, rfl, hstart, _, cornerSession_frame, hx, hz, ?_⟩
  rw [hx, hz]
  exact hin

/-- C28 (amended) at the corner of the desk on `(3, 10)`: after the frame
the point `(new x, old z)` and the point `(old x, new z)` are outside every
grown box. -/
theorem movement_axes_stay_free_witness :
    ∃ q, (onBeforeRender realEngine 16 cornerSession).playerMesh = some q ∧
      checkCollisionWithObstacles cornerSession.obstacles q.position.x (88 / 10) = false ∧
      checkCollisionWithObstacles cornerSession.obstacles (12 / 10) q.position.z = false := by
  obtain ⟨q, hq, hx, hz, _⟩ := movement_axes_stay_free realEngine 16 cornerSession
    ⟨⟨12 / 10, 1, 88 / 10⟩, Vector3.Zero, none, ⟨1, 1, 1⟩, none⟩
    ⟨⟨12 / 10, 5, 8 / 10⟩, 10, 1⟩ rfl rfl
    (officeDesks_corner _ slide_step_bounds.1 slide_step_bounds.2).1
  exact ⟨q, hq, hx, hz⟩

end CornerTheorems

/-! ## The minimap and the extended back limit -/

section Defects

/-- C29, evaluated on the code: the player at `z = -25`, inside the world
bounds, is drawn `3750 / 23 ≈ 163` pixels below the centre of the minimap,
more than the 150 pixels of half its side. -/
theorem minimap_overflow_example :
    inBounds (⟨0, 1, -25⟩ : Vector3 ℝ) ∧
    (updateBabylonGUI realEngine (playerAt 0 1 (-25))).gui.minimapPlayer = (0, 3750 / 23) ∧
    (150 : ℝ) < 3750 / 23 := by
  refine ⟨?_, ?_, by norm_num⟩
  · unfold inBounds GROUND_LIMIT GROUND_LIMIT_BACK
    norm_num
  · rw [(updateBabylonGUI_gui realEngine (playerAt 0 1 (-25))
      ⟨⟨0, 1, -25⟩, Vector3.Zero, none, ⟨1, 1, 1⟩, none⟩ rfl).2.2.1]
    unfold minimapProject
    rw [mapScale_eq]
    refine Prod.ext ?_ ?_ <;> norm_num

end Defects

/-! ## Fade-out of the background music -/

section FadeTheorems

variable {α : Type} [LinearOrderedField α] [FloorRing α]

theorem fadeOutStep_decrement (id : Nat) (s : Session α) (a : Audio α)
    (hb : s.bgMusic = some a) (h : a.volume > 5 / 100) :
    fadeOutStep id s = { s with bgMusic := some { a with volume := a.volume - 5 / 100 } } := by
  unfold fadeOutStep
  simp only [hb]
  rw [if_pos h]

theorem fadeOutStep_pause (id : Nat) (s : Session α) (a : Audio α)
    (hb : s.bgMusic = some a) (h : ¬ a.volume > 5 / 100) :
    fadeOutStep id s =
      clearTimer id { s with bgMusic := some { a.pause with currentTime := 0 } } := by
  unfold fadeOutStep
  simp only [hb]
  rw [if_neg h]

theorem fadeOutStep_iterate (id : Nat) (s : Session α) (a : Audio α)
    (hb : s.bgMusic = some a) (k : Nat)
    (hk : ∀ j : Nat, j < k → a.volume - 5 / 100 * (j : α) > 5 / 100) :
    (fadeOutStep id)^[k] s =
      { s with bgMusic := some { a with volume := a.volume - 5 / 100 * (k : α) } } := by
  induction k with
  | zero =>
    simp only [Function.iterate_zero, id_eq, Nat.cast_zero, mul_zero, sub_zero]
    cases s
    simp only at hb
    rw [hb]
  | succ n ih =>
    rw [Function.iterate_succ_apply', ih (fun j hj => hk j (Nat.lt_succ_of_lt hj))]
    rw [fadeOutStep_decrement id _ { a with volume := a.volume - 5 / 100 * (n : α) } rfl
      (hk n (Nat.lt_succ_self n))]
    have hv : a.volume - 5 / 100 * (n : α) - 5 / 100 = a.volume - 5 / 100 * ((n + 1 : Nat) : α) := by
      push_cast
      ring
    simp only [hv]

theorem clearTimer_no_id (id : Nat) (s : Session α) :
    ∀ t ∈ (clearTimer id s).timers, t.id ≠ id := by
  intro t ht
  unfold clearTimer at ht
  simp only [List.mem_filter, decide_eq_true_eq] at ht
  exact ht.2

/-- C27: for a background music of volume `v` with `0 ≤ v ≤ 1`, the interval
callback of the fade-out subtracts 0.05 only while the volume is above 0.05:
there is a number `k ≤ 19` of subtracting callbacks, after `j ≤ k` of them the
volume is `v - 0.05 j`, which is never negative and strictly smaller at each
step, and callback number `k + 1` (at most the 20th) pauses the music,
rewinds it and clears the interval; from `v = 0.3` this is `k = 5`, the pause
on the 6th callback. -/
theorem fade_out_terminates (id : Nat) (s : Session α) (a : Audio α)
    (hb : s.bgMusic = some a) (h0 : 0 ≤ a.volume) (h1 : a.volume ≤ 1) :
    ∃ k : Nat, k ≤ 19 ∧
      (∀ j : Nat, j ≤ k → ((fadeOutStep id)^[j] s).bgMusic =
        some { a with volume := a.volume - 5 / 100 * (j : α) }) ∧
      (∀ j : Nat, j < k → a.volume - 5 / 100 * (j : α) > 5 / 100 ∧
        a.volume - 5 / 100 * ((j + 1 : Nat) : α) < a.volume - 5 / 100 * (j : α)) ∧
      (∀ j : Nat, j ≤ k → 0 ≤ a.volume - 5 / 100 * (j : α)) ∧
      a.volume - 5 / 100 * (k : α) ≤ 5 / 100 ∧
      ((fadeOutStep id)^[k + 1] s).bgMusic =
        some ⟨true, 0, a.volume - 5 / 100 * (k : α)⟩ ∧
      (∀ t ∈ ((fadeOutStep id)^[k + 1] s).timers, t.id ≠ id) ∧
      (a.volume = 3 / 10 → k = 5) := by
  have hex : ∃ n : Nat, a.volume - 5 / 100 * (n : α) ≤ 5 / 100 := by
    refine ⟨19, ?_⟩
    push_cast
    linarith
  classical
  have hle : Nat.find hex ≤ 19 := by
    apply Nat.find_min'
    push_cast
    linarith
  have hmin : ∀ j : Nat, j < Nat.find hex → a.volume - 5 / 100 * (j : α) > 5 / 100 := by
    intro j hj
    exact not_le.mp (Nat.find_min hex hj)
  have hspec := Nat.find_spec hex
  have hiter : ∀ j : Nat, j ≤ Nat.find hex → (fadeOutStep id)^[j] s =
      { s with bgMusic := some { a with volume := a.volume - 5 / 100 * (j : α) } } := by
    intro j hj
    exact fadeOutStep_iterate id s a hb j (fun i hi => hmin i (lt_of_lt_of_le hi hj))
  have hlast : (fadeOutStep id)^[Nat.find hex + 1] s =
      clearTimer id { s with bgMusic := some ⟨true, 0, a.volume - 5 / 100 * (Nat.find hex : α)⟩ } := by
    rw [Function.iterate_succ_apply', hiter _ (Nat.le_refl _)]
    rw [fadeOutStep_pause id _ { a with volume := a.volume - 5 / 100 * (Nat.find hex : α) } rfl
      (not_lt.mpr hspec)]
    rfl
  refine ⟨Nat.find hex, hle, ?_, ?_, ?_, hspec, ?_, ?_, ?_⟩
  · intro j hj
    rw [hiter j hj]
  · intro j hj
    refine ⟨hmin j hj, ?_⟩
    push_cast
    linarith
  · intro j hj
    rcases Nat.eq_zero_or_pos j with hz | hpos
    · rw [hz]
      simpa using h0
    · have hprev := hmin (j - 1) (by omega)
      have hcast : ((j - 1 : Nat) : α) = (j : α) - 1 := by
        rw [Nat.cast_sub hpos, Nat.cast_one]
      rw [hcast] at hprev
      linarith
  · rw [hlast]
    rfl
  · rw [hlast]
    exact clearTimer_no_id id _
  · intro hv
    apply le_antisymm
    · have h5 : a.volume - 5 / 100 * ((5 : Nat) : α) ≤ 5 / 100 := by
        push_cast
        linarith
      exact Nat.find_min' hex h5
    · by_contra hlt
      have hlt' : Nat.find hex ≤ 4 := by omega
      have hc : ((Nat.find hex : Nat) : α) ≤ 4 := by exact_mod_cast hlt'
      linarith

theorem fireTimer_fadeOut (id : Nat) (s : Session α) (delay : Nat)
    (h : s.timers.find? (fun t => t.id = id) = some ⟨id, TimerAction.fadeOut, delay, true⟩) :
    fireTimer id s = fadeOutStep id s := by
  unfold fireTimer
  simp only [h, if_true]

/-- C27 at the configured volume 0.3: five callbacks subtract, the sixth
pauses and rewinds the music and leaves the volume at 0.05. -/
theorem fade_out_terminates_witness :
    ∃ k : Nat, k = 5 ∧
      ((fadeOutStep 7)^[k + 1] loadedSession).bgMusic =
        some ⟨true, 0, 3 / 10 - 5 / 100 * (k : ℝ)⟩ := by
  obtain ⟨k, _, _, _, _, _, hlast, _, h5⟩ := fade_out_terminates 7 loadedSession
    ⟨true, 0, 3 / 10⟩ rfl (by norm_num) (by norm_num)
  exact ⟨k, h5 rfl, hlast⟩

end FadeTheorems

/-! ## Walk animation and footstep sound -/

section WalkTheorems

variable {α : Type} [LinearOrderedField α] [FloorRing α]

theorem walkView_startWalking (s : Session α) :
    walkView (startWalking s) = startWalkingView (walkView s) := by
  unfold startWalking startWalkingView walkView
  cases h1 : s.isWalking <;> cases h2 : s.walkAnimationGroup <;>
    cases h3 : s.footstepSound <;> simp [h1, h2, h3]
  rename_i g a
  cases h4 : a.paused <;> simp [h4, Audio.play]

theorem walkView_stopWalking (s : Session α) :
    walkView (stopWalking s) = stopWalkingView (walkView s) := by
  unfold stopWalking stopWalkingView walkView
  cases h1 : s.isWalking <;> cases h2 : s.walkAnimationGroup <;>
    cases h3 : s.footstepSound <;> simp [h1, h2, h3]
  rename_i g a
  cases h4 : a.paused <;> simp [h4, Audio.pause]

theorem walkView_updateBabylonGUI (E : Engine α) (s : Session α) :
    walkView (updateBabylonGUI E s) = walkView s := by
  unfold updateBabylonGUI
  split <;> rfl

theorem walkView_movementStep (E : Engine α) (s : Session α) (p : Mesh α) (c : Camera α) :
    walkView (movementStep E s p c) =
      if isMoving s = true then startWalkingView (walkView s)
      else stopWalkingView (walkView s) := by
  unfold movementStep isMoving
  simp only []
  rw [walkView_updateBabylonGUI]
  split
  · rw [walkView_startWalking]
    rfl
  · rw [walkView_stopWalking]
    rfl

theorem walkView_onBeforeRender (E : Engine α) (deltaTime : α) (s : Session α)
    (p : Mesh α) (c : Camera α) (hp : s.playerMesh = some p) (hc : s.followCamera = some c) :
    walkView (onBeforeRender E deltaTime s) =
      if isMoving s = true then startWalkingView (walkView s)
      else stopWalkingView (walkView s) := by
  unfold onBeforeRender
  simp only []
  cases hm : s.serverMesh with
  | none =>
    simp only [hp, hc, hm, Option.map_some']
    rw [walkView_movementStep]
    rfl
  | some m =>
    cases hf : s.playerHasPackage with
    | true =>
      simp only [hp, hc, hm, hf, Option.map_some']
      rw [walkView_movementStep]
      rfl
    | false =>
      simp only [hp, hc, hm, hf, Option.map_some']
      rw [walkView_movementStep]
      rfl

theorem walkView_onBeforeRender_of_none (E : Engine α) (deltaTime : α) (s : Session α)
    (h : s.playerMesh = none ∨ s.followCamera = none) :
    walkView (onBeforeRender E deltaTime s) = walkView s := by
  unfold onBeforeRender
  simp only []
  cases hm : s.serverMesh with
  | none =>
    rcases h with h | h
    · simp only [h, hm]
      rfl
    · cases hp : s.playerMesh <;> simp only [h, hm, hp, Option.map_none'] <;> rfl
  | some m =>
    cases hf : s.playerHasPackage with
    | true =>
      rcases h with h | h
      · simp only [h, hm, hf]
        rfl
      · cases hp : s.playerMesh <;> simp only [h, hm, hp, hf, Option.map_none'] <;> rfl
    | false =>
      rcases h with h | h
      · simp only [h, hm, hf]
        rfl
      · cases hp : s.playerMesh <;> simp only [h, hm, hp, hf, Option.map_none'] <;> rfl

theorem walkTrace_showFeedback (msg : String) (d : Nat) (s : Session α) :
    walkTrace (showFeedback msg d s) = walkTrace s := by
  unfold showFeedback
  cases s.feedbackEl with
  | none => rfl
  | some f =>
    cases hid : s.feedbackTimeoutId with
    | none => simp [walkTrace, walkLog, schedule, hid]
    | some id =>
      by_cases h0 : id = 0
      · simp [walkTrace, walkLog, schedule, hid, h0]
      · simp [walkTrace, walkLog, schedule, clearTimer, hid, h0]

theorem walkTrace_pickUp (E : Engine α) (s : Session α) (m : Mesh α) :
    walkTrace (pickUp E s m) = walkTrace s := by
  unfold pickUp
  simp only []
  split
  · have h := walkTrace_showFeedback "¡Servidor recogido! Llévalo a reparación" 3500
      (updateUI { s with
        playerHasPackage := true
        currentPackage := some MeshRef.serverMesh
        serverMesh := some
          { (({ m with rotationQuaternion := none } : Mesh α).setParent E
              { s with playerHasPackage := true, currentPackage := some MeshRef.serverMesh }
              (some MeshRef.playerMesh)) with
            position := ⟨0, 12 / 10, 11 / 10⟩, rotation := Vector3.Zero }
        gameState := GameState.llevar_a_reparacion })
    simp only [walkTrace, walkLog, Prod.mk.injEq] at h ⊢
    refine ⟨h.1, ?_⟩
    rw [List.filter_cons_of_neg (by decide)]
    exact h.2
  · rw [walkTrace_showFeedback]
    rfl

theorem walkTrace_deliver (E : Engine α) (s : Session α) :
    walkTrace (deliver E s) = walkTrace s := by
  have key : ∀ t : Session α,
      walkTrace (match t.bgMusic with
        | some a => if a.paused then t else schedule TimerAction.fadeOut 100 true t
        | none => t) = walkTrace t := by
    intro t
    cases t.bgMusic with
    | none => rfl
    | some a =>
      by_cases hp : a.paused = true
      · simp [hp]
      · simp [hp, schedule, walkTrace, walkLog]
  have key2 : ∀ t : Session α,
      walkTrace (match t.successSound with
        | some a =>
          { t with
            successSound := some (Audio.play { a with currentTime := 0 })
            calls := Call.successPlay :: t.calls }
        | none => t) = walkTrace t := by
    intro t
    cases t.successSound with
    | none => rfl
    | some a =>
      simp only [walkTrace, walkLog, Prod.mk.injEq, true_and]
      rw [List.filter_cons_of_neg (by decide)]
  have key3 : ∀ t : Session α, walkTrace (triggerVictoryEffect t) = walkTrace t := by
    intro t
    unfold triggerVictoryEffect
    simp only [walkTrace, walkLog, schedule, Prod.mk.injEq, true_and]
    rw [List.filter_cons_of_neg (by decide)]
  unfold deliver
  simp only []
  rw [key, key2, key3, walkTrace_showFeedback]
  show walkTrace (match s.serverMesh with
    | some serverMesh => _
    | none => _ : Session α) = _
  cases s.serverMesh <;> rfl

theorem walkTrace_tryInteract (E : Engine α) (s : Session α) :
    walkTrace (tryInteract E s) = walkTrace s := by
  rcases tryInteract_cases E s with h | ⟨m, h⟩ | h
  · rw [h]
  · rw [h, walkTrace_pickUp]
  · rw [h, walkTrace_deliver]

theorem walkTrace_handleInput (E : Engine α) (key : String) (pressed : Bool) (s : Session α) :
    walkTrace (handleInput E key pressed s) = walkTrace s := by
  rcases handleInput_structure E key pressed s with ⟨i, h⟩ | ⟨_, _, h⟩
  · rw [h]
    rfl
  · rw [h, walkTrace_tryInteract]

theorem walkTrace_fireTimer (id : Nat) (s : Session α) :
    walkTrace (fireTimer id s) = walkTrace s := by
  have hfade : ∀ t : Session α, walkTrace (fadeOutStep id t) = walkTrace t := by
    intro t
    unfold fadeOutStep
    (repeat' split) <;> rfl
  unfold fireTimer
  split
  · rfl
  · simp only []
    split
    · split <;> rfl
    · split <;> rfl
    · rw [hfade]
      split <;> rfl

theorem walkTrace_startAudioOnInteraction (s : Session α) :
    walkTrace (startAudioOnInteraction s) = walkTrace s := by
  unfold startAudioOnInteraction
  split
  · simp only [walkTrace, walkLog, Prod.mk.injEq, true_and]
    rw [List.filter_cons_of_neg (by decide)]
  · rfl

theorem alternating_startWalkingView
    (v : Bool × Option AnimationGroup × Option (Audio α) × List Call)
    (h : Alternating v.1
      (v.2.2.2.filter (fun c => decide (c = Call.walkStart ∨ c = Call.walkStop)))) :
    Alternating (startWalkingView v).1
      ((startWalkingView v).2.2.2.filter
        (fun c => decide (c = Call.walkStart ∨ c = Call.walkStop))) := by
  obtain ⟨w, g, a, calls⟩ := v
  cases w with
  | true => exact h
  | false =>
    cases g with
    | none => exact h
    | some g =>
      cases a with
      | none =>
        simp only [startWalkingView]
        rw [List.filter_cons_of_pos (by decide)]
        exact h
      | some a =>
        simp only [startWalkingView]
        split
        · simp only []
          rw [List.filter_cons_of_neg (by decide), List.filter_cons_of_pos (by decide)]
          exact h
        · simp only []
          rw [List.filter_cons_of_pos (by decide)]
          exact h

theorem alternating_stopWalkingView
    (v : Bool × Option AnimationGroup × Option (Audio α) × List Call)
    (h : Alternating v.1
      (v.2.2.2.filter (fun c => decide (c = Call.walkStart ∨ c = Call.walkStop)))) :
    Alternating (stopWalkingView v).1
      ((stopWalkingView v).2.2.2.filter
        (fun c => decide (c = Call.walkStart ∨ c = Call.walkStop))) := by
  obtain ⟨w, g, a, calls⟩ := v
  cases w with
  | false => exact h
  | true =>
    cases g with
    | none => exact h
    | some g =>
      cases a with
      | none =>
        simp only [stopWalkingView]
        rw [List.filter_cons_of_pos (by decide)]
        exact h
      | some a =>
        simp only [stopWalkingView]
        split
        · simp only []
          rw [List.filter_cons_of_pos (by decide)]
          exact h
        · simp only []
          rw [List.filter_cons_of_neg (by decide), List.filter_cons_of_pos (by decide)]
          exact h

theorem alternating_of_walkView (s t : Session α)
    (h : Alternating (walkView t).1
      ((walkView t).2.2.2.filter (fun c => decide (c = Call.walkStart ∨ c = Call.walkStop)))) :
    Alternating t.isWalking (walkLog t) := h

theorem alternating_onBeforeRender (E : Engine α) (deltaTime : α) (s : Session α)
    (h : Alternating s.isWalking (walkLog s)) :
    Alternating (onBeforeRender E deltaTime s).isWalking
      (walkLog (onBeforeRender E deltaTime s)) := by
  apply alternating_of_walkView s
  cases hp : s.playerMesh with
  | none =>
    rw [walkView_onBeforeRender_of_none E deltaTime s (Or.inl hp)]
    exact h
  | some p =>
    cases hc : s.followCamera with
    | none =>
      rw [walkView_onBeforeRender_of_none E deltaTime s (Or.inr hc)]
      exact h
    | some c =>
      rw [walkView_onBeforeRender E deltaTime s p c hp hc]
      split
      · exact alternating_startWalkingView (walkView s) h
      · exact alternating_stopWalkingView (walkView s) h

theorem alternating_of_walkTrace (s t : Session α) (ht : walkTrace t = walkTrace s)
    (h : Alternating s.isWalking (walkLog s)) : Alternating t.isWalking (walkLog t) := by
  have h1 : t.isWalking = s.isWalking := congrArg Prod.fst ht
  have h2 : walkLog t = walkLog s := congrArg Prod.snd ht
  rw [h1, h2]
  exact h

theorem alternating_step (E : Engine α) (s : Session α) (e : Event α)
    (h : Alternating s.isWalking (walkLog s)) :
    Alternating (step E s e).isWalking (walkLog (step E s e)) := by
  cases e with
  | keyDown key => exact alternating_of_walkTrace s _ (walkTrace_handleInput E _ true s) h
  | keyUp key => exact alternating_of_walkTrace s _ (walkTrace_handleInput E _ false s) h
  | frame deltaTime => exact alternating_onBeforeRender E deltaTime s h
  | cameraMoved camera => exact h
  | playerLoaded meshes groups =>
    cases meshes with
    | nil => exact h
    | cons m rest => exact h
  | playerLoadError => exact h
  | serverLoaded meshes =>
    cases meshes with
    | nil => exact h
    | cons m rest => exact h
  | serverLoadError => exact h
  | pageInteraction =>
    exact alternating_of_walkTrace s _ (walkTrace_startAudioOnInteraction s) h
  | timer id => exact alternating_of_walkTrace s _ (walkTrace_fireTimer id s) h

theorem alternating_run (E : Engine α) (events : List (Event α)) (s : Session α)
    (h : Alternating s.isWalking (walkLog s)) :
    Alternating (run E s events).isWalking (walkLog (run E s events)) := by
  induction events generalizing s with
  | nil => exact h
  | cons e rest ih => exact ih (step E s e) (alternating_step E s e h)

theorem startWalkingView_some (w : Bool) (g : AnimationGroup) (a : Option (Audio α))
    (calls : List Call) :
    (startWalkingView (w, some g, a, calls)).1 = true ∧
    (startWalkingView (w, some g, a, calls)).2.1.isSome = true ∧
    (startWalkingView (w, some g, a, calls)).2.2.2.filter
        (fun c => decide (c = Call.walkStart ∨ c = Call.walkStop)) =
      (if w = false then
        Call.walkStart :: calls.filter (fun c => decide (c = Call.walkStart ∨ c = Call.walkStop))
      else calls.filter (fun c => decide (c = Call.walkStart ∨ c = Call.walkStop))) := by
  cases w with
  | true => exact ⟨rfl, rfl, rfl⟩
  | false =>
    cases a with
    | none =>
      refine ⟨rfl, rfl, ?_⟩
      simp only [startWalkingView, if_true]
      rw [List.filter_cons_of_pos (by decide)]
    | some a =>
      cases hp : a.paused with
      | true =>
        simp only [startWalkingView, hp, if_true]
        refine ⟨trivial, rfl, ?_⟩
        rw [List.filter_cons_of_neg (by decide), List.filter_cons_of_pos (by decide)]
      | false =>
        simp only [startWalkingView, hp, Bool.false_eq_true, if_false, if_true]
        refine ⟨trivial, rfl, ?_⟩
        rw [List.filter_cons_of_pos (by decide)]

theorem stopWalkingView_some (w : Bool) (g : AnimationGroup) (a : Option (Audio α))
    (calls : List Call) :
    (stopWalkingView (w, some g, a, calls)).1 = false ∧
    (stopWalkingView (w, some g, a, calls)).2.1.isSome = true ∧
    (stopWalkingView (w, some g, a, calls)).2.2.2.filter
        (fun c => decide (c = Call.walkStart ∨ c = Call.walkStop)) =
      (if w = true then
        Call.walkStop :: calls.filter (fun c => decide (c = Call.walkStart ∨ c = Call.walkStop))
      else calls.filter (fun c => decide (c = Call.walkStart ∨ c = Call.walkStop))) := by
  cases w with
  | false => exact ⟨rfl, rfl, rfl⟩
  | true =>
    cases a with
    | none =>
      refine ⟨rfl, rfl, ?_⟩
      simp only [stopWalkingView, if_true]
      rw [List.filter_cons_of_pos (by decide)]
    | some a =>
      cases hp : a.paused with
      | true =>
        simp only [stopWalkingView, hp, if_true]
        refine ⟨trivial, rfl, ?_⟩
        rw [List.filter_cons_of_pos (by decide)]
      | false =>
        simp only [stopWalkingView, hp, Bool.false_eq_true, if_false, if_true]
        refine ⟨trivial, rfl, ?_⟩
        rw [List.filter_cons_of_neg (by decide), List.filter_cons_of_pos (by decide)]

theorem walkView_eq (s : Session α) (g : AnimationGroup) (hg : s.walkAnimationGroup = some g) :
    walkView s = (s.isWalking, some g, s.footstepSound, s.calls) := by
  unfold walkView
  rw [hg]

/-- C24: in a frame with player, camera and a walk animation available, the
flag `isWalking` becomes "the input vector is not zero"; the frame issues one
start exactly when the input is not zero and the flag was clear, one stop
exactly when the input is zero and the flag was set, and no walk call
otherwise (so never a start while already walking). Hence, in the log of walk
calls, starts and stops take turns beginning with a start and the flag is set
exactly when the latest call is a start: this holds after the frame, after
any further events, and in every session reached from the initial one. -/
theorem walk_animation_alternates (E : Engine α) (deltaTime : α) (s : Session α)
    (p : Mesh α) (c : Camera α) (g : AnimationGroup)
    (hp : s.playerMesh = some p) (hc : s.followCamera = some c)
    (hg : s.walkAnimationGroup = some g) (hinv : Alternating s.isWalking (walkLog s)) :
    (onBeforeRender E deltaTime s).isWalking = isMoving s ∧
    (onBeforeRender E deltaTime s).walkAnimationGroup.isSome = true ∧
    walkLog (onBeforeRender E deltaTime s) =
      (if isMoving s = true ∧ s.isWalking = false then Call.walkStart :: walkLog s
        else if isMoving s = false ∧ s.isWalking = true then Call.walkStop :: walkLog s
        else walkLog s) ∧
    Alternating (onBeforeRender E deltaTime s).isWalking
      (walkLog (onBeforeRender E deltaTime s)) ∧
    (∀ events, Alternating (run E (onBeforeRender E deltaTime s) events).isWalking
      (walkLog (run E (onBeforeRender E deltaTime s) events))) ∧
    (∀ (setup : Setup α) events,
      Alternating (run E (initialSession setup) events).isWalking
        (walkLog (run E (initialSession setup) events))) := by
  have hv := walkView_onBeforeRender E deltaTime s p c hp hc
  rw [walkView_eq s g hg] at hv
  have h1 : (onBeforeRender E deltaTime s).isWalking = (walkView (onBeforeRender E deltaTime s)).1 :=
    rfl
  have h2 : (onBeforeRender E deltaTime s).walkAnimationGroup =
      (walkView (onBeforeRender E deltaTime s)).2.1 := rfl
  have h3 : walkLog (onBeforeRender E deltaTime s) =
      (walkView (onBeforeRender E deltaTime s)).2.2.2.filter
        (fun c => decide (c = Call.walkStart ∨ c = Call.walkStop)) := rfl
  have hstep := alternating_onBeforeRender E deltaTime s hinv
  refine ⟨?_, ?_, ?_, hstep, fun events => alternating_run E events _ hstep,
    fun setup events => alternating_run E events _ trivial⟩
  · rw [h1, hv]
    cases hm : isMoving s with
    | true => simpa using (startWalkingView_some s.isWalking g s.footstepSound s.calls).1
    | false => simpa using (stopWalkingView_some s.isWalking g s.footstepSound s.calls).1
  · rw [h2, hv]
    cases hm : isMoving s with
    | true => simpa using (startWalkingView_some s.isWalking g s.footstepSound s.calls).2.1
    | false => simpa using (stopWalkingView_some s.isWalking g s.footstepSound s.calls).2.1
  · rw [h3, hv]
    cases hm : isMoving s with
    | true =>
      simp only [if_true, true_and, Bool.true_eq_false, false_and, if_false]
      exact (startWalkingView_some s.isWalking g s.footstepSound s.calls).2.2
    | false =>
      simp only [Bool.false_eq_true, if_false, false_and, true_and]
      exact (stopWalkingView_some s.isWalking g s.footstepSound s.calls).2.2

theorem isMoving_walkerSession : isMoving walkerSession = true := by
  unfold isMoving
  rw [show walkerSession.inputState = ⟨true, false, false, false⟩ from rfl,
    Vector3.equals_eq_false moveVector_forward_ne_zero]
  rfl

theorem isMoving_placeholderWalkSession : isMoving placeholderWalkSession = true := by
  unfold isMoving
  rw [show placeholderWalkSession.inputState = ⟨true, false, false, false⟩ from rfl,
    Vector3.equals_eq_false moveVector_forward_ne_zero]
  rfl

/-- C24 at a concrete session: a player with a walk animation, standing, the
forward key held: the frame sets the flag and issues one start. -/
theorem walk_animation_alternates_witness :
    (onBeforeRender realEngine 16 walkerSession).isWalking = true ∧
    walkLog (onBeforeRender realEngine 16 walkerSession) = [Call.walkStart] := by
  obtain ⟨h1, _, h3, _⟩ := walk_animation_alternates realEngine 16 walkerSession
    ⟨⟨0, 1, 0⟩, Vector3.Zero, none, ⟨1, 1, 1⟩, none⟩ ⟨⟨0, 5, -8⟩, 10, 1⟩
    ⟨"Walk", true, false⟩ rfl rfl rfl trivial
  rw [isMoving_walkerSession] at h1 h3
  refine ⟨h1, ?_⟩
  rw [h3, if_pos ⟨rfl, rfl⟩]
  rfl

/-- C25 (amended): in a frame with player and camera loaded, the footstep
sound follows the walk animation. With an animation group available: on the
transition to moving (input not zero, flag clear) the sound, when available,
is playing afterwards, and on the transition to stationary (input zero, flag
set) it is paused afterwards, and rewound if it was playing. With no
animation group (the placeholder player) the frame leaves the flag, the sound
and the call log as they were, moving or not. -/
theorem footstep_sound_follows_animation (E : Engine α) (deltaTime : α) (s : Session α)
    (p : Mesh α) (c : Camera α)
    (hp : s.playerMesh = some p) (hc : s.followCamera = some c) :
    (∀ g a, s.walkAnimationGroup = some g → s.footstepSound = some a →
      isMoving s = true → s.isWalking = false →
      ∃ a', (onBeforeRender E deltaTime s).footstepSound = some a' ∧ a'.paused = false) ∧
    (∀ g a, s.walkAnimationGroup = some g → s.footstepSound = some a →
      isMoving s = false → s.isWalking = true →
      ∃ a', (onBeforeRender E deltaTime s).footstepSound = some a' ∧ a'.paused = true ∧
        (a.paused = false → a'.currentTime = 0)) ∧
    (s.walkAnimationGroup = none →
      (onBeforeRender E deltaTime s).isWalking = s.isWalking ∧
      (onBeforeRender E deltaTime s).footstepSound = s.footstepSound ∧
      (onBeforeRender E deltaTime s).calls = s.calls) := by
  have hv := walkView_onBeforeRender E deltaTime s p c hp hc
  have hf : (onBeforeRender E deltaTime s).footstepSound =
      (walkView (onBeforeRender E deltaTime s)).2.2.1 := rfl
  refine ⟨?_, ?_, ?_⟩
  · intro g a hg ha hm hw
    rw [hf, hv, hm, if_pos rfl]
    unfold walkView
    rw [hg, ha, hw]
    cases hpa : a.paused with
    | true =>
      refine ⟨a.play, ?_, rfl⟩
      simp [startWalkingView, hpa]
    | false =>
      refine ⟨a, ?_, hpa⟩
      simp [startWalkingView, hpa]
  · intro g a hg ha hm hw
    rw [hf, hv, hm, if_neg (by decide)]
    unfold walkView
    rw [hg, ha, hw]
    cases hpa : a.paused with
    | true =>
      refine ⟨a, ?_, hpa, fun h => Bool.noConfusion h⟩
      simp [stopWalkingView, hpa]
    | false =>
      refine ⟨{ a.pause with currentTime := 0 }, ?_, rfl, fun _ => rfl⟩
      simp [stopWalkingView, hpa]
  · intro hg
    have hsame : walkView (onBeforeRender E deltaTime s) = walkView s := by
      rw [hv]
      unfold walkView
      rw [hg]
      cases s.isWalking <;> cases isMoving s <;> rfl
    exact ⟨congrArg Prod.fst hsame, congrArg (fun v => v.2.2.1) hsame,
      congrArg (fun v => v.2.2.2) hsame⟩

/-- C25, as stated, fails: with the placeholder player (no animation group),
the footstep sound available and paused, the flag clear and the forward key
held, the frame does not start the sound: it is still paused and no call has
been made. -/
theorem footstep_without_animation_counterexample :
    placeholderWalkSession.walkAnimationGroup = none ∧
    placeholderWalkSession.footstepSound = some ⟨true, 0, 5 / 10⟩ ∧
    placeholderWalkSession.isWalking = false ∧
    isMoving placeholderWalkSession = true ∧
    (onBeforeRender realEngine 16 placeholderWalkSession).footstepSound =
      some ⟨true, 0, 5 / 10⟩ ∧
    (onBeforeRender realEngine 16 placeholderWalkSession).calls = [] := by
  have hv := walkView_onBeforeRender realEngine 16 placeholderWalkSession
    ⟨⟨0, 1, 0⟩, Vector3.Zero, none, ⟨1, 1, 1⟩, none⟩ ⟨⟨0, 5, -8⟩, 10, 1⟩ rfl rfl
  rw [isMoving_placeholderWalkSession, if_pos rfl] at hv
  have hsame : walkView (onBeforeRender realEngine 16 placeholderWalkSession) =
      walkView placeholderWalkSession := hv
  exact ⟨rfl, rfl, rfl, isMoving_placeholderWalkSession,
    congrArg (fun v => v.2.2.1) hsame, congrArg (fun v => v.2.2.2) hsame⟩

/-- C25 (amended) at a concrete session: a player with a walk animation and a
paused footstep sound, the forward key held: after the frame the sound is
playing. -/
theorem footstep_sound_follows_animation_witness :
    ∃ a', (onBeforeRender realEngine 16 walkerSession).footstepSound = some a' ∧
      a'.paused = false :=
  (footstep_sound_follows_animation realEngine 16 walkerSession
    ⟨⟨0, 1, 0⟩, Vector3.Zero, none, ⟨1, 1, 1⟩, none⟩ ⟨⟨0, 5, -8⟩, 10, 1⟩ rfl rfl).1
    ⟨"Walk", true, false⟩ ⟨true, 0, 5 / 10⟩ rfl rfl isMoving_walkerSession rfl

end WalkTheorems

/-! ## Feedback message: the hide timer is replaced, not stacked -/

section FeedbackTheorems

variable {α : Type} [LinearOrderedField α] [FloorRing α]

theorem feedbackTimers_of_view (s t : Session α) (h : timerView t = timerView s)
    (hs : FeedbackTimers s) : FeedbackTimers t := by
  unfold timerView at h
  simp only [Prod.mk.injEq] at h
  obtain ⟨h1, h2, h3⟩ := h
  unfold FeedbackTimers
  rw [h1, h2, h3]
  exact hs

theorem feedbackTimers_clearTimer (id : Nat) (s : Session α) (hs : FeedbackTimers s) :
    FeedbackTimers (clearTimer id s) := by
  obtain ⟨h0, h1, h2, h3⟩ := hs
  refine ⟨h0, ?_, ?_, ?_⟩
  · intro t ht
    exact h1 t (List.mem_of_mem_filter ht)
  · exact h2.sublist ((List.filter_sublist _).map _)
  · intro t ht
    exact h3 t (List.mem_of_mem_filter ht)

theorem feedbackTimers_schedule (a : TimerAction) (d : Nat) (r : Bool) (s : Session α)
    (ha : a ≠ TimerAction.hideFeedback) (hs : FeedbackTimers s) :
    FeedbackTimers (schedule a d r s) := by
  obtain ⟨h0, h1, h2, h3⟩ := hs
  refine ⟨Nat.succ_pos _, ?_, ?_, ?_⟩
  · intro t ht
    rcases List.mem_cons.mp ht with rfl | ht
    · exact ⟨h0, Nat.lt_succ_self _⟩
    · exact ⟨(h1 t ht).1, Nat.lt_succ_of_lt (h1 t ht).2⟩
  · show ((⟨s.nextTimerId, a, d, r⟩ :: s.timers).map Timer.id).Nodup
    rw [List.map_cons, List.nodup_cons]
    refine ⟨?_, h2⟩
    intro hmem
    obtain ⟨t, ht, hid⟩ := List.mem_map.mp hmem
    have hlt := (h1 t ht).2
    have hid2 : t.id = s.nextTimerId := hid
    omega
  · intro t ht hact
    rcases List.mem_cons.mp ht with rfl | ht
    · exact absurd hact ha
    · exact h3 t ht hact

/-- What `showFeedback` does to the timers when the element is present: the
new hide timer is pending, and of the earlier timers only some that do not
hide the message. -/
theorem showFeedback_timers (msg : String) (d : Nat) (s : Session α) (f : FeedbackEl)
    (hf : s.feedbackEl = some f) (hs : FeedbackTimers s) :
    ∃ rest, (showFeedback msg d s).timers =
        ⟨s.nextTimerId, TimerAction.hideFeedback, d, false⟩ :: rest ∧
      rest.Sublist s.timers ∧ (∀ t ∈ rest, t.action ≠ TimerAction.hideFeedback) ∧
      (showFeedback msg d s).nextTimerId = s.nextTimerId + 1 ∧
      (showFeedback msg d s).feedbackTimeoutId = some s.nextTimerId ∧
      (showFeedback msg d s).feedbackEl = some ⟨msg, true⟩ := by
  obtain ⟨h0, h1, h2, h3⟩ := hs
  cases hid : s.feedbackTimeoutId with
  | none =>
    refine ⟨s.timers, ?_, List.Sublist.refl _, ?_, ?_, ?_, ?_⟩
    · simp [showFeedback, hf, hid, schedule]
    · intro t ht hact
      have := h3 t ht hact
      rw [hid] at this
      cases this
    · simp [showFeedback, hf, hid, schedule]
    · simp [showFeedback, hf, hid, schedule]
    · simp [showFeedback, hf, hid, schedule]
  | some id =>
    by_cases hz : id = 0
    · refine ⟨s.timers, ?_, List.Sublist.refl _, ?_, ?_, ?_, ?_⟩
      · simp [showFeedback, hf, hid, hz, schedule]
      · intro t ht hact
        have h := h3 t ht hact
        rw [hid, hz] at h
        have hpos := (h1 t ht).1
        have hid0 : 0 = t.id := Option.some.inj h
        omega
      · simp [showFeedback, hf, hid, hz, schedule]
      · simp [showFeedback, hf, hid, hz, schedule]
      · simp [showFeedback, hf, hid, hz, schedule]
    · refine ⟨s.timers.filter (fun t => t.id ≠ id), ?_, List.filter_sublist _, ?_, ?_, ?_, ?_⟩
      · simp [showFeedback, hf, hid, hz, schedule, clearTimer]
      · intro t ht hact
        have hmem := List.mem_of_mem_filter ht
        have h := h3 t hmem hact
        rw [hid] at h
        have hne : t.id ≠ id := by simpa using (List.mem_filter.mp ht).2
        exact hne (Option.some.inj h).symm
      · simp [showFeedback, hf, hid, hz, schedule, clearTimer]
      · simp [showFeedback, hf, hid, hz, schedule, clearTimer]
      · simp [showFeedback, hf, hid, hz, schedule, clearTimer]

theorem feedbackTimers_showFeedback (msg : String) (d : Nat) (s : Session α)
    (hs : FeedbackTimers s) : FeedbackTimers (showFeedback msg d s) := by
  cases hf : s.feedbackEl with
  | none =>
    have : showFeedback msg d s = s := by
      unfold showFeedback
      rw [hf]
    rw [this]
    exact hs
  | some f =>
    obtain ⟨rest, ht, hsub, hno, hn, hid, _⟩ := showFeedback_timers msg d s f hf hs
    obtain ⟨h0, h1, h2, h3⟩ := hs
    unfold FeedbackTimers
    rw [ht, hn, hid]
    refine ⟨Nat.succ_pos _, ?_, ?_, ?_⟩
    · intro t htm
      rcases List.mem_cons.mp htm with rfl | htm
      · exact ⟨h0, Nat.lt_succ_self _⟩
      · exact ⟨(h1 t (hsub.subset htm)).1, Nat.lt_succ_of_lt (h1 t (hsub.subset htm)).2⟩
    · rw [List.map_cons, List.nodup_cons]
      refine ⟨?_, h2.sublist (hsub.map _)⟩
      intro hmem
      obtain ⟨t, htm, hti⟩ := List.mem_map.mp hmem
      have hlt := (h1 t (hsub.subset htm)).2
      have hid2 : t.id = s.nextTimerId := hti
      omega
    · intro t htm hact
      rcases List.mem_cons.mp htm with rfl | htm
      · rfl
      · exact absurd hact (hno t htm)

/-- Under the invariant at most one timer that hides the message is pending. -/
theorem hideTimers_length_le_one (s : Session α) (hs : FeedbackTimers s) :
    (hideTimers s).length ≤ 1 := by
  obtain ⟨_, _, h2, h3⟩ := hs
  have hsub : (hideTimers s).Sublist s.timers := List.filter_sublist _
  have hnd : ((hideTimers s).map Timer.id).Nodup := h2.sublist (hsub.map _)
  have hall : ∀ t ∈ hideTimers s, s.feedbackTimeoutId = some t.id := by
    intro t ht
    have hm := List.mem_filter.mp ht
    exact h3 t hm.1 (by simpa using hm.2)
  match hl : hideTimers s with
  | [] => simp
  | [a] => simp
  | a :: b :: rest =>
    rw [hl] at hnd hall
    have ha := hall a (List.mem_cons_self _ _)
    have hb := hall b (List.mem_cons_of_mem _ (List.mem_cons_self _ _))
    rw [ha] at hb
    have hab : a.id = b.id := Option.some.inj hb
    rw [List.map_cons, List.map_cons, List.nodup_cons] at hnd
    exact absurd (by rw [hab]; exact List.mem_cons_self _ _) hnd.1

theorem hideTimers_showFeedback (msg : String) (d : Nat) (s : Session α) (f : FeedbackEl)
    (hf : s.feedbackEl = some f) (hs : FeedbackTimers s) :
    hideTimers (showFeedback msg d s) =
      [⟨s.nextTimerId, TimerAction.hideFeedback, d, false⟩] := by
  obtain ⟨rest, ht, _, hno, _⟩ := showFeedback_timers msg d s f hf hs
  unfold hideTimers
  rw [ht, List.filter_cons_of_pos (by simp)]
  congr 1
  rw [List.filter_eq_nil_iff]
  intro t htm
  simpa using hno t htm

theorem showFeedbacks_cons (c : String × Nat) (calls : List (String × Nat)) (s : Session α) :
    showFeedbacks (c :: calls) s = showFeedbacks calls (showFeedback c.1 c.2 s) := rfl

/-- After a run of calls of `showFeedback` with the element present, the
message shown and the one pending hide timer are those of the latest call. -/
theorem showFeedbacks_latest (calls : List (String × Nat)) :
    ∀ (msg : String) (d : Nat) (s : Session α) (f : FeedbackEl),
      s.feedbackEl = some f → FeedbackTimers s →
      (showFeedbacks calls (showFeedback msg d s)).feedbackEl =
        some ⟨(calls.getLast?.getD (msg, d)).1, true⟩ ∧
      ∃ id, hideTimers (showFeedbacks calls (showFeedback msg d s)) =
          [⟨id, TimerAction.hideFeedback, (calls.getLast?.getD (msg, d)).2, false⟩] ∧
        (showFeedbacks calls (showFeedback msg d s)).feedbackTimeoutId = some id := by
  induction calls with
  | nil =>
    intro msg d s f hf hs
    obtain ⟨rest, _, _, _, _, hid, hel⟩ := showFeedback_timers msg d s f hf hs
    exact ⟨hel, s.nextTimerId, hideTimers_showFeedback msg d s f hf hs, hid⟩
  | cons c cs ih =>
    intro msg d s f hf hs
    obtain ⟨rest, _, _, _, _, _, hel⟩ := showFeedback_timers msg d s f hf hs
    have h := ih c.1 c.2 (showFeedback msg d s) ⟨msg, true⟩ hel
      (feedbackTimers_showFeedback msg d s hs)
    have hlast : (c :: cs).getLast?.getD (msg, d) = cs.getLast?.getD (c.1, c.2) := by
      cases cs with
      | nil => rfl
      | cons b bs =>
        rw [List.getLast?_cons_cons]
        cases hb : (b :: bs).getLast? with
        | none => exact absurd (List.getLast?_eq_none_iff.mp hb) (List.cons_ne_nil _ _)
        | some v => rfl
    rw [showFeedbacks_cons, hlast]
    exact h

theorem timerView_updateBabylonGUI (E : Engine α) (s : Session α) :
    timerView (updateBabylonGUI E s) = timerView s := by
  unfold updateBabylonGUI
  split <;> rfl

theorem timerView_startWalking (s : Session α) : timerView (startWalking s) = timerView s := by
  unfold startWalking
  split
  · simp only []
    (repeat' split) <;> rfl
  · rfl

theorem timerView_stopWalking (s : Session α) : timerView (stopWalking s) = timerView s := by
  unfold stopWalking
  split
  · simp only []
    (repeat' split) <;> rfl
  · rfl

theorem timerView_movementStep (E : Engine α) (s : Session α) (p : Mesh α) (c : Camera α) :
    timerView (movementStep E s p c) = timerView s := by
  unfold movementStep
  simp only []
  rw [timerView_updateBabylonGUI]
  split
  · rw [timerView_startWalking]
    rfl
  · rw [timerView_stopWalking]
    rfl

theorem timerView_onBeforeRender (E : Engine α) (deltaTime : α) (s : Session α) :
    timerView (onBeforeRender E deltaTime s) = timerView s := by
  unfold onBeforeRender
  simp only []
  split
  · rw [timerView_movementStep]
    simp only [timerView]
    split <;> rfl
  · simp only [timerView]
    split <;> rfl

theorem feedbackTimers_pickUp (E : Engine α) (s : Session α) (m : Mesh α)
    (hs : FeedbackTimers s) : FeedbackTimers (pickUp E s m) := by
  have key : ∀ t : Session α, FeedbackTimers t →
      FeedbackTimers (match t.pickupSound with
        | some a =>
          { t with
            pickupSound := some (Audio.play { a with currentTime := 0 })
            calls := Call.pickupPlay :: t.calls }
        | none => t) := by
    intro t ht
    cases t.pickupSound with
    | none => exact ht
    | some a => exact feedbackTimers_of_view t _ rfl ht
  unfold pickUp
  simp only []
  refine key _ (feedbackTimers_showFeedback _ _ _ ?_)
  exact feedbackTimers_of_view s _ rfl hs

theorem feedbackTimers_deliver (E : Engine α) (s : Session α)
    (hs : FeedbackTimers s) : FeedbackTimers (deliver E s) := by
  have key : ∀ t : Session α, FeedbackTimers t →
      FeedbackTimers (match t.bgMusic with
        | some a => if a.paused then t else schedule TimerAction.fadeOut 100 true t
        | none => t) := by
    intro t ht
    cases t.bgMusic with
    | none => exact ht
    | some a =>
      by_cases hp : a.paused = true
      · simpa [hp] using ht
      · simpa [hp] using feedbackTimers_schedule TimerAction.fadeOut 100 true t (by decide) ht
  have key2 : ∀ t : Session α, FeedbackTimers t →
      FeedbackTimers (match t.successSound with
        | some a =>
          { t with
            successSound := some (Audio.play { a with currentTime := 0 })
            calls := Call.successPlay :: t.calls }
        | none => t) := by
    intro t ht
    cases t.successSound with
    | none => exact ht
    | some a => exact feedbackTimers_of_view t _ rfl ht
  have key3 : ∀ t : Session α, FeedbackTimers t → FeedbackTimers (triggerVictoryEffect t) := by
    intro t ht
    unfold triggerVictoryEffect
    exact feedbackTimers_schedule _ 1200 false _ (by simp) (feedbackTimers_of_view t _ rfl ht)
  unfold deliver
  simp only []
  refine key _ (key2 _ (key3 _ (feedbackTimers_showFeedback _ _ _ ?_)))
  refine feedbackTimers_of_view s _ ?_ hs
  show timerView (updateUI { (match s.serverMesh with
    | some serverMesh => _
    | none => _ : Session α) with gameState := GameState.completado }) = _
  cases s.serverMesh <;> rfl

theorem feedbackTimers_tryInteract (E : Engine α) (s : Session α)
    (hs : FeedbackTimers s) : FeedbackTimers (tryInteract E s) := by
  rcases tryInteract_cases E s with h | ⟨m, h⟩ | h
  · rw [h]
    exact hs
  · rw [h]
    exact feedbackTimers_pickUp E s m hs
  · rw [h]
    exact feedbackTimers_deliver E s hs

theorem feedbackTimers_handleInput (E : Engine α) (key : String) (pressed : Bool)
    (s : Session α) (hs : FeedbackTimers s) : FeedbackTimers (handleInput E key pressed s) := by
  rcases handleInput_structure E key pressed s with ⟨i, h⟩ | ⟨_, _, h⟩
  · rw [h]
    exact feedbackTimers_of_view s _ rfl hs
  · rw [h]
    exact feedbackTimers_tryInteract E s hs

theorem feedbackTimers_fadeOutStep (id : Nat) (s : Session α) (hs : FeedbackTimers s) :
    FeedbackTimers (fadeOutStep id s) := by
  unfold fadeOutStep
  split
  · exact hs
  · split
    · exact feedbackTimers_of_view s _ rfl hs
    · exact feedbackTimers_clearTimer id _ (feedbackTimers_of_view s _ rfl hs)

theorem feedbackTimers_fireTimer (id : Nat) (s : Session α) (hs : FeedbackTimers s) :
    FeedbackTimers (fireTimer id s) := by
  have h1 : ∀ r : Bool, FeedbackTimers (if r = true then s else clearTimer id s) := by
    intro r
    cases r with
    | true => exact hs
    | false => exact feedbackTimers_clearTimer id s hs
  unfold fireTimer
  split
  · exact hs
  · rename_i t _
    simp only []
    split
    · exact feedbackTimers_of_view _ _ rfl (h1 t.repeats)
    · exact feedbackTimers_of_view _ _ rfl (h1 t.repeats)
    · exact feedbackTimers_fadeOutStep id _ (h1 t.repeats)

theorem feedbackTimers_step (E : Engine α) (s : Session α) (e : Event α)
    (hs : FeedbackTimers s) : FeedbackTimers (step E s e) := by
  cases e with
  | keyDown key => exact feedbackTimers_handleInput E key.toLower true s hs
  | keyUp key => exact feedbackTimers_handleInput E key.toLower false s hs
  | frame deltaTime =>
    exact feedbackTimers_of_view s _ (timerView_onBeforeRender E deltaTime s) hs
  | cameraMoved camera => exact feedbackTimers_of_view s _ rfl hs
  | playerLoaded meshes groups =>
    refine feedbackTimers_of_view s _ ?_ hs
    show timerView (handlePlayerLoaded meshes groups s) = timerView s
    unfold handlePlayerLoaded
    split <;> rfl
  | playerLoadError => exact feedbackTimers_of_view s _ rfl hs
  | serverLoaded meshes =>
    refine feedbackTimers_of_view s _ ?_ hs
    show timerView (handleServerLoaded meshes s) = timerView s
    unfold handleServerLoaded
    split <;> rfl
  | serverLoadError => exact feedbackTimers_of_view s _ rfl hs
  | pageInteraction =>
    refine feedbackTimers_of_view s _ ?_ hs
    show timerView (startAudioOnInteraction s) = timerView s
    unfold startAudioOnInteraction
    split <;> rfl
  | timer id => exact feedbackTimers_fireTimer id s hs

theorem feedbackTimers_run (E : Engine α) (events : List (Event α)) :
    ∀ s : Session α, FeedbackTimers s → FeedbackTimers (run E s events) := by
  induction events with
  | nil => exact fun s hs => hs
  | cons e rest ih => exact fun s hs => ih (step E s e) (feedbackTimers_step E s e hs)

theorem feedbackTimers_initialSession (c : Setup α) : FeedbackTimers (initialSession c) := by
  refine ⟨Nat.one_pos, ?_, List.nodup_nil, ?_⟩
  · intro t ht
    cases ht
  · intro t ht
    cases ht

/-- C26: with the feedback element present, in a session that satisfies the
timer invariant (as every session reached from the initial one does), a call
of `showFeedback` leaves exactly one pending timer that hides the message,
its own: every hide timer that was pending before is gone, the identifier
remembered is that of the new timer, and the message shown is the one of the
call. After any further calls of `showFeedback` there is still exactly one
pending hide timer, with the duration of the latest call, and the message
shown is that of the latest call. In every session reached from the initial
one by any events (key presses, frames, timers that fire, loads), at most one
hide timer is pending. -/
theorem showFeedback_replaces (E : Engine α) (msg : String) (d : Nat) (s : Session α)
    (f : FeedbackEl) (hf : s.feedbackEl = some f) (hs : FeedbackTimers s) :
    hideTimers (showFeedback msg d s) =
      [⟨s.nextTimerId, TimerAction.hideFeedback, d, false⟩] ∧
    (showFeedback msg d s).feedbackTimeoutId = some s.nextTimerId ∧
    (showFeedback msg d s).feedbackEl = some ⟨msg, true⟩ ∧
    (∀ t ∈ hideTimers s, t ∉ (showFeedback msg d s).timers) ∧
    (∀ calls : List (String × Nat),
      (showFeedbacks calls (showFeedback msg d s)).feedbackEl =
        some ⟨(calls.getLast?.getD (msg, d)).1, true⟩ ∧
      ∃ id, hideTimers (showFeedbacks calls (showFeedback msg d s)) =
          [⟨id, TimerAction.hideFeedback, (calls.getLast?.getD (msg, d)).2, false⟩] ∧
        (showFeedbacks calls (showFeedback msg d s)).feedbackTimeoutId = some id) ∧
    (∀ (setup : Setup α) (events : List (Event α)),
      (hideTimers (run E (initialSession setup) events)).length ≤ 1) := by
  obtain ⟨rest, ht, hsub, hno, _, hid, hel⟩ := showFeedback_timers msg d s f hf hs
  refine ⟨hideTimers_showFeedback msg d s f hf hs, hid, hel, ?_,
    fun calls => showFeedbacks_latest calls msg d s f hf hs,
    fun setup events => hideTimers_length_le_one _
      (feedbackTimers_run E events _ (feedbackTimers_initialSession setup))⟩
  intro t htm hmem
  have hm := List.mem_filter.mp htm
  have hact : t.action = TimerAction.hideFeedback := by simpa using hm.2
  rw [ht] at hmem
  rcases List.mem_cons.mp hmem with heq | hr
  · have hlt := (hs.2.1 t hm.1).2
    rw [heq] at hlt
    exact Nat.lt_irrefl _ hlt
  · exact hno t hr hact

/-- C26 at a concrete session: on the initial page, a first message and then
a second one: one hide timer is pending, the second one (identifier 2,
4000 ms), and the second message is shown. -/
theorem showFeedback_replaces_witness :
    (showFeedbacks [("segundo", 4000)]
        (showFeedback "primero" 3500 (initialSession plainSetup))).feedbackEl =
      some ⟨"segundo", true⟩ ∧
    ∃ id, hideTimers (showFeedbacks [("segundo", 4000)]
        (showFeedback "primero" 3500 (initialSession plainSetup))) =
        [⟨id, TimerAction.hideFeedback, 4000, false⟩] ∧
      (showFeedbacks [("segundo", 4000)]
        (showFeedback "primero" 3500 (initialSession plainSetup))).feedbackTimeoutId =
        some id :=
  (showFeedback_replaces realEngine "primero" 3500 (initialSession plainSetup) ⟨"", false⟩
    rfl (feedbackTimers_initialSession plainSetup)).2.2.2.2.1 [("segundo", 4000)]

end FeedbackTheorems

end TecnicoTI

/-! ## Forest scene: the flight of the bird -/

namespace ForestScene

open TecnicoTI

section FlightTheorems

variable {α : Type} [LinearOrderedField α]

theorem sin_bounds (E : Engine α) (hcs : ∀ a, E.cos a * E.cos a + E.sin a * E.sin a = 1)
    (a : α) : -1 ≤ E.sin a ∧ E.sin a ≤ 1 := by
  have h := hcs a
  have hc : 0 ≤ E.cos a * E.cos a := mul_self_nonneg _
  have hs : E.sin a * E.sin a ≤ 1 := by linarith
  constructor <;> nlinarith

theorem beforeRender_loaded (E : Engine α) (s : Flight α) (b : BirdMesh α)
    (hb : s.terrorbirdMesh = some b) :
    beforeRender E s =
      { terrorbirdMesh := some
          { b with
            position :=
              ⟨E.cos (s.birdMovementAngle + 1 / 100 * birdSpeed) * birdRadius,
                birdHeight + E.sin ((s.birdMovementAngle + 1 / 100 * birdSpeed) * 3) * (5 / 10),
                E.sin (s.birdMovementAngle + 1 / 100 * birdSpeed) * birdRadius⟩
            rotation := { b.rotation with
              y := -(s.birdMovementAngle + 1 / 100 * birdSpeed) + E.PI / 2 } }
        birdMovementAngle := s.birdMovementAngle + 1 / 100 * birdSpeed
        birdLightPosition :=
          ⟨E.cos (s.birdMovementAngle + 1 / 100 * birdSpeed) * birdRadius, birdHeight + 2,
            E.sin (s.birdMovementAngle + 1 / 100 * birdSpeed) * birdRadius⟩
        animationStarted := true } := by
  unfold beforeRender
  rw [hb]

theorem beforeRender_iterate_angle (E : Engine α) (n : Nat) (s : Flight α)
    (h : s.terrorbirdMesh.isSome = true) :
    ((beforeRender E)^[n] s).terrorbirdMesh.isSome = true ∧
    ((beforeRender E)^[n] s).birdMovementAngle = s.birdMovementAngle + (n : α) * (5 / 1000) := by
  induction n generalizing s with
  | zero => exact ⟨h, by simp⟩
  | succ k ih =>
    cases hb : s.terrorbirdMesh with
    | none =>
      rw [hb] at h
      cases h
    | some b =>
      rw [Function.iterate_succ_apply]
      have hstep := beforeRender_loaded E s b hb
      obtain ⟨h1, h2⟩ := ih (beforeRender E s) (by rw [hstep]; rfl)
      refine ⟨h1, ?_⟩
      rw [h2, hstep]
      simp only [birdSpeed]
      push_cast
      ring

/-- C30: with `cos` and `sin` on the unit circle, once the bird mesh is
loaded every frame adds exactly 0.005 to the flight angle (so `n` frames add
`0.005 n`), puts the bird on the circle `x² + z² = 64` at a height within
`[2.5, 3.5]`, and puts the light at the bird's `(x, z)` at height 5; while
the mesh is not loaded a frame changes nothing. -/
theorem bird_flight (E : Engine α)
    (hcs : ∀ a, E.cos a * E.cos a + E.sin a * E.sin a = 1) (s : Flight α) :
    (s.terrorbirdMesh = none → beforeRender E s = s) ∧
    (∀ b, s.terrorbirdMesh = some b →
      (beforeRender E s).birdMovementAngle = s.birdMovementAngle + 5 / 1000 ∧
      (∀ n : Nat, ((beforeRender E)^[n] s).birdMovementAngle =
        s.birdMovementAngle + (n : α) * (5 / 1000)) ∧
      ∃ b', (beforeRender E s).terrorbirdMesh = some b' ∧
        b'.position.x * b'.position.x + b'.position.z * b'.position.z = 64 ∧
        25 / 10 ≤ b'.position.y ∧ b'.position.y ≤ 35 / 10 ∧
        (beforeRender E s).birdLightPosition = ⟨b'.position.x, 5, b'.position.z⟩) := by
  constructor
  · intro h
    unfold beforeRender
    rw [h]
  · intro b hb
    have hstep := beforeRender_loaded E s b hb
    refine ⟨?_, ?_, ?_⟩
    · rw [hstep]
      simp only [birdSpeed]
      ring
    · intro n
      exact (beforeRender_iterate_angle E n s (by rw [hb]; rfl)).2
    · rw [hstep]
      refine ⟨_, rfl, ?_, ?_, ?_, ?_⟩
      · have h := hcs (s.birdMovementAngle + 1 / 100 * birdSpeed)
        simp only [birdRadius]
        have hr : E.cos (s.birdMovementAngle + 1 / 100 * birdSpeed) * 8 *
            (E.cos (s.birdMovementAngle + 1 / 100 * birdSpeed) * 8) +
            E.sin (s.birdMovementAngle + 1 / 100 * birdSpeed) * 8 *
            (E.sin (s.birdMovementAngle + 1 / 100 * birdSpeed) * 8) =
            64 * (E.cos (s.birdMovementAngle + 1 / 100 * birdSpeed) *
              E.cos (s.birdMovementAngle + 1 / 100 * birdSpeed) +
              E.sin (s.birdMovementAngle + 1 / 100 * birdSpeed) *
              E.sin (s.birdMovementAngle + 1 / 100 * birdSpeed)) := by ring
        rw [hr, h, mul_one]
      · have h := (sin_bounds E hcs ((s.birdMovementAngle + 1 / 100 * birdSpeed) * 3)).1
        simp only [birdHeight]
        linarith
      · have h := (sin_bounds E hcs ((s.birdMovementAngle + 1 / 100 * birdSpeed) * 3)).2
        simp only [birdHeight]
        linarith
      · simp only [birdHeight, Vector3.mk.injEq]
        refine ⟨trivial, ?_, trivial⟩
        norm_num

/-- C30 with exact real functions: the first frame after the bird has loaded
brings the flight angle from 0 to 0.005. -/
theorem bird_flight_witness :
    (beforeRender realEngine
      (birdLoaded realEngine ⟨Vector3.Zero, Vector3.Zero, ⟨1, 1, 1⟩⟩
        initialFlight)).birdMovementAngle = 0 + 5 / 1000 ∧
    beforeRender realEngine (initialFlight : Flight ℝ) = initialFlight :=
  ⟨((bird_flight realEngine exactMath_realEngine.2
      (birdLoaded realEngine ⟨Vector3.Zero, Vector3.Zero, ⟨1, 1, 1⟩⟩ initialFlight)).2 _ rfl).1,
   (bird_flight realEngine exactMath_realEngine.2 initialFlight).1 rfl⟩

end FlightTheorems

end ForestScene
